import Mathlib

/-!
# Karyotype.js: a shallow embedding

The component `src/Karyotype.js` draws a genome karyotype as an SVG element.
This file embeds its constructor, `switchVisualization`,
`getTooltipGlyphPath` and `visualizeKaryotype` as Lean functions on an explicit
object state, and proves properties of them.

Conventions of the embedding

* Base-pair coordinates, sizes, hit counts and colour codes are natural
  numbers (`[ startPos, endPos, hitCount ]` in the source's data description).
  Integers are exact and are printed as decimal numerals, as JavaScript
  prints the integers it represents exactly.
* JavaScript numbers that are not plain naturals are `JsNum` and `JsInt` (what
  `Math.floor` and `Math.ceil` return); both carry `Infinity`, `-Infinity` and
  `NaN`.  A finite `JsNum` is given by a rational, and the operators `+`, `-`,
  `*` and `/` round their exact result to the nearest IEEE-754 binary64 number
  (`roundDouble`), as JavaScript does.  The sign of zero is not tracked.
  Integers in the data and pixel coordinates are below `2^53`, where doubles
  represent them exactly: `JsNum.ofNat` and the integer operators `JsInt.add`
  and `JsInt.sub` do not round.  In `Math.ceil(count / legendRangeSize)` the
  quotient is taken exactly (`JsNum.quotient`); for integers below `2^53` the
  rounded quotient has the same ceiling (`ceil_div_eq_ceil_quotient`).
* The conversion of a number to a string is the host's; where the source
  concatenates arbitrary numbers into a string (`getTooltipGlyphPath`) it is a
  parameter of the embedding.
* The DOM is a tree of `Node`s; an attribute keeps the JavaScript value that
  was handed to `setAttribute` (`JsVal`), the string the browser stores is
  `JsVal.toJsString` of it.
* `document.createElementNS(.., "svg")` allocates a fresh object: the object
  state counts the allocations (`svgCreated`) and an `Svg` carries the serial
  number it was allocated with, so two `Svg`s are the same instance exactly
  when their serials agree.
-/

namespace KaryotypeJs

/-! ## JavaScript values -/

/-- A JavaScript number; a finite value is given by a rational. -/
inductive JsNum where
  | fin (q : ℚ)
  | posInf
  | negInf
  | nan
  deriving DecidableEq

/-- An integral JavaScript number, the result type of `Math.floor` and `Math.ceil`. -/
inductive JsInt where
  | int (i : ℤ)
  | posInf
  | negInf
  | nan
  deriving DecidableEq

/-- A natural number as a JavaScript number. -/
def JsNum.ofNat (n : ℕ) : JsNum := .fin n

/-- A natural number as an integral JavaScript number. -/
def JsInt.ofNat (n : ℕ) : JsInt := .int n

/-- The integer nearest to a rational, the even one of the two when it lies
half way between two integers. -/
def roundHalfEven (x : ℚ) : ℤ :=
  if x - ⌊x⌋ < 1 / 2 then ⌊x⌋
  else if 1 / 2 < x - ⌊x⌋ then ⌊x⌋ + 1
  else if ⌊x⌋ % 2 = 0 then ⌊x⌋ else ⌊x⌋ + 1

/-- The binary exponent at which a positive rational is rounded to a double:
`floor(log2 q)`, and -1022 in the subnormal range. -/
def doubleExponent (q : ℚ) : ℤ :=
  max (Int.log 2 q) (-1022)

/-- The IEEE-754 binary64 value of a rational, rounded to nearest, ties to
even: the nearest multiple of `2^(e - 52)` where `e` is the binary exponent of
the rational, and an infinity when that is `2^1024` or more. -/
def roundDouble (q : ℚ) : JsNum :=
  if q = 0 then .fin 0
  else if (2 : ℚ) ^ (1024 : ℤ) ≤
      (roundHalfEven (|q| * 2 ^ (52 - doubleExponent |q|)) : ℚ) *
        2 ^ (doubleExponent |q| - 52) then
    (if 0 < q then .posInf else .negInf)
  else if 0 < q then
    .fin ((roundHalfEven (|q| * 2 ^ (52 - doubleExponent |q|)) : ℚ) *
      2 ^ (doubleExponent |q| - 52))
  else
    .fin (-((roundHalfEven (|q| * 2 ^ (52 - doubleExponent |q|)) : ℚ) *
      2 ^ (doubleExponent |q| - 52)))

/-- The operator `+` on JavaScript numbers. -/
def JsNum.add : JsNum → JsNum → JsNum
  | .nan, _ => .nan
  | _, .nan => .nan
  | .fin a, .fin b => roundDouble (a + b)
  | .fin _, .posInf => .posInf
  | .fin _, .negInf => .negInf
  | .posInf, .fin _ => .posInf
  | .negInf, .fin _ => .negInf
  | .posInf, .posInf => .posInf
  | .negInf, .negInf => .negInf
  | .posInf, .negInf => .nan
  | .negInf, .posInf => .nan

/-- The operator `-` on JavaScript numbers. -/
def JsNum.sub : JsNum → JsNum → JsNum
  | .nan, _ => .nan
  | _, .nan => .nan
  | .fin a, .fin b => roundDouble (a - b)
  | .fin _, .posInf => .negInf
  | .fin _, .negInf => .posInf
  | .posInf, .fin _ => .posInf
  | .negInf, .fin _ => .negInf
  | .posInf, .negInf => .posInf
  | .negInf, .posInf => .negInf
  | .posInf, .posInf => .nan
  | .negInf, .negInf => .nan

/-- The operator `*` on JavaScript numbers. -/
def JsNum.mul : JsNum → JsNum → JsNum
  | .nan, _ => .nan
  | _, .nan => .nan
  | .fin a, .fin b => roundDouble (a * b)
  | .fin a, .posInf => if a = 0 then .nan else if 0 < a then .posInf else .negInf
  | .fin a, .negInf => if a = 0 then .nan else if 0 < a then .negInf else .posInf
  | .posInf, .fin b => if b = 0 then .nan else if 0 < b then .posInf else .negInf
  | .negInf, .fin b => if b = 0 then .nan else if 0 < b then .negInf else .posInf
  | .posInf, .posInf => .posInf
  | .negInf, .negInf => .posInf
  | .posInf, .negInf => .negInf
  | .negInf, .posInf => .negInf

/-- The operator `/` on JavaScript numbers (a zero divisor is `+0`). -/
def JsNum.div : JsNum → JsNum → JsNum
  | .nan, _ => .nan
  | _, .nan => .nan
  | .fin a, .fin b =>
    if b = 0 then (if a = 0 then .nan else if 0 < a then .posInf else .negInf)
    else roundDouble (a / b)
  | .fin _, .posInf => .fin 0
  | .fin _, .negInf => .fin 0
  | .posInf, .fin b => if 0 ≤ b then .posInf else .negInf
  | .negInf, .fin b => if 0 ≤ b then .negInf else .posInf
  | .posInf, .posInf => .nan
  | .posInf, .negInf => .nan
  | .negInf, .posInf => .nan
  | .negInf, .negInf => .nan

/-- The quotient of two JavaScript numbers without the rounding of `JsNum.div`
(a zero divisor is `+0`).  It stands for `/` in `Math.ceil(count / size)` for
integer counts: there the rounded and the exact quotient have the same
ceiling as long as the integers are below `2^53`. -/
def JsNum.quotient : JsNum → JsNum → JsNum
  | .nan, _ => .nan
  | _, .nan => .nan
  | .fin a, .fin b =>
    if b = 0 then (if a = 0 then .nan else if 0 < a then .posInf else .negInf)
    else .fin (a / b)
  | .fin _, .posInf => .fin 0
  | .fin _, .negInf => .fin 0
  | .posInf, .fin b => if 0 ≤ b then .posInf else .negInf
  | .negInf, .fin b => if 0 ≤ b then .negInf else .posInf
  | .posInf, .posInf => .nan
  | .posInf, .negInf => .nan
  | .negInf, .posInf => .nan
  | .negInf, .negInf => .nan

/-- The function `Math.floor`. -/
def Math.floor : JsNum → JsInt
  | .fin q => .int ⌊q⌋
  | .posInf => .posInf
  | .negInf => .negInf
  | .nan => .nan

/-- The function `Math.ceil`. -/
def Math.ceil : JsNum → JsInt
  | .fin q => .int ⌈q⌉
  | .posInf => .posInf
  | .negInf => .negInf
  | .nan => .nan

/-- The value of `Math.ceil(a / b)` for natural numbers `a` and `b` with `b` positive. -/
def Math.ceilDiv (a b : ℕ) : ℕ := (a + b - 1) / b

/-- The operator `+` on integral JavaScript numbers. -/
def JsInt.add : JsInt → JsInt → JsInt
  | .nan, _ => .nan
  | _, .nan => .nan
  | .int a, .int b => .int (a + b)
  | .int _, .posInf => .posInf
  | .int _, .negInf => .negInf
  | .posInf, .int _ => .posInf
  | .negInf, .int _ => .negInf
  | .posInf, .posInf => .posInf
  | .negInf, .negInf => .negInf
  | .posInf, .negInf => .nan
  | .negInf, .posInf => .nan

/-- The operator `-` on integral JavaScript numbers. -/
def JsInt.sub : JsInt → JsInt → JsInt
  | .nan, _ => .nan
  | _, .nan => .nan
  | .int a, .int b => .int (a - b)
  | .int _, .posInf => .negInf
  | .int _, .negInf => .posInf
  | .posInf, .int _ => .posInf
  | .negInf, .int _ => .negInf
  | .posInf, .negInf => .posInf
  | .negInf, .posInf => .negInf
  | .posInf, .posInf => .nan
  | .negInf, .negInf => .nan

/-- The comparison `a < n` of an integral JavaScript number with a natural number. -/
def JsInt.ltNat : JsInt → ℕ → Bool
  | .int i, n => decide (i < (n : ℤ))
  | .posInf, _ => false
  | .negInf, _ => true
  | .nan, _ => false

/-- The string JavaScript prints for an integral number. -/
def JsInt.toJsString : JsInt → String
  | .int i => toString i
  | .posInf => "Infinity"
  | .negInf => "-Infinity"
  | .nan => "NaN"

/-- The values handed to `setAttribute` and stored in `desc`. -/
inductive JsVal where
  | undefined
  | num (n : JsInt)
  | str (s : String)
  deriving DecidableEq

/-- The string a JavaScript value is converted to. -/
def JsVal.toJsString : JsVal → String
  | .undefined => "undefined"
  | .num n => n.toJsString
  | .str s => s

/-- A natural number as an attribute value. -/
def JsVal.ofNat (n : ℕ) : JsVal := .num (.int n)

/-! ## The DOM -/

/-- A DOM node: an element with its attributes (in the order they were set),
the event types it listens to and its children, or a text node. -/
inductive Node where
  | element (tag : String) (attrs : List (String × JsVal)) (listeners : List String)
      (children : List Node)
  | text (data : String)

/-- The tag of an element (`none` for a text node). -/
def Node.tag? : Node → Option String
  | .element tag _ _ _ => some tag
  | .text _ => none

/-- The attributes of a node. -/
def Node.attrs : Node → List (String × JsVal)
  | .element _ attrs _ _ => attrs
  | .text _ => []

/-- The value an attribute was set to, if it was set. -/
def Node.attr? (n : Node) (name : String) : Option JsVal :=
  (n.attrs.find? (fun p => p.1 == name)).map (fun p => p.2)

/-- The children of a node. -/
def Node.children : Node → List Node
  | .element _ _ _ children => children
  | .text _ => []

/-- The `svg` element of the component. -/
structure Svg where
  /-- The serial number of the allocation that created this instance. -/
  serial : ℕ
  width : ℕ
  height : ℕ
  children : List Node

/-! ## The input data -/

/-- An entry `[ startPos, endPos, hitCount ]` of `hit_clusters` or `nrph_hit_clusters`. -/
structure Cluster where
  startPos : ℕ
  endPos : ℕ
  hitCount : ℕ
  deriving DecidableEq

/-- An entry `[ startPos, endPos, colorCode ]` of `giesma_bands`. -/
structure Band where
  startPos : ℕ
  endPos : ℕ
  colorCode : ℕ
  deriving DecidableEq

/-- An entry of `singleton_contigs`. -/
structure Contig where
  name : String
  size : ℕ
  hit_clusters : List Cluster
  nrph_hit_clusters : List Cluster
  /-- Optional: `none` when the property is missing. -/
  giesma_bands : Option (List Band)
  deriving DecidableEq

/-- The data structure handed to the constructor. -/
structure KaryotypeData where
  singleton_contigs : List Contig
  /-- Placeholder for future use. -/
  remaining_genome_contig : Option Contig
  deriving DecidableEq

/-! ## The object -/

/-- An entry of `legendColors`. -/
structure LegendColor where
  color : String
  desc : JsVal
  deriving DecidableEq

/-- The fields of a `Karyotype` object that depend on the data or change over time.
`container` lists the serials of the `svg` children this object appended to
`parent_element`.  The fields the constructor sets to constants and nothing
writes again (`giesmaColors`, the glyph and legend sizes, `svgHeight`) are the
constants defined below; `tooltipGroup`, `tooltipPath` and `tooltipText` alias
the last child of the svg and are read by the pointer handlers only. -/
structure KObj where
  karyotype_data : KaryotypeData
  legendColors : List LegendColor
  maxHitClusterSize : ℕ
  maxNrphHitClusterSize : ℕ
  hasGiesmaDetails : ℕ
  largestContigBP : ℕ
  container : List ℕ
  legendRangeSize : Option ℕ
  svgWidth : ℕ
  pixelsPerBP : JsNum
  currentVisualType : Option String
  svg : Option Svg
  /-- The number of `svg` elements created so far. -/
  svgCreated : ℕ

/-- Giesma Karyotype Staining Colors. -/
def giesmaColors : List String :=
  ["#527280", "#ffffff", "#c8c88c", "#e6e6e6", "#c8c8c8", "#b4b4b4", "#8c8c8c", "#646464",
    "#323232", "#ffffff", "#823c5a"]

/-- Hit Count Legend Colors, as the constructor creates them. -/
def initialLegendColors : List LegendColor :=
  [⟨"#fff", .str "0"⟩, ⟨"#3288bd", .undefined⟩, ⟨"#66c2a5", .undefined⟩,
    ⟨"#abdda4", .undefined⟩, ⟨"#e6f598", .undefined⟩, ⟨"#fee08b", .undefined⟩,
    ⟨"#fdae61", .undefined⟩, ⟨"#f46d43", .undefined⟩, ⟨"#d53e4f", .undefined⟩]

/-- Glyph size. -/
def contigPixelWidth : ℕ := 18

/-- Glyph size. -/
def contigPixelSeparation : ℕ := 14

/-- Glyph size. -/
def contigCapPixelSize : ℕ := 10

/-- Legend size. -/
def legendWidth : ℕ := 160

/-- Legend size. -/
def legendHeight : ℕ := 200

/-- The height of the `svg` element. -/
def svgHeight : ℕ := 300

/-! ## The constructor's statistics loop -/

/-- The three statistics the constructor gathers from the data. -/
structure Stats where
  maxHitClusterSize : ℕ
  maxNrphHitClusterSize : ℕ
  hasGiesmaDetails : ℕ
  deriving DecidableEq

/-- The body of an inner loop: keep the larger of the running maximum and the
third element of a cluster. -/
def maxStep (m : ℕ) (cl : Cluster) : ℕ :=
  if cl.hitCount > m then cl.hitCount else m

/-- The test `giesma_bands != null && giesma_bands.length > 0`. -/
def hasBands (contig : Contig) : Bool :=
  match contig.giesma_bands with
  | some bands => decide (bands.length > 0)
  | none => false

/-- The body of the outer loop for one contig. -/
def statsStep (st : Stats) (contig : Contig) : Stats :=
  { hasGiesmaDetails := if hasBands contig then 1 else st.hasGiesmaDetails
    maxHitClusterSize := contig.hit_clusters.foldl maxStep st.maxHitClusterSize
    maxNrphHitClusterSize := contig.nrph_hit_clusters.foldl maxStep st.maxNrphHitClusterSize }

/-- Get stats from datastructure. -/
def getStats (contigs : List Contig) : Stats :=
  contigs.foldl statsStep ⟨0, 0, 0⟩

/-! ## getTooltipGlyphPath -/

/-- Generate tooltip glyph based on a set of size parameters.  The parameters
are JavaScript numbers; `numberToString` is the conversion of a number to a
string that `+` applies to a number next to a string. -/
def getTooltipGlyphPath (numberToString : JsNum → String) (FH H W R C S off : JsNum) :
    String :=
  "M " ++ numberToString (R.add off) ++ "," ++ numberToString FH ++ " " ++
  "V " ++ numberToString H ++ " " ++
  "L " ++ numberToString R ++ "," ++ numberToString H ++ " " ++
  "Q " ++ numberToString (R.sub C) ++ "," ++ numberToString (H.sub (R.sub C)) ++ "," ++
    numberToString (.fin 0) ++ "," ++ numberToString (H.sub R) ++ " " ++
  "V " ++ numberToString R ++ " " ++
  "Q " ++ numberToString (R.sub C) ++ "," ++ numberToString (R.sub C) ++ "," ++
    numberToString R ++ "," ++ numberToString (.fin 0) ++ " " ++
  "H " ++ numberToString (W.sub R) ++ " " ++
  "Q " ++ numberToString (W.sub (R.sub C)) ++ "," ++ numberToString (.fin 0) ++ "," ++
    numberToString W ++ "," ++ numberToString R ++ " " ++
  "V " ++ numberToString (H.sub R) ++ " " ++
  "Q " ++ numberToString (W.sub (R.sub C)) ++ "," ++ numberToString (H.sub (R.sub C)) ++ "," ++
    numberToString (W.sub R) ++ "," ++ numberToString H ++ " " ++
  "H " ++ numberToString ((R.add off).add S) ++ " " ++
  "L " ++ numberToString (R.add off) ++ "," ++ numberToString FH ++ " z"

/-! ## visualizeKaryotype -/

/-- Reading the property `color` of a string primitive: there is none. -/
def stringColorProperty (_ : String) : JsVal := .undefined

/-- The value of `contigPixelHeight` for a contig. -/
def contigPixelHeight (kObj : KObj) (contig : Contig) : JsInt :=
  Math.floor (JsNum.mul (JsNum.ofNat contig.size) kObj.pixelsPerBP)

/-- The value of `cylinderY1` for a contig. -/
def cylinderY1 (kObj : KObj) (contig : Contig) : JsInt :=
  JsInt.sub (JsInt.ofNat (svgHeight - contigCapPixelSize)) (contigPixelHeight kObj contig)

/-- The value of `cylinderY2`. -/
def cylinderY2 : ℕ := svgHeight - contigCapPixelSize

/-- The left or right side line of a cylinder at horizontal position `x`. -/
def sideLine (kObj : KObj) (contig : Contig) (x : ℕ) : Node :=
  .element "line"
    [("x1", .ofNat x), ("x2", .ofNat x), ("y1", .num (cylinderY1 kObj contig)),
      ("y2", .ofNat cylinderY2), ("stroke", .str "#95B3D7")] [] []

/-- The top cap of a cylinder. -/
def topCap (kObj : KObj) (contig : Contig) (startX : ℕ) : Node :=
  .element "path"
    [("d", .str ("M " ++ toString startX ++ "," ++ (cylinderY1 kObj contig).toJsString ++ " " ++
        "Q " ++ toString (startX + contigPixelWidth / 2) ++ "," ++
        (JsInt.sub (cylinderY1 kObj contig) (.int 12)).toJsString ++ "," ++
        toString (startX + contigPixelWidth) ++ "," ++ (cylinderY1 kObj contig).toJsString)),
      ("style", .str "fill: white; stroke: #95B3D7;")] [] []

/-- The bottom cap of a cylinder. -/
def botCap (startX : ℕ) : Node :=
  .element "path"
    [("d", .str ("M " ++ toString startX ++ "," ++ toString cylinderY2 ++ " " ++
        "Q " ++ toString (startX + contigPixelWidth / 2) ++ "," ++
        toString (cylinderY2 + 12) ++ "," ++
        toString (startX + contigPixelWidth) ++ "," ++ toString cylinderY2)),
      ("style", .str "fill: white; stroke: #95B3D7;")] [] []

/-- The list of clusters drawn for a contig: `nrph_hit_clusters` in mode
"nrph", `hit_clusters` otherwise. -/
def activeClusters (kObj : KObj) (contig : Contig) : List Cluster :=
  if kObj.currentVisualType = some "nrph" then contig.nrph_hit_clusters else contig.hit_clusters

/-- The value of `colorIdx` for a cluster (`null` as a divisor counts as 0).
The two operands are integers, and the quotient is taken exactly. -/
def colorIdx (kObj : KObj) (cl : Cluster) : JsInt :=
  Math.ceil
    (JsNum.quotient (JsNum.ofNat cl.hitCount) (JsNum.ofNat (kObj.legendRangeSize.getD 0)))

/-- The entry `legendColors[colorIdx].color`.  It is read only when `colorIdx`
is below the length of the list, and `colorIdx` is never negative, so the
entry exists; the other cases are not reached. -/
def legendColorAt (legendColors : List LegendColor) : JsInt → JsVal
  | .int i =>
    match legendColors[i.toNat]? with
    | some entry => .str entry.color
    | none => .undefined
  | _ => .undefined

/-- The fill colour of a hit cluster rectangle. -/
def clusterColor (kObj : KObj) (cl : Cluster) : JsVal :=
  if kObj.currentVisualType ≠ some "giesma" ∧
      (colorIdx kObj cl).ltNat kObj.legendColors.length = true then
    legendColorAt kObj.legendColors (colorIdx kObj cl)
  else .str "white"

/-- The value of `startY` or `endY` for a base-pair position. -/
def pixelOffset (kObj : KObj) (pos : ℕ) : JsInt :=
  Math.floor (JsNum.mul (JsNum.ofNat pos) kObj.pixelsPerBP)

/-- Hit Cluster SVG rectangle. -/
def hcBlock (kObj : KObj) (startX : ℕ) (contig : Contig) (cl : Cluster) : Node :=
  .element "rect"
    [("x", .ofNat (startX + 1)),
      ("y", .num (JsInt.add (cylinderY1 kObj contig) (pixelOffset kObj cl.startPos))),
      ("width", .ofNat (contigPixelWidth - 2)),
      ("height", .num (JsInt.sub (pixelOffset kObj cl.endPos) (pixelOffset kObj cl.startPos))),
      ("fill", clusterColor kObj cl),
      ("data-tooltip-text", .str (contig.name ++ ":" ++ toString cl.startPos ++ "-" ++
        toString cl.endPos ++ " count:" ++ toString cl.hitCount))]
    ["mousemove", "mouseout", "mousedown"] []

/-- The fill colour of a Giesma band rectangle. -/
def bandColor (band : Band) : JsVal :=
  if band.colorCode < giesmaColors.length then
    match giesmaColors[band.colorCode]? with
    | some entry => stringColorProperty entry
    | none => .undefined
  else .str "white"

/-- Draw Giesma bands: the rectangle of one band. -/
def giBand (kObj : KObj) (startX : ℕ) (contig : Contig) (band : Band) : Node :=
  .element "rect"
    [("x", .ofNat startX),
      ("y", .num (JsInt.add (JsInt.sub (JsInt.ofNat svgHeight) (contigPixelHeight kObj contig))
        (pixelOffset kObj band.startPos))),
      ("width", .ofNat contigPixelWidth),
      ("height", .num (JsInt.sub (pixelOffset kObj band.endPos) (pixelOffset kObj band.startPos))),
      ("fill", bandColor band)] [] []

/-- The rectangles drawn for the hit clusters of a contig. -/
def drawHitClusters (kObj : KObj) (startX : ℕ) (contig : Contig) : List Node :=
  (activeClusters kObj contig).map (hcBlock kObj startX contig)

/-- The rectangles drawn for the Giesma bands of a contig. -/
def drawGiesmaBands (kObj : KObj) (startX : ℕ) (contig : Contig) : List Node :=
  if kObj.currentVisualType = some "giesma" then
    match contig.giesma_bands with
    | some bands => bands.map (giBand kObj startX contig)
    | none => []
  else []

/-- Everything one iteration of the contig loop appends to the svg. -/
def drawContig (kObj : KObj) (startX : ℕ) (contig : Contig) : List Node :=
  [sideLine kObj contig startX, sideLine kObj contig (startX + contigPixelWidth),
    topCap kObj contig startX, botCap startX] ++
  drawHitClusters kObj startX contig ++ drawGiesmaBands kObj startX contig

/-- Draw singleton contigs: the nodes appended by the loop started at `startX`. -/
def drawContigs (kObj : KObj) : ℕ → List Contig → List Node
  | _, [] => []
  | startX, contig :: rest =>
    drawContig kObj startX contig ++
      drawContigs kObj (startX + contigPixelWidth + contigPixelSeparation) rest

/-- The value of `startX` after the contig loop. -/
def finalStartX (contigs : List Contig) : ℕ :=
  contigs.length * (contigPixelWidth + contigPixelSeparation)

/-- Legend color boxes: the two nodes of each entry, from vertical position `startY` on. -/
def drawColorBoxes (startX : ℕ) : ℕ → List LegendColor → List Node
  | _, [] => []
  | startY, entry :: rest =>
    [.element "rect"
        [("x", .ofNat (startX + 20)), ("y", .ofNat startY), ("width", .ofNat 18),
          ("height", .ofNat 18), ("style", .str ("fill: " ++ entry.color ++ "; stroke: #ddd;"))]
        [] [],
      .element "text"
        [("x", .ofNat (startX + 20 + 18)), ("y", .ofNat (startY + 18 - 2))] []
        [.text (": " ++ entry.desc.toJsString)]] ++
    drawColorBoxes startX (startY + 18 + 2) rest

/-- Draw legend. -/
def drawLegend (kObj : KObj) (startX : ℕ) : List Node :=
  [.element "mask" [("id", .str "legendmask")] []
      [.element "rect"
          [("x", .ofNat startX), ("y", .ofNat (svgHeight - legendHeight)),
            ("width", .ofNat legendWidth), ("height", .ofNat legendHeight),
            ("style", .str "fill: white;")] [] [],
        .element "rect"
          [("x", .ofNat (startX + 10)), ("y", .ofNat (svgHeight - legendHeight)),
            ("width", .ofNat (legendWidth - 25)), ("height", .ofNat 20),
            ("style", .str "fill: black;")] [] []],
    .element "rect"
      [("x", .ofNat startX), ("y", .ofNat (svgHeight - legendHeight)),
        ("width", .ofNat legendWidth), ("height", .ofNat legendHeight),
        ("rx", .ofNat 8), ("ry", .ofNat 8), ("style", .str "fill: white; stroke: #ddd;"),
        ("mask", .str "url(#legendmask)")] [] [],
    .element "text"
      [("x", .ofNat (startX + 14)), ("y", .ofNat (svgHeight - legendHeight + 6))] []
      [.text "Hit Count (per Mb)"]] ++
  drawColorBoxes startX (svgHeight - legendHeight + 16) kObj.legendColors

/-- Draw the tooltip glyph. -/
def tooltipGroup : Node :=
  .element "g" [("style", .str "opacity: 0;")] []
    [.element "path" [("style", .str "fill: white; stroke: black;")] [] [],
      .element "text" [("x", .ofNat 8), ("y", .ofNat 18)] [] [.text ""]]

/-- The nodes `visualizeKaryotype` appends to the svg, in order. -/
def drawing (kObj : KObj) : List Node :=
  drawContigs kObj 0 kObj.karyotype_data.singleton_contigs ++
  (if kObj.currentVisualType ≠ some "giesma" then
    drawLegend kObj (finalStartX kObj.karyotype_data.singleton_contigs) else []) ++
  [tooltipGroup]

/-- SVG Generation Central, called by `switchVisualization` (which has set
`svg` before; nothing can be drawn without it). -/
def visualizeKaryotype (kObj : KObj) : KObj :=
  match kObj.svg with
  | none => kObj
  | some svg =>
    { kObj with
      svg := some { svg with children := svg.children ++ drawing kObj }
      container := kObj.container ++ [svg.serial] }

/-! ## switchVisualization and the constructor -/

/-- The label `lo + "-" + hi` of a legend range. -/
def rangeLabel (lo hi : ℕ) : String :=
  toString lo ++ "-" ++ toString hi

/-- The assignment `legendColors[i].desc = desc`. -/
def setDesc (legendColors : List LegendColor) (i : ℕ) (desc : String) : List LegendColor :=
  match legendColors[i]? with
  | some entry => legendColors.set i { entry with desc := .str desc }
  | none => legendColors

/-- The loop `for (i = ..; i < legendColors.length - 1; i++)` with `n` iterations
left; returns `rStart` and the list after the loop. -/
def legendLoop (legendRangeSize : ℕ) :
    ℕ → ℕ → ℕ → List LegendColor → ℕ × List LegendColor
  | 0, _, rStart, legendColors => (rStart, legendColors)
  | n + 1, i, rStart, legendColors =>
    legendLoop legendRangeSize n (i + 1) (rStart + legendRangeSize)
      (setDesc legendColors i
        (rangeLabel rStart (rStart + legendRangeSize - 1)))

/-- The block "set legend ranges" of `switchVisualization`. -/
def setLegendRanges (legendRangeSize maxCount : ℕ) (legendColors : List LegendColor) :
    List LegendColor :=
  let loop := legendLoop legendRangeSize (legendColors.length - 2) 1 1 legendColors
  setDesc loop.2 (legendColors.length - 1) (rangeLabel loop.1 maxCount)

/-- The pair `(maxCount, currentVisualType)` after the mode selection of
`switchVisualization`. -/
def selectMode (kObj : KObj) (type : String) : ℕ × Option String :=
  if type = "all" then (kObj.maxHitClusterSize, some type)
  else if type = "nrph" then (kObj.maxNrphHitClusterSize, some type)
  else if type = "giesma" then
    if kObj.hasGiesmaDetails ≠ 0 then (0, some type)
    else (kObj.maxHitClusterSize, some "all")
  else (0, kObj.currentVisualType)

/-- Switch between visualizations. -/
def switchVisualization (kObj : KObj) (type : String) : KObj :=
  if some type ≠ kObj.currentVisualType then
    let container :=
      match kObj.svg with
      | some old => kObj.container.erase old.serial
      | none => kObj.container
    let svg : Svg :=
      { serial := kObj.svgCreated, width := kObj.svgWidth, height := svgHeight, children := [] }
    let maxCount := (selectMode kObj type).1
    let legendRangeSize := Math.ceilDiv maxCount (kObj.legendColors.length - 1)
    visualizeKaryotype
      { kObj with
        container := container
        svg := some svg
        svgCreated := kObj.svgCreated + 1
        currentVisualType := (selectMode kObj type).2
        legendRangeSize := some legendRangeSize
        legendColors := setLegendRanges legendRangeSize maxCount kObj.legendColors }
  else kObj

/-- The constructor's body once `singleton_contigs[0]` is known to exist. -/
def construct (data : KaryotypeData) (first : Contig) : KObj :=
  let stats := getStats data.singleton_contigs
  let numBars :=
    data.singleton_contigs.length + (if data.remaining_genome_contig.isSome then 1 else 0)
  switchVisualization
    { karyotype_data := data
      legendColors := initialLegendColors
      maxHitClusterSize := stats.maxHitClusterSize
      maxNrphHitClusterSize := stats.maxNrphHitClusterSize
      hasGiesmaDetails := stats.hasGiesmaDetails
      largestContigBP := first.size
      container := []
      legendRangeSize := none
      svgWidth := (contigPixelWidth + contigPixelWidth) * numBars + legendWidth
      pixelsPerBP :=
        JsNum.div (JsNum.ofNat (svgHeight - 2 * contigCapPixelSize)) (JsNum.ofNat first.size)
      currentVisualType := none
      svg := none
      svgCreated := 0 }
    "all"

/-- The constructor `Karyotype(parent_element, karyotype_data)`; `none` when it
throws because `singleton_contigs[0]` does not exist. -/
def Karyotype (data : KaryotypeData) : Option KObj :=
  match data.singleton_contigs with
  | [] => none
  | first :: _ => some (construct data first)

/-- The object after a sequence of `switchVisualization` calls. -/
def calls (kObj : KObj) (types : List String) : KObj :=
  types.foldl switchVisualization kObj

/-- The maximum third element of a list of clusters, 0 when there are none
(the dataset statistic in the words of the specification). -/
def maxThird (clusters : List Cluster) : ℕ :=
  (clusters.map Cluster.hitCount).foldr max 0

/-- All `hit_clusters` of all contigs of a dataset. -/
def allHitClusters (data : KaryotypeData) : List Cluster :=
  data.singleton_contigs.flatMap Contig.hit_clusters

/-- All `nrph_hit_clusters` of all contigs of a dataset. -/
def allNrphHitClusters (data : KaryotypeData) : List Cluster :=
  data.singleton_contigs.flatMap Contig.nrph_hit_clusters

/-- What holds of an object built by the constructor from `data` with first
contig `first`, whatever `switchVisualization` calls follow. -/
structure Built (data : KaryotypeData) (first : Contig) (kObj : KObj) : Prop where
  data_eq : kObj.karyotype_data = data
  maxHit_eq : kObj.maxHitClusterSize = maxThird (allHitClusters data)
  maxNrph_eq : kObj.maxNrphHitClusterSize = maxThird (allNrphHitClusters data)
  hasGiesma_eq : kObj.hasGiesmaDetails = if data.singleton_contigs.any hasBands then 1 else 0
  pixelsPerBP_eq : kObj.pixelsPerBP =
    JsNum.div (JsNum.ofNat (svgHeight - 2 * contigCapPixelSize)) (JsNum.ofNat first.size)
  colors_eq : kObj.legendColors.map LegendColor.color =
    initialLegendColors.map LegendColor.color
  desc_zero : kObj.legendColors.head?.map LegendColor.desc = some (.str "0")
  rangeSize_isSome : kObj.legendRangeSize.isSome = true
  mode_known : kObj.currentVisualType = some "all" ∨ kObj.currentVisualType = some "nrph" ∨
    (kObj.currentVisualType = some "giesma" ∧ kObj.hasGiesmaDetails ≠ 0)
  svg_drawn : ∃ svg, kObj.svg = some svg ∧ svg.children = drawing kObj ∧
    svg.width = kObj.svgWidth ∧ svg.height = svgHeight ∧
    kObj.container = [svg.serial] ∧ svg.serial < kObj.svgCreated

/-! ## Example data -/

/-- The contig of the end-to-end example of the specification: no Giesma bands. -/
def chr1 : Contig :=
  { name := "chr1", size := 1000, hit_clusters := [⟨100, 200, 5⟩, ⟨300, 400, 50⟩],
    nrph_hit_clusters := [], giesma_bands := none }

/-- A dataset with the single contig `chr1`. -/
def exampleData : KaryotypeData :=
  { singleton_contigs := [chr1], remaining_genome_contig := none }

/-- A contig with one hit cluster of count 1. -/
def oneHitContig : Contig :=
  { name := "chr1", size := 1000, hit_clusters := [⟨100, 200, 1⟩],
    nrph_hit_clusters := [], giesma_bands := none }

/-- A dataset whose maximum hit count is 1. -/
def oneHitData : KaryotypeData :=
  { singleton_contigs := [oneHitContig], remaining_genome_contig := none }

/-- The ranges `(lower, upper)` written on legend buckets 1 to 8 for range size
`w` and maximum `maxCount`. -/
def legendBounds (w maxCount : ℕ) : List (ℕ × ℕ) :=
  [(1, w), (1 + w, 2 * w), (1 + 2 * w, 3 * w), (1 + 3 * w, 4 * w), (1 + 4 * w, 5 * w),
    (1 + 5 * w, 6 * w), (1 + 6 * w, 7 * w), (1 + 7 * w, maxCount)]

/-- A contig with two Giesma bands, of colour codes 0 and 8. -/
def bandedContig : Contig :=
  { name := "chr1", size := 1000, hit_clusters := [⟨100, 200, 5⟩],
    nrph_hit_clusters := [], giesma_bands := some [⟨1, 500, 0⟩, ⟨501, 1000, 8⟩] }

/-- A dataset with Giesma bands. -/
def bandedData : KaryotypeData :=
  { singleton_contigs := [bandedContig], remaining_genome_contig := none }

/-- A contig whose clusters all have count 0. -/
def zeroContig : Contig :=
  { name := "chr1", size := 1000, hit_clusters := [⟨100, 200, 0⟩, ⟨300, 400, 0⟩],
    nrph_hit_clusters := [⟨100, 200, 0⟩], giesma_bands := none }

/-- A dataset whose maximum magnitude is 0. -/
def zeroData : KaryotypeData :=
  { singleton_contigs := [zeroContig], remaining_genome_contig := none }

/-! ## Reading the drawing -/

/-- Whether a node is a hit cluster rectangle: these are the nodes that carry
the attribute `data-tooltip-text`. -/
def isHitRect (n : Node) : Bool :=
  (n.attr? "data-tooltip-text").isSome

/-- The value of a hexadecimal digit. -/
def hexDigit (c : Char) : Option ℕ :=
  if '0' ≤ c ∧ c ≤ '9' then some (c.toNat - '0'.toNat)
  else if 'a' ≤ c ∧ c ≤ 'f' then some (c.toNat - 'a'.toNat + 10)
  else if 'A' ≤ c ∧ c ≤ 'F' then some (c.toNat - 'A'.toNat + 10)
  else none

/-- The red, green and blue components a browser paints for a colour string,
for the notations the component uses: `#rgb`, `#rrggbb` and the keyword
`white`. -/
def cssColor (s : String) : Option (ℕ × ℕ × ℕ) :=
  match s.toList with
  | ['#', r, g, b] =>
    match hexDigit r, hexDigit g, hexDigit b with
    | some r, some g, some b => some (17 * r, 17 * g, 17 * b)
    | _, _, _ => none
  | ['#', r1, r0, g1, g0, b1, b0] =>
    match hexDigit r1, hexDigit r0, hexDigit g1, hexDigit g0, hexDigit b1, hexDigit b0 with
    | some r1, some r0, some g1, some g0, some b1, some b0 =>
      some (16 * r1 + r0, 16 * g1 + g0, 16 * b1 + b0)
    | _, _, _, _, _, _ => none
  | _ => if s = "white" then some (255, 255, 255) else none

/-- The colour painted for a `fill` attribute value. -/
def fillColor : JsVal → Option (ℕ × ℕ × ℕ)
  | .str s => cssColor s
  | _ => none

/-- The command letters of an SVG path string, in order. -/
def pathCommands (d : String) : List Char :=
  d.toList.filter Char.isAlpha

/-- A command of an SVG path with its arguments. -/
inductive PathCmd where
  | moveTo (x y : JsNum)
  | vertical (y : JsNum)
  | lineTo (x y : JsNum)
  | quadratic (x1 y1 x y : JsNum)
  | horizontal (x : JsNum)
  | close

/-- The letter of a path command. -/
def PathCmd.letter : PathCmd → Char
  | .moveTo _ _ => 'M'
  | .vertical _ => 'V'
  | .lineTo _ _ => 'L'
  | .quadratic _ _ _ _ => 'Q'
  | .horizontal _ => 'H'
  | .close => 'z'

/-- A path command as text: the letter, a blank and the arguments separated by
commas. -/
def PathCmd.render (numberToString : JsNum → String) : PathCmd → String
  | .moveTo x y => "M " ++ numberToString x ++ "," ++ numberToString y
  | .vertical y => "V " ++ numberToString y
  | .lineTo x y => "L " ++ numberToString x ++ "," ++ numberToString y
  | .quadratic x1 y1 x y =>
    "Q " ++ numberToString x1 ++ "," ++ numberToString y1 ++ "," ++ numberToString x ++ "," ++
      numberToString y
  | .horizontal x => "H " ++ numberToString x
  | .close => "z"

/-- A list of path commands as text, the commands separated by blanks. -/
def renderPath (numberToString : JsNum → String) : List PathCmd → String
  | [] => ""
  | [cmd] => cmd.render numberToString
  | cmd :: rest => cmd.render numberToString ++ " " ++ renderPath numberToString rest

/-- A contig of size 275 with one hit cluster. -/
def smallContig : Contig :=
  { name := "chr1", size := 275, hit_clusters := [⟨55, 220, 5⟩],
    nrph_hit_clusters := [], giesma_bands := none }

/-- A dataset whose reference contig has size 275. -/
def smallData : KaryotypeData :=
  { singleton_contigs := [smallContig], remaining_genome_contig := none }

/-! ## Rounding to doubles -/

/-- Rounding to the nearest integer moves a rational by at most one half. -/
theorem roundHalfEven_sub_le (x : ℚ) : |(roundHalfEven x : ℚ) - x| ≤ 1 / 2 := by
  have h1 := Int.floor_le x
  have h2 := Int.lt_floor_add_one x
  unfold roundHalfEven
  split_ifs with ha hb hc
  · rw [abs_le]; constructor <;> linarith
  · rw [abs_le]; push_cast; constructor <;> linarith
  · rw [abs_le]; constructor <;> linarith
  · rw [abs_le]; push_cast; constructor <;> linarith

/-- A rational less than one half away from an integer rounds to it. -/
theorem roundHalfEven_eq_of_lt {x : ℚ} {n : ℤ} (h1 : (n : ℚ) - 1 / 2 < x)
    (h2 : x < (n : ℚ) + 1 / 2) : roundHalfEven x = n := by
  have hf1 := Int.floor_le x
  have hf2 := Int.lt_floor_add_one x
  have hcases : ⌊x⌋ = n ∨ ⌊x⌋ = n - 1 := by
    have ha : (⌊x⌋ : ℚ) < n + 1 / 2 := by linarith
    have hb : (n : ℚ) - 3 / 2 < ⌊x⌋ := by linarith
    have ha' : ⌊x⌋ < n + 1 := by
      by_contra hcon
      have : (n : ℚ) + 1 ≤ ⌊x⌋ := by exact_mod_cast not_lt.1 hcon
      linarith
    have hb' : n - 2 < ⌊x⌋ := by
      by_contra hcon
      have : (⌊x⌋ : ℚ) ≤ n - 2 := by exact_mod_cast not_lt.1 hcon
      linarith
    omega
  unfold roundHalfEven
  rcases hcases with hc | hc
  · rw [hc]
    rw [if_pos (by linarith)]
  · rw [hc]
    have : ¬ (x - ((n - 1 : ℤ) : ℚ) < 1 / 2) := by push_cast; linarith
    rw [if_neg this, if_pos (by push_cast; linarith)]
    ring

/-- An integer rounds to itself. -/
theorem roundHalfEven_intCast (n : ℤ) : roundHalfEven (n : ℚ) = n :=
  roundHalfEven_eq_of_lt (by linarith) (by linarith)

/-- The binary exponent of a positive rational in the normal range. -/
theorem doubleExponent_eq {q : ℚ} {e : ℤ} (hq : 0 < q) (h1 : (2 : ℚ) ^ e ≤ q)
    (h2 : q < (2 : ℚ) ^ (e + 1)) (hmin : -1022 ≤ e) : doubleExponent q = e := by
  have hlog : Int.log 2 q = e := by
    apply le_antisymm
    · have := (Int.lt_zpow_iff_log_lt (b := 2) (by norm_num) hq (x := e + 1)).1
        (by simpa using h2)
      omega
    · exact (Int.zpow_le_iff_le_log (b := 2) (by norm_num) hq).1 (by simpa using h1)
  unfold doubleExponent
  rw [hlog]
  exact max_eq_left hmin

theorem zpow_two_mul_cancel (e : ℤ) : (2 : ℚ) ^ (52 - e) * (2 : ℚ) ^ (e - 52) = 1 := by
  rw [← zpow_add₀ (by norm_num : (2 : ℚ) ≠ 0)]
  simp

/-- The double nearest to a positive rational `q` with `2^e <= q < 2^(e+1)` in
the normal range: `n * 2^(e - 52)` when `q * 2^(52 - e)` is less than one half
away from the integer `n`. -/
theorem roundDouble_eq_of_pos (q : ℚ) (e n : ℤ) (hq : 0 < q) (h1 : (2 : ℚ) ^ e ≤ q)
    (h2 : q < (2 : ℚ) ^ (e + 1)) (hmin : -1022 ≤ e) (hmax : e ≤ 1022)
    (hn1 : (n : ℚ) - 1 / 2 < q * 2 ^ (52 - e)) (hn2 : q * 2 ^ (52 - e) < (n : ℚ) + 1 / 2) :
    roundDouble q = .fin ((n : ℚ) * 2 ^ (e - 52)) := by
  have hexp := doubleExponent_eq hq h1 h2 hmin
  have hround := roundHalfEven_eq_of_lt hn1 hn2
  have hpos : (0 : ℚ) < 2 ^ (e - 52) := zpow_pos (by norm_num) _
  have hpos' : (0 : ℚ) < 2 ^ (52 - e) := zpow_pos (by norm_num) _
  -- the significand is at most 2^53
  have hx : q * 2 ^ (52 - e) < 2 ^ (53 : ℤ) := by
    have : (2 : ℚ) ^ (e + 1) * 2 ^ (52 - e) = 2 ^ (53 : ℤ) := by
      rw [← zpow_add₀ (by norm_num : (2 : ℚ) ≠ 0)]; congr 1; ring
    calc q * 2 ^ (52 - e) < 2 ^ (e + 1) * 2 ^ (52 - e) := by
          exact mul_lt_mul_of_pos_right h2 hpos'
      _ = 2 ^ (53 : ℤ) := this
  have hn : (n : ℚ) ≤ 2 ^ (53 : ℤ) := by
    have h53 : ((2 : ℚ) ^ (53 : ℤ)) = ((2 ^ 53 : ℤ) : ℚ) := by norm_num
    rw [h53] at hx ⊢
    have : (n : ℚ) < ((2 ^ 53 : ℤ) : ℚ) + 1 / 2 := by linarith
    have hlt : n < 2 ^ 53 + 1 := by
      by_contra hcon
      have : ((2 ^ 53 + 1 : ℤ) : ℚ) ≤ n := by exact_mod_cast not_lt.1 hcon
      push_cast at this
      push_cast at *
      linarith
    exact_mod_cast (by omega : n ≤ 2 ^ 53)
  have hr : (n : ℚ) * 2 ^ (e - 52) < 2 ^ (1024 : ℤ) := by
    have hle : (n : ℚ) * 2 ^ (e - 52) ≤ 2 ^ (53 : ℤ) * 2 ^ (e - 52) :=
      mul_le_mul_of_nonneg_right hn hpos.le
    have heq : (2 : ℚ) ^ (53 : ℤ) * 2 ^ (e - 52) = 2 ^ (e + 1) := by
      rw [← zpow_add₀ (by norm_num : (2 : ℚ) ≠ 0)]; congr 1; ring
    have hmono : (2 : ℚ) ^ (e + 1) < 2 ^ (1024 : ℤ) :=
      zpow_lt_zpow_right₀ (by norm_num) (by omega)
    linarith
  unfold roundDouble
  rw [if_neg hq.ne', abs_of_pos hq, hexp, hround, if_neg (not_le.2 hr), if_pos hq]


/-- In the normal range rounding to a double gives a finite number within the
relative error `2^-53`. -/
theorem roundDouble_rel {q : ℚ} (hlo : (2 : ℚ) ^ (-1022 : ℤ) ≤ q) (hhi : q ≤ 2 ^ (1023 : ℤ)) :
    ∃ r, roundDouble q = .fin r ∧ |r - q| ≤ q / 2 ^ 53 := by
  have hq : 0 < q := lt_of_lt_of_le (zpow_pos (by norm_num) _) hlo
  have h1 : ((2 : ℕ) : ℚ) ^ Int.log 2 q ≤ q := Int.zpow_log_le_self (by norm_num) hq
  have h2 : q < ((2 : ℕ) : ℚ) ^ (Int.log 2 q + 1) := Int.lt_zpow_succ_log_self (by norm_num) q
  have hmin : -1022 ≤ Int.log 2 q :=
    (Int.zpow_le_iff_le_log (b := 2) (by norm_num) hq).1 (by simpa using hlo)
  have hmax : Int.log 2 q < 1024 :=
    (Int.lt_zpow_iff_log_lt (b := 2) (by norm_num) hq).1 (by
      have : (2 : ℚ) ^ (1023 : ℤ) < 2 ^ (1024 : ℤ) := by norm_num
      simpa using lt_of_le_of_lt hhi this)
  simp only [Nat.cast_ofNat] at h1 h2
  have hexp : doubleExponent q = Int.log 2 q := doubleExponent_eq hq h1 h2 hmin
  generalize Int.log 2 q = e at *
  have hpos : (0 : ℚ) < 2 ^ (e - 52) := zpow_pos (by norm_num) _
  have herr := roundHalfEven_sub_le (q * 2 ^ (52 - e))
  set n := roundHalfEven (q * 2 ^ (52 - e)) with hn
  -- the error of the rounded value
  have hq_eq : q = q * 2 ^ (52 - e) * 2 ^ (e - 52) := by
    rw [mul_assoc, zpow_two_mul_cancel, mul_one]
  have hdiff : (n : ℚ) * 2 ^ (e - 52) - q = ((n : ℚ) - q * 2 ^ (52 - e)) * 2 ^ (e - 52) := by
    rw [sub_mul, ← hq_eq]
  have hhalf : (1 / 2 : ℚ) * 2 ^ (e - 52) ≤ q / 2 ^ 53 := by
    have h53 : (2 : ℚ) ^ (e - 52) = 2 ^ e / 2 ^ 52 := by
      rw [zpow_sub₀ (by norm_num : (2 : ℚ) ≠ 0)]; norm_num
    rw [h53]
    have : (1 / 2 : ℚ) * (2 ^ e / 2 ^ 52) = 2 ^ e / 2 ^ 53 := by ring
    rw [this]
    exact div_le_div_of_nonneg_right h1 (by positivity)
  have habs : |(n : ℚ) * 2 ^ (e - 52) - q| ≤ q / 2 ^ 53 := by
    rw [hdiff, abs_mul, abs_of_pos hpos]
    exact le_trans (mul_le_mul_of_nonneg_right herr hpos.le) hhalf
  have hr : (n : ℚ) * 2 ^ (e - 52) < 2 ^ (1024 : ℤ) := by
    have hb := (abs_le.1 habs).2
    have : q / 2 ^ 53 ≤ 2 ^ (1023 : ℤ) / 2 ^ 53 := div_le_div_of_nonneg_right hhi (by positivity)
    have h1023 : (2 : ℚ) ^ (1023 : ℤ) + 2 ^ (1023 : ℤ) / 2 ^ 53 < 2 ^ (1024 : ℤ) := by norm_num
    linarith
  refine ⟨(n : ℚ) * 2 ^ (e - 52), ?_, habs⟩
  unfold roundDouble
  rw [if_neg hq.ne', abs_of_pos hq, hexp, ← hn, if_neg (not_le.2 hr), if_pos hq]

/-- The natural numbers below `2^53` are doubles. -/
theorem roundDouble_natCast (n : ℕ) (h : n < 2 ^ 53) : roundDouble (n : ℚ) = .fin (n : ℚ) := by
  rcases Nat.eq_zero_or_pos n with rfl | hpos
  · simp [roundDouble]
  have hq : (0 : ℚ) < n := by exact_mod_cast hpos
  have h1 : ((2 : ℕ) : ℚ) ^ Int.log 2 (n : ℚ) ≤ n := Int.zpow_log_le_self (by norm_num) hq
  have h2 : (n : ℚ) < ((2 : ℕ) : ℚ) ^ (Int.log 2 (n : ℚ) + 1) :=
    Int.lt_zpow_succ_log_self (by norm_num) _
  have hlog : Int.log 2 (n : ℚ) = Nat.log 2 n := Int.log_natCast 2 n
  have hle : Nat.log 2 n < 53 := Nat.log_lt_of_lt_pow hpos.ne' h
  simp only [Nat.cast_ofNat] at h1 h2
  rw [hlog] at h1 h2
  generalize Nat.log 2 n = l at *
  have hk : (52 - (l : ℤ)) = ((52 - l : ℕ) : ℤ) := by omega
  have hx : (n : ℚ) * 2 ^ (52 - (l : ℤ)) = ((n * 2 ^ (52 - l) : ℕ) : ℤ) := by
    rw [hk, zpow_natCast]; push_cast; ring
  have := roundDouble_eq_of_pos (n : ℚ) l ((n * 2 ^ (52 - l) : ℕ) : ℤ) hq h1 h2 (by omega)
    (by omega) (by rw [hx]; linarith) (by rw [hx]; linarith)
  rw [this]
  congr 1
  have : (((n * 2 ^ (52 - l) : ℕ) : ℤ) : ℚ) = (n : ℚ) * 2 ^ (52 - (l : ℤ)) := hx.symm
  rw [this, mul_assoc, zpow_two_mul_cancel, mul_one]

theorem roundDouble_zero : roundDouble 0 = .fin 0 := by
  simp [roundDouble]

/-! ## The rounded and the exact quotient of two integers -/

/-- For integers below `2^53` the ceiling of the quotient rounded to a double
is the ceiling of the exact quotient. -/
theorem ceil_div_eq_ceil_quotient (c w : ℕ) (hc : c < 2 ^ 53) (hw : w < 2 ^ 53) :
    Math.ceil (JsNum.div (JsNum.ofNat c) (JsNum.ofNat w)) =
      Math.ceil (JsNum.quotient (JsNum.ofNat c) (JsNum.ofNat w)) := by
  rcases Nat.eq_zero_or_pos w with rfl | hw0
  · simp [JsNum.div, JsNum.quotient, JsNum.ofNat]
  have hwq : (0 : ℚ) < w := by exact_mod_cast hw0
  have hne : (w : ℚ) ≠ 0 := hwq.ne'
  simp only [JsNum.div, JsNum.quotient, JsNum.ofNat, hne, if_false]
  rcases Nat.eq_zero_or_pos c with rfl | hc0
  · simp [roundDouble_zero]
  have hcq : (1 : ℚ) ≤ c := by exact_mod_cast hc0
  have hc2 : (c : ℚ) < 2 ^ 53 := by exact_mod_cast hc
  have hw2 : (w : ℚ) < 2 ^ 53 := by exact_mod_cast hw
  have hw1 : (1 : ℚ) ≤ w := by exact_mod_cast hw0
  obtain ⟨t, ht⟩ : ∃ t : ℚ, t = 1 / w := ⟨_, rfl⟩
  have htw : (w : ℚ) * t = 1 := by rw [ht]; field_simp
  have ht0 : 0 < t := by rw [ht]; positivity
  have htlo : 1 / 2 ^ 53 < t := by
    rw [ht]; exact one_div_lt_one_div_of_lt hwq hw2
  have ht1 : t ≤ 1 := by
    rw [ht]; exact (div_le_one hwq).2 hw1
  have hq : (c : ℚ) / w = c * t := by rw [ht]; ring
  rw [hq]
  -- quotient and remainder
  have hdm : w * (c / w) + c % w = c := Nat.div_add_mod _ _
  have hm : c % w < w := Nat.mod_lt _ hw0
  obtain ⟨n, hn⟩ : ∃ n : ℕ, n = c / w := ⟨_, rfl⟩
  obtain ⟨m, hmdef⟩ : ∃ m : ℕ, m = c % w := ⟨_, rfl⟩
  rw [← hn, ← hmdef] at hdm
  rw [← hmdef] at hm
  have hxnm : (c : ℚ) * t = n + m * t := by
    have h1 : ((w * n + m : ℕ) : ℚ) = (c : ℚ) := by rw [hdm]
    push_cast at h1
    have h2 : (w : ℚ) * n * t = n := by rw [mul_right_comm, htw, one_mul]
    rw [← h1, add_mul, h2]
  rcases Nat.eq_zero_or_pos m with hm0 | hm0
  · -- the quotient is an integer below 2^53, a double
    rw [hm0] at hxnm
    simp only [Nat.cast_zero, zero_mul, add_zero] at hxnm
    have hnc : n ≤ c := by rw [hn]; exact Nat.div_le_self _ _
    rw [hxnm, roundDouble_natCast n (by omega)]
  · have hmq : (1 : ℚ) ≤ m := by exact_mod_cast hm0
    have hmw : (m : ℚ) + 1 ≤ w := by exact_mod_cast hm
    have h1 : 1 * t ≤ (m : ℚ) * t := mul_le_mul_of_nonneg_right hmq ht0.le
    have h2 : ((m : ℚ) + 1) * t ≤ w * t := mul_le_mul_of_nonneg_right hmw ht0.le
    have hn0 : (0 : ℚ) ≤ n := Nat.cast_nonneg _
    have hct1 : 1 * t ≤ (c : ℚ) * t := mul_le_mul_of_nonneg_right hcq ht0.le
    have hct2 : (c : ℚ) * t ≤ c * 1 := mul_le_mul_of_nonneg_left ht1 (by linarith)
    have hlo : (2 : ℚ) ^ (-1022 : ℤ) ≤ c * t := by
      have h3 : (2 : ℚ) ^ (-1022 : ℤ) ≤ 1 / 2 ^ 53 := by norm_num
      exact le_trans h3 (by linarith)
    have hhi : (c : ℚ) * t ≤ 2 ^ (1023 : ℤ) := by
      have h3 : (2 : ℚ) ^ 53 ≤ 2 ^ (1023 : ℤ) := by norm_num
      exact le_trans (by linarith) h3
    obtain ⟨r, hr, hrel⟩ := roundDouble_rel hlo hhi
    obtain ⟨hr1, hr2⟩ := abs_le.1 hrel
    -- the error is below t
    have herr : (c : ℚ) * t / 2 ^ 53 < t := by
      rw [div_lt_iff₀ (by positivity)]
      calc (c : ℚ) * t < 2 ^ 53 * t := mul_lt_mul_of_pos_right hc2 ht0
        _ = t * 2 ^ 53 := mul_comm _ _
    rw [hr]
    show JsInt.int ⌈r⌉ = JsInt.int ⌈(c : ℚ) * t⌉
    have e1 : ⌈r⌉ = (n : ℤ) + 1 := by
      rw [Int.ceil_eq_iff]
      constructor
      · push_cast; linarith
      · push_cast; linarith
    have e2 : ⌈(c : ℚ) * t⌉ = (n : ℤ) + 1 := by
      rw [Int.ceil_eq_iff]
      constructor
      · push_cast; linarith
      · push_cast; linarith
    rw [e1, e2]
/-! ## The statistics loop -/

theorem foldl_maxStep (l : List Cluster) (m : ℕ) :
    l.foldl maxStep m = max m (maxThird l) := by
  induction l generalizing m with
  | nil => simp [maxThird]
  | cons cl rest ih =>
    simp only [List.foldl_cons, ih, maxThird, List.map_cons, List.foldr_cons, maxStep]
    split_ifs with h <;> omega

theorem maxThird_append (l₁ l₂ : List Cluster) :
    maxThird (l₁ ++ l₂) = max (maxThird l₁) (maxThird l₂) := by
  induction l₁ with
  | nil => simp [maxThird]
  | cons cl rest ih =>
    simp only [maxThird, List.cons_append, List.map_cons, List.foldr_cons] at ih ⊢
    rw [ih]; omega

theorem le_maxThird {l : List Cluster} {cl : Cluster} (h : cl ∈ l) :
    cl.hitCount ≤ maxThird l := by
  induction l with
  | nil => simp at h
  | cons c rest ih =>
    simp only [maxThird, List.map_cons, List.foldr_cons] at ih ⊢
    rcases List.mem_cons.1 h with rfl | h'
    · omega
    · have := ih h'; omega

theorem maxThird_attained (l : List Cluster) :
    (∃ cl ∈ l, cl.hitCount = maxThird l) ∨ (l = [] ∧ maxThird l = 0) := by
  induction l with
  | nil => right; simp [maxThird]
  | cons c rest ih =>
    left
    simp only [maxThird, List.map_cons, List.foldr_cons] at ih ⊢
    rcases le_total (List.foldr max 0 (List.map Cluster.hitCount rest)) c.hitCount with h | h
    · exact ⟨c, List.mem_cons_self _ _, by omega⟩
    · rcases ih with ⟨cl, hcl, he⟩ | ⟨rfl, _⟩
      · exact ⟨cl, List.mem_cons_of_mem _ hcl, by omega⟩
      · exact ⟨c, List.mem_cons_self _ _, by simp at h ⊢⟩

theorem foldl_statsStep_maxHit (contigs : List Contig) (st : Stats) :
    (contigs.foldl statsStep st).maxHitClusterSize =
      max st.maxHitClusterSize (maxThird (contigs.flatMap Contig.hit_clusters)) := by
  induction contigs generalizing st with
  | nil => simp [maxThird]
  | cons c rest ih =>
    simp only [List.foldl_cons, ih, List.flatMap_cons, maxThird_append, statsStep, foldl_maxStep]
    omega

theorem foldl_statsStep_maxNrph (contigs : List Contig) (st : Stats) :
    (contigs.foldl statsStep st).maxNrphHitClusterSize =
      max st.maxNrphHitClusterSize (maxThird (contigs.flatMap Contig.nrph_hit_clusters)) := by
  induction contigs generalizing st with
  | nil => simp [maxThird]
  | cons c rest ih =>
    simp only [List.foldl_cons, ih, List.flatMap_cons, maxThird_append, statsStep, foldl_maxStep]
    omega

theorem foldl_statsStep_hasGiesma (contigs : List Contig) (st : Stats) :
    (contigs.foldl statsStep st).hasGiesmaDetails =
      if contigs.any hasBands then 1 else st.hasGiesmaDetails := by
  induction contigs generalizing st with
  | nil => simp
  | cons c rest ih =>
    simp only [List.foldl_cons, ih, statsStep, List.any_cons]
    by_cases h1 : hasBands c = true <;> by_cases h2 : rest.any hasBands = true <;> simp [h1, h2]

theorem getStats_maxHit (data : KaryotypeData) :
    (getStats data.singleton_contigs).maxHitClusterSize = maxThird (allHitClusters data) := by
  simp [getStats, foldl_statsStep_maxHit, allHitClusters]

theorem getStats_maxNrph (data : KaryotypeData) :
    (getStats data.singleton_contigs).maxNrphHitClusterSize =
      maxThird (allNrphHitClusters data) := by
  simp [getStats, foldl_statsStep_maxNrph, allNrphHitClusters]

theorem getStats_hasGiesma (data : KaryotypeData) :
    (getStats data.singleton_contigs).hasGiesmaDetails =
      if data.singleton_contigs.any hasBands then 1 else 0 := by
  simp [getStats, foldl_statsStep_hasGiesma]
/-! ## switchVisualization, field by field -/

theorem switchVisualization_of_eq {kObj : KObj} {type : String}
    (h : some type = kObj.currentVisualType) : switchVisualization kObj type = kObj := by
  simp [switchVisualization, h]

theorem drawContigs_congr {k k' : KObj} (h₁ : k.pixelsPerBP = k'.pixelsPerBP)
    (h₂ : k.currentVisualType = k'.currentVisualType)
    (h₃ : k.legendRangeSize = k'.legendRangeSize) (h₄ : k.legendColors = k'.legendColors)
    (contigs : List Contig) (startX : ℕ) :
    drawContigs k startX contigs = drawContigs k' startX contigs := by
  induction contigs generalizing startX with
  | nil => rfl
  | cons c rest ih =>
    have hb : hcBlock k = hcBlock k' := by
      funext x c cl
      simp [hcBlock, cylinderY1, contigPixelHeight, pixelOffset, clusterColor, colorIdx,
        h₁, h₂, h₃, h₄]
    have hg : giBand k = giBand k' := by
      funext x c b
      simp [giBand, contigPixelHeight, pixelOffset, h₁]
    simp only [drawContigs, ih]
    congr 1
    simp [drawContig, sideLine, topCap, drawHitClusters, drawGiesmaBands, hb, hg,
      cylinderY1, contigPixelHeight, activeClusters, h₁, h₂]

theorem drawing_congr {k k' : KObj} (h₀ : k.karyotype_data = k'.karyotype_data)
    (h₁ : k.pixelsPerBP = k'.pixelsPerBP)
    (h₂ : k.currentVisualType = k'.currentVisualType)
    (h₃ : k.legendRangeSize = k'.legendRangeSize) (h₄ : k.legendColors = k'.legendColors) :
    drawing k = drawing k' := by
  simp only [drawing, drawLegend, h₀, h₂, h₄, drawContigs_congr h₁ h₂ h₃ h₄]

section fields
variable (kObj : KObj) (type : String)

theorem switchVisualization_karyotype_data :
    (switchVisualization kObj type).karyotype_data = kObj.karyotype_data := by
  simp only [switchVisualization, visualizeKaryotype]; split_ifs <;> rfl

theorem switchVisualization_maxHitClusterSize :
    (switchVisualization kObj type).maxHitClusterSize = kObj.maxHitClusterSize := by
  simp only [switchVisualization, visualizeKaryotype]; split_ifs <;> rfl

theorem switchVisualization_maxNrphHitClusterSize :
    (switchVisualization kObj type).maxNrphHitClusterSize = kObj.maxNrphHitClusterSize := by
  simp only [switchVisualization, visualizeKaryotype]; split_ifs <;> rfl

theorem switchVisualization_hasGiesmaDetails :
    (switchVisualization kObj type).hasGiesmaDetails = kObj.hasGiesmaDetails := by
  simp only [switchVisualization, visualizeKaryotype]; split_ifs <;> rfl

theorem switchVisualization_largestContigBP :
    (switchVisualization kObj type).largestContigBP = kObj.largestContigBP := by
  simp only [switchVisualization, visualizeKaryotype]; split_ifs <;> rfl

theorem switchVisualization_svgWidth :
    (switchVisualization kObj type).svgWidth = kObj.svgWidth := by
  simp only [switchVisualization, visualizeKaryotype]; split_ifs <;> rfl

theorem switchVisualization_pixelsPerBP :
    (switchVisualization kObj type).pixelsPerBP = kObj.pixelsPerBP := by
  simp only [switchVisualization, visualizeKaryotype]; split_ifs <;> rfl

end fields

section redraw
variable {kObj : KObj} {type : String} (h : some type ≠ kObj.currentVisualType)
include h

theorem switchVisualization_currentVisualType :
    (switchVisualization kObj type).currentVisualType = (selectMode kObj type).2 := by
  simp only [switchVisualization, visualizeKaryotype, if_pos h]

theorem switchVisualization_legendRangeSize :
    (switchVisualization kObj type).legendRangeSize =
      some (Math.ceilDiv (selectMode kObj type).1 (kObj.legendColors.length - 1)) := by
  simp only [switchVisualization, visualizeKaryotype, if_pos h]

theorem switchVisualization_legendColors :
    (switchVisualization kObj type).legendColors =
      setLegendRanges (Math.ceilDiv (selectMode kObj type).1 (kObj.legendColors.length - 1))
        (selectMode kObj type).1 kObj.legendColors := by
  simp only [switchVisualization, visualizeKaryotype, if_pos h]

theorem switchVisualization_svgCreated :
    (switchVisualization kObj type).svgCreated = kObj.svgCreated + 1 := by
  simp only [switchVisualization, visualizeKaryotype, if_pos h]

theorem switchVisualization_svg :
    (switchVisualization kObj type).svg =
      some { serial := kObj.svgCreated, width := kObj.svgWidth, height := svgHeight,
             children := drawing (switchVisualization kObj type) } := by
  simp only [switchVisualization, visualizeKaryotype, if_pos h, List.nil_append]
  congr 2
  exact drawing_congr rfl rfl rfl rfl rfl

theorem switchVisualization_container :
    (switchVisualization kObj type).container =
      (match kObj.svg with
        | some old => kObj.container.erase old.serial
        | none => kObj.container) ++ [kObj.svgCreated] := by
  simp only [switchVisualization, visualizeKaryotype, if_pos h]

end redraw
/-! ## The legend ranges -/

theorem length_setDesc (legendColors : List LegendColor) (i : ℕ) (desc : String) :
    (setDesc legendColors i desc).length = legendColors.length := by
  unfold setDesc; split <;> simp

theorem map_color_setDesc (legendColors : List LegendColor) (i : ℕ) (desc : String) :
    (setDesc legendColors i desc).map LegendColor.color =
      legendColors.map LegendColor.color := by
  unfold setDesc
  split
  · rename_i entry he
    apply List.ext_getElem? ; intro j
    simp only [List.getElem?_map, List.getElem?_set]
    by_cases hij : i = j
    · subst hij
      have hlt : i < legendColors.length := by
        rcases Nat.lt_or_ge i legendColors.length with h | h
        · exact h
        · rw [List.getElem?_eq_none h] at he; cases he
      simp [hlt, he]
    · simp [hij]
  · rfl

theorem length_legendLoop (w n i rStart : ℕ) (legendColors : List LegendColor) :
    (legendLoop w n i rStart legendColors).2.length = legendColors.length := by
  induction n generalizing i rStart legendColors with
  | zero => rfl
  | succ n ih => simp [legendLoop, ih, length_setDesc]

theorem map_color_legendLoop (w n i rStart : ℕ) (legendColors : List LegendColor) :
    (legendLoop w n i rStart legendColors).2.map LegendColor.color =
      legendColors.map LegendColor.color := by
  induction n generalizing i rStart legendColors with
  | zero => rfl
  | succ n ih => simp [legendLoop, ih, map_color_setDesc]

theorem length_setLegendRanges (w maxCount : ℕ) (legendColors : List LegendColor) :
    (setLegendRanges w maxCount legendColors).length = legendColors.length := by
  simp [setLegendRanges, length_setDesc, length_legendLoop]

theorem map_color_setLegendRanges (w maxCount : ℕ) (legendColors : List LegendColor) :
    (setLegendRanges w maxCount legendColors).map LegendColor.color =
      legendColors.map LegendColor.color := by
  simp [setLegendRanges, map_color_setDesc, map_color_legendLoop]

theorem setLegendRanges_nine (w maxCount : ℕ) (e0 e1 e2 e3 e4 e5 e6 e7 e8 : LegendColor) :
    setLegendRanges w maxCount [e0, e1, e2, e3, e4, e5, e6, e7, e8] =
      [e0,
        { e1 with desc := .str (rangeLabel 1 w) },
        { e2 with desc := .str (rangeLabel (1 + w) (2 * w)) },
        { e3 with desc := .str (rangeLabel (1 + 2 * w) (3 * w)) },
        { e4 with desc := .str (rangeLabel (1 + 3 * w) (4 * w)) },
        { e5 with desc := .str (rangeLabel (1 + 4 * w) (5 * w)) },
        { e6 with desc := .str (rangeLabel (1 + 5 * w) (6 * w)) },
        { e7 with desc := .str (rangeLabel (1 + 6 * w) (7 * w)) },
        { e8 with desc := .str (rangeLabel (1 + 7 * w) maxCount) }] := by
  have h1 : 1 + w - 1 = w := by omega
  simp only [setLegendRanges, legendLoop, setDesc, List.length_cons, List.length_nil, h1]
  simp only [List.getElem?_cons_succ, List.getElem?_cons_zero, List.set_cons_succ,
    List.set_cons_zero, Nat.reduceAdd, Nat.reduceSub, List.length_set, List.length_cons,
    List.length_nil]
  have h2 : 1 + w + w - 1 = 2 * w := by omega
  have h3 : 1 + w + w + w - 1 = 3 * w := by omega
  have h4 : 1 + w + w + w + w - 1 = 4 * w := by omega
  have h5 : 1 + w + w + w + w + w - 1 = 5 * w := by omega
  have h6 : 1 + w + w + w + w + w + w - 1 = 6 * w := by omega
  have h7 : 1 + w + w + w + w + w + w + w - 1 = 7 * w := by omega
  have g2 : 1 + w + w = 1 + 2 * w := by omega
  have g3 : 1 + w + w + w = 1 + 3 * w := by omega
  have g4 : 1 + w + w + w + w = 1 + 4 * w := by omega
  have g5 : 1 + w + w + w + w + w = 1 + 5 * w := by omega
  have g6 : 1 + w + w + w + w + w + w = 1 + 6 * w := by omega
  have g7 : 1 + w + w + w + w + w + w + w = 1 + 7 * w := by omega
  rw [h2, h3, h4, h5, h6, h7, g7, g6, g5, g4, g3, g2]

theorem eq_nine_of_length {α : Type} {l : List α} (h : l.length = 9) :
    ∃ e0 e1 e2 e3 e4 e5 e6 e7 e8, l = [e0, e1, e2, e3, e4, e5, e6, e7, e8] := by
  match l, h with
  | [e0, e1, e2, e3, e4, e5, e6, e7, e8], _ => exact ⟨e0, e1, e2, e3, e4, e5, e6, e7, e8, rfl⟩

theorem Math.ceilDiv_eq_ceil (a b : ℕ) (hb : 0 < b) :
    ((Math.ceilDiv a b : ℕ) : ℤ) = ⌈(a : ℚ) / (b : ℚ)⌉ := by
  have hbq : (0 : ℚ) < b := by exact_mod_cast hb
  have hdm := Nat.div_add_mod (a + b - 1) b
  have hr := Nat.mod_lt (a + b - 1) hb
  unfold Math.ceilDiv
  generalize (a + b - 1) / b = q at *
  generalize (a + b - 1) % b = r at *
  have h1 : a ≤ q * b := by
    rw [Nat.mul_comm]; generalize b * q = p at *; omega
  have h2 : q * b < a + b := by
    rw [Nat.mul_comm]; generalize b * q = p at *; omega
  have h1q : (a : ℚ) ≤ q * b := by exact_mod_cast h1
  have h2q : (q : ℚ) * b < a + b := by exact_mod_cast h2
  symm
  rw [Int.ceil_eq_iff]
  constructor
  · rw [lt_div_iff₀ hbq]; push_cast; linarith
  · rw [div_le_iff₀ hbq]; push_cast; linarith
/-! ## Objects built by the constructor -/

theorem selectMode_known {kObj : KObj} (type : String)
    (hk : kObj.currentVisualType = some "all" ∨ kObj.currentVisualType = some "nrph" ∨
      (kObj.currentVisualType = some "giesma" ∧ kObj.hasGiesmaDetails ≠ 0) ∨
      (kObj.currentVisualType = none ∧ type = "all")) :
    (selectMode kObj type).2 = some "all" ∨ (selectMode kObj type).2 = some "nrph" ∨
      ((selectMode kObj type).2 = some "giesma" ∧ kObj.hasGiesmaDetails ≠ 0) := by
  unfold selectMode
  split_ifs with h1 h2 h3 h4
  · left; simp [h1]
  · right; left; simp [h2]
  · right; right; exact ⟨by simp [h3], h4⟩
  · left; rfl
  · rcases hk with h | h | h | ⟨_, h⟩
    · exact Or.inl h
    · exact Or.inr (Or.inl h)
    · exact Or.inr (Or.inr h)
    · exact absurd h h1

theorem length_legendColors_of_colors {legendColors : List LegendColor}
    (h : legendColors.map LegendColor.color = initialLegendColors.map LegendColor.color) :
    legendColors.length = 9 := by
  have := congrArg List.length h
  simpa [initialLegendColors] using this

theorem head_setLegendRanges {legendColors : List LegendColor} (h : legendColors.length = 9)
    (w maxCount : ℕ) :
    (setLegendRanges w maxCount legendColors).head? = legendColors.head? := by
  obtain ⟨e0, e1, e2, e3, e4, e5, e6, e7, e8, rfl⟩ := eq_nine_of_length h
  rw [setLegendRanges_nine]; rfl

theorem built_switchVisualization_aux {data : KaryotypeData} {first : Contig} {kObj : KObj}
    (type : String)
    (h_data : kObj.karyotype_data = data)
    (h_maxHit : kObj.maxHitClusterSize = maxThird (allHitClusters data))
    (h_maxNrph : kObj.maxNrphHitClusterSize = maxThird (allNrphHitClusters data))
    (h_has : kObj.hasGiesmaDetails = if data.singleton_contigs.any hasBands then 1 else 0)
    (h_ppbp : kObj.pixelsPerBP =
      JsNum.div (JsNum.ofNat (svgHeight - 2 * contigCapPixelSize)) (JsNum.ofNat first.size))
    (h_colors : kObj.legendColors.map LegendColor.color =
      initialLegendColors.map LegendColor.color)
    (h_desc : kObj.legendColors.head?.map LegendColor.desc = some (.str "0"))
    (h_mode : kObj.currentVisualType = some "all" ∨ kObj.currentVisualType = some "nrph" ∨
      (kObj.currentVisualType = some "giesma" ∧ kObj.hasGiesmaDetails ≠ 0) ∨
      (kObj.currentVisualType = none ∧ type = "all"))
    (h_svg : (kObj.svg = none ∧ kObj.container = []) ∨
      ∃ svg, kObj.svg = some svg ∧ kObj.container = [svg.serial])
    (h_ne : some type ≠ kObj.currentVisualType) :
    Built data first (switchVisualization kObj type) := by
  have hlen := length_legendColors_of_colors h_colors
  refine
    { data_eq := by rw [switchVisualization_karyotype_data, h_data]
      maxHit_eq := by rw [switchVisualization_maxHitClusterSize, h_maxHit]
      maxNrph_eq := by rw [switchVisualization_maxNrphHitClusterSize, h_maxNrph]
      hasGiesma_eq := by rw [switchVisualization_hasGiesmaDetails, h_has]
      pixelsPerBP_eq := by rw [switchVisualization_pixelsPerBP, h_ppbp]
      colors_eq := by
        rw [switchVisualization_legendColors h_ne, map_color_setLegendRanges, h_colors]
      desc_zero := by
        rw [switchVisualization_legendColors h_ne, head_setLegendRanges hlen, h_desc]
      rangeSize_isSome := by rw [switchVisualization_legendRangeSize h_ne]; rfl
      mode_known := by
        rw [switchVisualization_currentVisualType h_ne, switchVisualization_hasGiesmaDetails]
        exact selectMode_known type h_mode
      svg_drawn := ?_ }
  refine ⟨_, switchVisualization_svg h_ne, rfl, ?_, rfl, ?_, ?_⟩
  · rw [switchVisualization_svgWidth]
  · rw [switchVisualization_container h_ne]
    rcases h_svg with ⟨h1, h2⟩ | ⟨svg, h1, h2⟩
    · simp [h1, h2]
    · simp [h1, h2]
  · rw [switchVisualization_svgCreated h_ne]; exact Nat.lt_succ_self _

theorem built_construct (data : KaryotypeData) (first : Contig) :
    Built data first (construct data first) := by
  unfold construct
  apply built_switchVisualization_aux
  · rfl
  · exact getStats_maxHit data
  · exact getStats_maxNrph data
  · exact getStats_hasGiesma data
  · rfl
  · rfl
  · rfl
  · right; right; right; exact ⟨rfl, rfl⟩
  · left; exact ⟨rfl, rfl⟩
  · simp

theorem built_switchVisualization {data : KaryotypeData} {first : Contig} {kObj : KObj}
    (hk : Built data first kObj) (type : String) :
    Built data first (switchVisualization kObj type) := by
  by_cases h_ne : some type = kObj.currentVisualType
  · rw [switchVisualization_of_eq h_ne]; exact hk
  · obtain ⟨svg, h1, _, _, _, h2, _⟩ := hk.svg_drawn
    refine built_switchVisualization_aux type hk.data_eq hk.maxHit_eq hk.maxNrph_eq
      hk.hasGiesma_eq hk.pixelsPerBP_eq hk.colors_eq hk.desc_zero ?_ (Or.inr ⟨svg, h1, h2⟩) h_ne
    rcases hk.mode_known with h | h | h
    · exact Or.inl h
    · exact Or.inr (Or.inl h)
    · exact Or.inr (Or.inr (Or.inl h))

theorem built_calls {data : KaryotypeData} {first : Contig} {kObj : KObj}
    (hk : Built data first kObj) (types : List String) :
    Built data first (calls kObj types) := by
  induction types generalizing kObj with
  | nil => exact hk
  | cons t rest ih => exact ih (built_switchVisualization hk t)

theorem built_of_Karyotype {data : KaryotypeData} {kObj : KObj}
    (h : Karyotype data = some kObj) :
    ∃ first, data.singleton_contigs.head? = some first ∧ Built data first kObj := by
  unfold Karyotype at h
  split at h
  · cases h
  · rename_i first rest heq
    cases h
    exact ⟨first, by rw [heq]; rfl, built_construct data first⟩

/-! ## The fill of a hit cluster rectangle is always a colour string -/

theorem colorIdx_cases (kObj : KObj) (cl : Cluster) :
    colorIdx kObj cl = .nan ∨ colorIdx kObj cl = .posInf ∨
      ∃ i : ℤ, 0 ≤ i ∧ colorIdx kObj cl = .int i := by
  unfold colorIdx
  generalize kObj.legendRangeSize.getD 0 = w
  simp only [JsNum.ofNat, JsNum.quotient]
  by_cases hw : (w : ℚ) = 0
  · by_cases hc : (cl.hitCount : ℚ) = 0
    · left; simp [hw, hc, Math.ceil]
    · right; left
      have : (0 : ℚ) < cl.hitCount := lt_of_le_of_ne (Nat.cast_nonneg _) (Ne.symm hc)
      simp [hw, hc, this, Math.ceil]
  · right; right
    refine ⟨⌈(cl.hitCount : ℚ) / w⌉, ?_, by simp [hw, Math.ceil]⟩
    exact Int.ceil_nonneg (div_nonneg (Nat.cast_nonneg _) (Nat.cast_nonneg _))

theorem clusterColor_isStr (kObj : KObj) (cl : Cluster) :
    ∃ s, clusterColor kObj cl = .str s := by
  unfold clusterColor
  split_ifs with h
  · obtain ⟨-, hlt⟩ := h
    rcases colorIdx_cases kObj cl with hi | hi | ⟨i, hi0, hi⟩
    · rw [hi] at hlt; simp [JsInt.ltNat] at hlt
    · rw [hi] at hlt; simp [JsInt.ltNat] at hlt
    · rw [hi] at hlt ⊢
      simp only [JsInt.ltNat, decide_eq_true_eq] at hlt
      have hlen : i.toNat < kObj.legendColors.length := by omega
      simp only [legendColorAt, List.getElem?_eq_getElem hlen]
      exact ⟨_, rfl⟩
  · exact ⟨_, rfl⟩
/-! ## Calling switchVisualization twice; the Giesma fallback; unknown modes -/

theorem selectMode_congr {k k' : KObj} (type : String)
    (h₁ : k'.maxHitClusterSize = k.maxHitClusterSize)
    (h₂ : k'.maxNrphHitClusterSize = k.maxNrphHitClusterSize)
    (h₃ : k'.hasGiesmaDetails = k.hasGiesmaDetails)
    (h₄ : k'.currentVisualType = k.currentVisualType) :
    selectMode k' type = selectMode k type := by
  simp only [selectMode, h₁, h₂, h₃, h₄]

theorem selectMode_snd_ne {kObj : KObj} {type : String}
    (h : (selectMode kObj type).2 ≠ some type) :
    (selectMode kObj type).2 = kObj.currentVisualType ∨
      (type = "giesma" ∧ kObj.hasGiesmaDetails = 0 ∧ (selectMode kObj type).2 = some "all") := by
  unfold selectMode at h ⊢
  split_ifs at h ⊢ with h1 h2 h3 h4
  · exact absurd rfl h
  · exact absurd rfl h
  · exact absurd rfl h
  · right; exact ⟨h3, by simpa using h4, rfl⟩
  · left; rfl

theorem setLegendRanges_idem {legendColors : List LegendColor} (h : legendColors.length = 9)
    (w maxCount : ℕ) :
    setLegendRanges w maxCount (setLegendRanges w maxCount legendColors) =
      setLegendRanges w maxCount legendColors := by
  obtain ⟨e0, e1, e2, e3, e4, e5, e6, e7, e8, rfl⟩ := eq_nine_of_length h
  rw [setLegendRanges_nine, setLegendRanges_nine]

theorem selectMode_of_recorded {kObj : KObj} {type : String}
    (h : type = "all" ∨ type = "nrph" ∨ (type = "giesma" ∧ kObj.hasGiesmaDetails ≠ 0)) :
    (selectMode kObj type).2 = some type := by
  unfold selectMode
  rcases h with h | h | ⟨h, h'⟩
  · simp [h]
  · subst h; simp
  · subst h; simp [h']

/-- Claim C1, amended.  For every dataset and every mode `m`, two calls
`switchVisualization(m)` in a row leave `currentVisualType`, `legendRangeSize`,
the legend entries, the content of the svg (its size and its children) and the
number of svg children of the container exactly as the first call left them.
When the first call recorded `m` as the current type the second call changes
nothing at all (no discard, no redraw, the same svg instance), and the first
call records `m` for "all", for "nrph" and for "giesma" on a dataset with
Giesma bands.  When the first call did not record `m`, the second call does
replace the svg by a new instance. -/
theorem switchVisualization_twice (data : KaryotypeData) (k0 : KObj) (types : List String)
    (m : String) (h : Karyotype data = some k0) :
    (((switchVisualization (calls k0 types) m).currentVisualType = some m →
        switchVisualization (switchVisualization (calls k0 types) m) m =
          switchVisualization (calls k0 types) m) ∧
      ((m = "all" ∨ m = "nrph" ∨
          (m = "giesma" ∧ data.singleton_contigs.any hasBands = true)) →
        (switchVisualization (calls k0 types) m).currentVisualType = some m) ∧
      ((switchVisualization (calls k0 types) m).currentVisualType ≠ some m →
        (switchVisualization (switchVisualization (calls k0 types) m) m).svg.map Svg.serial ≠
          (switchVisualization (calls k0 types) m).svg.map Svg.serial)) ∧
    (switchVisualization (switchVisualization (calls k0 types) m) m).currentVisualType =
      (switchVisualization (calls k0 types) m).currentVisualType ∧
    (switchVisualization (switchVisualization (calls k0 types) m) m).legendRangeSize =
      (switchVisualization (calls k0 types) m).legendRangeSize ∧
    (switchVisualization (switchVisualization (calls k0 types) m) m).legendColors =
      (switchVisualization (calls k0 types) m).legendColors ∧
    (switchVisualization (switchVisualization (calls k0 types) m) m).svg.map Svg.children =
      (switchVisualization (calls k0 types) m).svg.map Svg.children ∧
    (switchVisualization (switchVisualization (calls k0 types) m) m).svg.map Svg.width =
      (switchVisualization (calls k0 types) m).svg.map Svg.width ∧
    (switchVisualization (switchVisualization (calls k0 types) m) m).svg.map Svg.height =
      (switchVisualization (calls k0 types) m).svg.map Svg.height ∧
    (switchVisualization (switchVisualization (calls k0 types) m) m).container.length =
      (switchVisualization (calls k0 types) m).container.length := by
  obtain ⟨first, -, hb⟩ := built_of_Karyotype h
  have hk := built_calls hb types
  generalize calls k0 types = k at hk ⊢
  have hk1 := built_switchVisualization hk m
  refine ⟨⟨fun h1 => switchVisualization_of_eq h1.symm, ?_, ?_⟩, ?_⟩
  · intro hm
    by_cases h_ne : some m = k.currentVisualType
    · rw [switchVisualization_of_eq h_ne]; exact h_ne.symm
    · rw [switchVisualization_currentVisualType h_ne]
      apply selectMode_of_recorded
      rcases hm with hm | hm | ⟨hm, hany⟩
      · exact Or.inl hm
      · exact Or.inr (Or.inl hm)
      · refine Or.inr (Or.inr ⟨hm, ?_⟩)
        rw [hk.hasGiesma_eq, if_pos hany]; exact one_ne_zero
  · intro h1
    have h1' : some m ≠ (switchVisualization k m).currentVisualType := fun e => h1 e.symm
    obtain ⟨s1, hs1, -, -, -, -, hlt⟩ := hk1.svg_drawn
    rw [switchVisualization_svg h1', hs1]
    simp only [Option.map_some', ne_eq, Option.some.injEq]
    omega
  · by_cases h1 : some m = (switchVisualization k m).currentVisualType
    · rw [switchVisualization_of_eq h1]; simp
    · have h_ne : some m ≠ k.currentVisualType := by
        intro he; rw [switchVisualization_of_eq he] at h1; exact h1 he
      have hcur : (switchVisualization k m).currentVisualType = (selectMode k m).2 :=
        switchVisualization_currentVisualType h_ne
      have hsel : selectMode (switchVisualization k m) m = selectMode k m := by
        have hne2 : (selectMode k m).2 ≠ some m := by rw [← hcur]; exact fun e => h1 e.symm
        rcases selectMode_snd_ne hne2 with hsame | ⟨hg, hhas, -⟩
        · exact selectMode_congr m (switchVisualization_maxHitClusterSize k m)
            (switchVisualization_maxNrphHitClusterSize k m)
            (switchVisualization_hasGiesmaDetails k m) (hcur.trans hsame)
        · subst hg
          simp [selectMode, switchVisualization_hasGiesmaDetails,
            switchVisualization_maxHitClusterSize, hhas]
      have hlen : (switchVisualization k m).legendColors.length = k.legendColors.length := by
        rw [length_legendColors_of_colors hk1.colors_eq, length_legendColors_of_colors hk.colors_eq]
      have e_cur : (switchVisualization (switchVisualization k m) m).currentVisualType =
          (switchVisualization k m).currentVisualType := by
        rw [switchVisualization_currentVisualType h1, hsel, hcur]
      have e_size : (switchVisualization (switchVisualization k m) m).legendRangeSize =
          (switchVisualization k m).legendRangeSize := by
        rw [switchVisualization_legendRangeSize h1, hsel, hlen,
          switchVisualization_legendRangeSize h_ne]
      have e_colors : (switchVisualization (switchVisualization k m) m).legendColors =
          (switchVisualization k m).legendColors := by
        rw [switchVisualization_legendColors h1, hsel, hlen,
          switchVisualization_legendColors h_ne,
          setLegendRanges_idem (length_legendColors_of_colors hk.colors_eq)]
      refine ⟨e_cur, e_size, e_colors, ?_, ?_, ?_, ?_⟩
      · rw [switchVisualization_svg h1, switchVisualization_svg h_ne]
        simp only [Option.map_some']
        congr 1
        exact drawing_congr (by simp only [switchVisualization_karyotype_data])
          (by simp only [switchVisualization_pixelsPerBP]) e_cur e_size e_colors
      · rw [switchVisualization_svg h1, switchVisualization_svg h_ne]
        simp only [Option.map_some', switchVisualization_svgWidth]
      · rw [switchVisualization_svg h1, switchVisualization_svg h_ne]
        simp only [Option.map_some']
      · obtain ⟨s2, -, -, -, -, hc2, -⟩ := (built_switchVisualization hk1 m).svg_drawn
        obtain ⟨s1, -, -, -, -, hc1, -⟩ := hk1.svg_drawn
        rw [hc2, hc1]; rfl

/-- A concrete instance of `switchVisualization_twice`: on the example data, a
second call `switchVisualization("nrph")` changes nothing. -/
theorem switchVisualization_twice_witness :
    switchVisualization (switchVisualization (calls (construct exampleData chr1) ["giesma"])
        "nrph") "nrph" =
      switchVisualization (calls (construct exampleData chr1) ["giesma"]) "nrph" :=
  (switchVisualization_twice exampleData (construct exampleData chr1) ["giesma"] "nrph" rfl).1.1
    (by decide)

/-- Claim C1 as stated fails: on the example data (no Giesma bands) the call
`switchVisualization("giesma")` draws into the svg with serial 1, and a second
call `switchVisualization("giesma")` discards it and draws into a new svg,
with serial 2. -/
theorem switchVisualization_twice_giesma_redraws :
    Karyotype exampleData = some (construct exampleData chr1) ∧
    (switchVisualization (construct exampleData chr1) "giesma").svg.map Svg.serial = some 1 ∧
    (switchVisualization (construct exampleData chr1) "giesma").container = [1] ∧
    (switchVisualization (switchVisualization (construct exampleData chr1) "giesma")
      "giesma").svg.map Svg.serial = some 2 ∧
    (switchVisualization (switchVisualization (construct exampleData chr1) "giesma")
      "giesma").container = [2] :=
  ⟨rfl, by decide, by decide, by decide, by decide⟩

/-- Claim C2.  On a dataset in which no contig has a non-empty `giesma_bands`
list (missing or empty on every contig), `switchVisualization("giesma")`, in
whatever state the object is, leaves `currentVisualType` equal to "all" (not
"giesma") and computes the legend from `maxHitClusterSize`, the maximum hit
count of the data: range size `Math.ceil(maxHitClusterSize / 8)` and the labels
made from it.  The object ends in the very state that
`switchVisualization("all")` reaches when it is not skipped, that is, from the
same object with `currentVisualType` reset to `null`. -/
theorem switchVisualization_giesma_fallback (data : KaryotypeData) (k0 : KObj)
    (types : List String) (h : Karyotype data = some k0)
    (hbands : ∀ contig ∈ data.singleton_contigs,
      contig.giesma_bands = none ∨ contig.giesma_bands = some []) :
    (switchVisualization (calls k0 types) "giesma").currentVisualType = some "all" ∧
    (switchVisualization (calls k0 types) "giesma").currentVisualType ≠ some "giesma" ∧
    (calls k0 types).maxHitClusterSize = maxThird (allHitClusters data) ∧
    (switchVisualization (calls k0 types) "giesma").legendRangeSize =
      some (Math.ceilDiv (calls k0 types).maxHitClusterSize 8) ∧
    (switchVisualization (calls k0 types) "giesma").legendColors =
      setLegendRanges (Math.ceilDiv (calls k0 types).maxHitClusterSize 8)
        (calls k0 types).maxHitClusterSize (calls k0 types).legendColors ∧
    switchVisualization (calls k0 types) "giesma" =
      switchVisualization { calls k0 types with currentVisualType := none } "all" := by
  obtain ⟨first, -, hb⟩ := built_of_Karyotype h
  have hk := built_calls hb types
  generalize calls k0 types = k at hk ⊢
  have hany : data.singleton_contigs.any hasBands = false := by
    rw [List.any_eq_false]
    intro c hc
    rcases hbands c hc with h0 | h0 <;> simp [hasBands, h0]
  have hhas : k.hasGiesmaDetails = 0 := by rw [hk.hasGiesma_eq, hany]; rfl
  have h_ne : some "giesma" ≠ k.currentVisualType := by
    intro he
    rcases hk.mode_known with h1 | h1 | ⟨-, h1⟩
    · rw [h1] at he; exact absurd he (by decide)
    · rw [h1] at he; exact absurd he (by decide)
    · exact h1 hhas
  have hsel : selectMode k "giesma" = (k.maxHitClusterSize, some "all") := by
    simp [selectMode, hhas]
  have hlen : k.legendColors.length - 1 = 8 := by
    rw [length_legendColors_of_colors hk.colors_eq]
  have hcur : (switchVisualization k "giesma").currentVisualType = some "all" := by
    rw [switchVisualization_currentVisualType h_ne, hsel]
  refine ⟨hcur, by rw [hcur]; decide, hk.maxHit_eq, ?_, ?_, ?_⟩
  · rw [switchVisualization_legendRangeSize h_ne, hsel, hlen]
  · rw [switchVisualization_legendColors h_ne, hsel, hlen]
  · simp only [switchVisualization, if_pos h_ne, hsel]
    rw [if_pos (by simp)]
    simp [selectMode]

/-- A concrete instance of `switchVisualization_giesma_fallback`: the example
data has no Giesma bands, and after "nrph" the call for "giesma" ends in "all". -/
theorem switchVisualization_giesma_fallback_witness :
    (switchVisualization (calls (construct exampleData chr1) ["nrph"])
      "giesma").currentVisualType = some "all" :=
  (switchVisualization_giesma_fallback exampleData (construct exampleData chr1) ["nrph"] rfl
    (by decide)).1

theorem selectMode_unknown (kObj : KObj) {m : String} (h₁ : m ≠ "all") (h₂ : m ≠ "nrph")
    (h₃ : m ≠ "giesma") : selectMode kObj m = (0, kObj.currentVisualType) := by
  simp [selectMode, h₁, h₂, h₃]

theorem map_desc_setLegendRanges {legendColors : List LegendColor}
    (h : legendColors.length = 9)
    (h0 : legendColors.head?.map LegendColor.desc = some (.str "0")) (w maxCount : ℕ) :
    (setLegendRanges w maxCount legendColors).map LegendColor.desc =
      [.str "0", .str (rangeLabel 1 w), .str (rangeLabel (1 + w) (2 * w)),
        .str (rangeLabel (1 + 2 * w) (3 * w)), .str (rangeLabel (1 + 3 * w) (4 * w)),
        .str (rangeLabel (1 + 4 * w) (5 * w)), .str (rangeLabel (1 + 5 * w) (6 * w)),
        .str (rangeLabel (1 + 6 * w) (7 * w)), .str (rangeLabel (1 + 7 * w) maxCount)] := by
  obtain ⟨e0, e1, e2, e3, e4, e5, e6, e7, e8, rfl⟩ := eq_nine_of_length h
  rw [setLegendRanges_nine]
  simp only [List.head?_cons, Option.map_some', Option.some.injEq] at h0
  simp [h0]

/-- Claim C3, amended.  For every mode string other than "all", "nrph" and
"giesma", `switchVisualization` keeps `currentVisualType` and the statistics of
the data, but it is not a no-op: it discards the svg and draws a new one, sets
`legendRangeSize` to 0 and labels the legend buckets 1 to 8 "1-0" (bucket 0
keeps "0"). -/
theorem switchVisualization_unknown (data : KaryotypeData) (k0 : KObj) (types : List String)
    (m : String) (h : Karyotype data = some k0)
    (h₁ : m ≠ "all") (h₂ : m ≠ "nrph") (h₃ : m ≠ "giesma") :
    (switchVisualization (calls k0 types) m).currentVisualType =
      (calls k0 types).currentVisualType ∧
    (switchVisualization (calls k0 types) m).maxHitClusterSize =
      (calls k0 types).maxHitClusterSize ∧
    (switchVisualization (calls k0 types) m).maxNrphHitClusterSize =
      (calls k0 types).maxNrphHitClusterSize ∧
    (switchVisualization (calls k0 types) m).legendRangeSize = some 0 ∧
    (switchVisualization (calls k0 types) m).legendColors.map LegendColor.desc =
      [.str "0", .str "1-0", .str "1-0", .str "1-0", .str "1-0", .str "1-0", .str "1-0",
        .str "1-0", .str "1-0"] ∧
    (switchVisualization (calls k0 types) m).svg.map Svg.serial =
      some (calls k0 types).svgCreated ∧
    (calls k0 types).svg.map Svg.serial ≠ some (calls k0 types).svgCreated ∧
    (switchVisualization (calls k0 types) m).svg.map Svg.children =
      some (drawing (switchVisualization (calls k0 types) m)) := by
  obtain ⟨first, -, hb⟩ := built_of_Karyotype h
  have hk := built_calls hb types
  generalize calls k0 types = k at hk ⊢
  have h_ne : some m ≠ k.currentVisualType := by
    intro he
    rcases hk.mode_known with h1 | h1 | ⟨h1, -⟩ <;>
      · rw [h1] at he; simp only [Option.some.injEq] at he; contradiction
  have hsel := selectMode_unknown k h₁ h₂ h₃
  have hlen := length_legendColors_of_colors hk.colors_eq
  have hz : Math.ceilDiv 0 8 = 0 := by decide
  refine ⟨?_, switchVisualization_maxHitClusterSize k m,
    switchVisualization_maxNrphHitClusterSize k m, ?_, ?_, ?_, ?_, ?_⟩
  · rw [switchVisualization_currentVisualType h_ne, hsel]
  · rw [switchVisualization_legendRangeSize h_ne, hsel, hlen]
    simp only [Nat.reduceSub, hz]
  · rw [switchVisualization_legendColors h_ne, hsel, hlen,
      map_desc_setLegendRanges hlen hk.desc_zero]
    simp only [Nat.reduceSub, hz, Nat.mul_zero, Nat.add_zero]
    decide
  · rw [switchVisualization_svg h_ne]; rfl
  · obtain ⟨svg, hs, -, -, -, -, hlt⟩ := hk.svg_drawn
    rw [hs]; simp only [Option.map_some', ne_eq, Option.some.injEq]; omega
  · rw [switchVisualization_svg h_ne]; rfl

/-- A concrete instance of `switchVisualization_unknown`: the mode "foo" on the
example data. -/
theorem switchVisualization_unknown_witness :
    (switchVisualization (calls (construct exampleData chr1) []) "foo").legendRangeSize =
      some 0 :=
  (switchVisualization_unknown exampleData (construct exampleData chr1) [] "foo" rfl
    (by decide) (by decide) (by decide)).2.2.2.1

/-- Claim C3 as stated fails: on the example data the legend of the constructed
object has range size 7 and labels "1-7", .., "50-50"; the call
`switchVisualization("foo")` changes the range size to 0 and the labels to
"1-0", and replaces the svg (serial 0) by a new one (serial 1). -/
theorem switchVisualization_unknown_changes_legend :
    Karyotype exampleData = some (construct exampleData chr1) ∧
    (construct exampleData chr1).legendRangeSize = some 7 ∧
    (switchVisualization (construct exampleData chr1) "foo").legendRangeSize = some 0 ∧
    (construct exampleData chr1).legendColors.map LegendColor.desc =
      [.str "0", .str "1-7", .str "8-14", .str "15-21", .str "22-28", .str "29-35",
        .str "36-42", .str "43-49", .str "50-50"] ∧
    (switchVisualization (construct exampleData chr1) "foo").legendColors.map LegendColor.desc =
      [.str "0", .str "1-0", .str "1-0", .str "1-0", .str "1-0", .str "1-0", .str "1-0",
        .str "1-0", .str "1-0"] ∧
    (construct exampleData chr1).svg.map Svg.serial = some 0 ∧
    (switchVisualization (construct exampleData chr1) "foo").svg.map Svg.serial = some 1 :=
  ⟨rfl, by decide, by decide, by decide, by decide, by decide, by decide⟩

/-! ## The legend computed by switchVisualization -/

theorem legendColors_switchVisualization (kObj : KObj) (type : String)
    (h_colors : kObj.legendColors.map LegendColor.color =
      initialLegendColors.map LegendColor.color)
    (h_desc : kObj.legendColors.head?.map LegendColor.desc = some (.str "0"))
    (h_ne : some type ≠ kObj.currentVisualType) :
    (switchVisualization kObj type).legendRangeSize =
        some (Math.ceilDiv (selectMode kObj type).1 8) ∧
      (switchVisualization kObj type).legendColors.map LegendColor.desc =
        .str "0" :: (legendBounds (Math.ceilDiv (selectMode kObj type).1 8)
          (selectMode kObj type).1).map (fun b => .str (rangeLabel b.1 b.2)) := by
  have hlen := length_legendColors_of_colors h_colors
  constructor
  · rw [switchVisualization_legendRangeSize h_ne, hlen]
  · rw [switchVisualization_legendColors h_ne, hlen, map_desc_setLegendRanges hlen h_desc]
    rfl

theorem legend_of_built_or_redrawn {data : KaryotypeData} {k0 : KObj} (types : List String)
    (m : String) (h : Karyotype data = some k0) {kObj : KObj} {maxCount : ℕ}
    (hk : (kObj = k0 ∧ maxCount = maxThird (allHitClusters data)) ∨
      (kObj = switchVisualization (calls k0 types) m ∧
        some m ≠ (calls k0 types).currentVisualType ∧
        maxCount = (selectMode (calls k0 types) m).1)) :
    kObj.legendColors.length = 9 ∧
    kObj.legendRangeSize = some (Math.ceilDiv maxCount 8) ∧
    kObj.legendColors.map LegendColor.desc =
      .str "0" :: (legendBounds (Math.ceilDiv maxCount 8) maxCount).map
        (fun b => .str (rangeLabel b.1 b.2)) := by
  rcases hk with ⟨rfl, rfl⟩ | ⟨rfl, h_ne, rfl⟩
  · unfold Karyotype at h
    split at h
    · cases h
    · rename_i first rest heq
      cases h
      refine ⟨length_legendColors_of_colors (built_construct data first).colors_eq, ?_⟩
      have := legendColors_switchVisualization
          { karyotype_data := data
            legendColors := initialLegendColors
            maxHitClusterSize := (getStats data.singleton_contigs).maxHitClusterSize
            maxNrphHitClusterSize := (getStats data.singleton_contigs).maxNrphHitClusterSize
            hasGiesmaDetails := (getStats data.singleton_contigs).hasGiesmaDetails
            largestContigBP := first.size
            container := []
            legendRangeSize := none
            svgWidth := (contigPixelWidth + contigPixelWidth) *
              (data.singleton_contigs.length +
                (if data.remaining_genome_contig.isSome then 1 else 0)) + legendWidth
            pixelsPerBP :=
              JsNum.div (JsNum.ofNat (svgHeight - 2 * contigCapPixelSize))
                (JsNum.ofNat first.size)
            currentVisualType := none
            svg := none
            svgCreated := 0 } "all" rfl rfl (by simp)
      simpa [selectMode, getStats_maxHit, construct] using this
  · obtain ⟨first, -, hb⟩ := built_of_Karyotype h
    have hk := built_calls hb types
    exact ⟨length_legendColors_of_colors (built_switchVisualization hk m).colors_eq,
      legendColors_switchVisualization _ _ hk.colors_eq hk.desc_zero h_ne⟩

/-- Claim C4.  Let `kObj` be the object the constructor returns, with
`maxCount` the maximum hit count of the data, or the object after any later
call of `switchVisualization` that redraws, with `maxCount` the maximum that
call selects (`maxHitClusterSize` for "all", `maxNrphHitClusterSize` for
"nrph").  Then the legend has exactly 9 entries, one per legend colour; entry 0
is labelled "0"; with `w = Math.ceil(maxCount / 8)` the value of
`legendRangeSize`, every entry `i` from 1 to 7 is labelled
`(1 + (i-1)*w) + "-" + (i*w)`, a range of `w` values; and the label of the
last entry is `(1 + 7*w) + "-" + maxCount`, its upper bound is `maxCount`. -/
theorem legend_buckets (data : KaryotypeData) (k0 : KObj) (types : List String) (m : String)
    (kObj : KObj) (maxCount : ℕ) (h : Karyotype data = some k0)
    (hk : (kObj = k0 ∧ maxCount = maxThird (allHitClusters data)) ∨
      (kObj = switchVisualization (calls k0 types) m ∧
        some m ≠ (calls k0 types).currentVisualType ∧
        maxCount = (selectMode (calls k0 types) m).1)) :
    kObj.legendColors.length = 9 ∧
    kObj.legendColors.map LegendColor.color = initialLegendColors.map LegendColor.color ∧
    (∃ w : ℕ, kObj.legendRangeSize = some w ∧ (w : ℤ) = ⌈(maxCount : ℚ) / ((9 - 1 : ℕ) : ℚ)⌉ ∧
      kObj.legendColors[0]?.map LegendColor.desc = some (.str "0") ∧
      (∀ i, 1 ≤ i → i ≤ 7 →
        kObj.legendColors[i]?.map LegendColor.desc =
            some (.str (toString (1 + (i - 1) * w) ++ "-" ++ toString (i * w))) ∧
          i * w + 1 = (1 + (i - 1) * w) + w) ∧
      kObj.legendColors[8]?.map LegendColor.desc =
        some (.str (toString (1 + 7 * w) ++ "-" ++ toString maxCount))) ∧
    ((m = "all" → (selectMode (calls k0 types) m).1 = maxThird (allHitClusters data)) ∧
      (m = "nrph" → (selectMode (calls k0 types) m).1 = maxThird (allNrphHitClusters data))) := by
  obtain ⟨hlen, hsize, hdesc⟩ := legend_of_built_or_redrawn types m h hk
  have hcol : kObj.legendColors.map LegendColor.color =
      initialLegendColors.map LegendColor.color := by
    obtain ⟨first, -, hb⟩ := built_of_Karyotype h
    rcases hk with ⟨rfl, -⟩ | ⟨rfl, -, -⟩
    · exact hb.colors_eq
    · exact (built_switchVisualization (built_calls hb types) m).colors_eq
  have hget : ∀ i : ℕ, kObj.legendColors[i]?.map LegendColor.desc =
      (kObj.legendColors.map LegendColor.desc)[i]? := by
    intro i; rw [List.getElem?_map]
  refine ⟨hlen, hcol, ⟨Math.ceilDiv maxCount 8, hsize, ?_, ?_, ?_, ?_⟩, ?_, ?_⟩
  · exact Math.ceilDiv_eq_ceil maxCount 8 (by decide)
  · rw [hget, hdesc]; rfl
  · intro i h1 h7
    rw [hget, hdesc]
    generalize Math.ceilDiv maxCount 8 = w
    have hi : i = 1 ∨ i = 2 ∨ i = 3 ∨ i = 4 ∨ i = 5 ∨ i = 6 ∨ i = 7 := by omega
    rcases hi with rfl | rfl | rfl | rfl | rfl | rfl | rfl <;>
      simp [legendBounds, rangeLabel] <;> omega
  · rw [hget, hdesc]; rfl
  · intro hm
    obtain ⟨first, -, hb⟩ := built_of_Karyotype h
    subst hm
    simp [selectMode, (built_calls hb types).maxHit_eq]
  · intro hm
    obtain ⟨first, -, hb⟩ := built_of_Karyotype h
    subst hm
    simp [selectMode, (built_calls hb types).maxNrph_eq]

/-- A concrete instance of `legend_buckets`: the object constructed from the
example data. -/
theorem legend_buckets_witness :
    (construct exampleData chr1).legendColors.length = 9 :=
  (legend_buckets exampleData (construct exampleData chr1) [] "all"
    (construct exampleData chr1) (maxThird (allHitClusters exampleData)) rfl
    (Or.inl ⟨rfl, rfl⟩)).1

/-- Claim C5, amended.  Let `kObj` be the object the constructor returns, with
`maxCount` the maximum hit count of the data, or the object after any later
call of `switchVisualization` that redraws, with `maxCount` the maximum that
call selects; let `maxCount >= 1` and `w = Math.ceil(maxCount / 8)`.  The labels of legend
buckets 1 to 8 are the ranges `legendBounds w maxCount`, and consecutive ranges
are always adjacent.  Every range has lower bound <= upper bound exactly when
`7 * w < maxCount`, which holds for every `maxCount >= 50`; and when
`7 * w < maxCount` the ranges are pairwise disjoint and cover exactly the
integers from 1 to `maxCount`. -/
theorem legend_ranges_partition (data : KaryotypeData) (k0 : KObj) (types : List String)
    (m : String) (kObj : KObj) (maxCount : ℕ) (h : Karyotype data = some k0)
    (hk : (kObj = k0 ∧ maxCount = maxThird (allHitClusters data)) ∨
      (kObj = switchVisualization (calls k0 types) m ∧
        some m ≠ (calls k0 types).currentVisualType ∧
        maxCount = (selectMode (calls k0 types) m).1))
    (hmax : 1 ≤ maxCount) :
    kObj.legendRangeSize = some (Math.ceilDiv maxCount 8) ∧
    (kObj.legendColors.drop 1).map LegendColor.desc =
      (legendBounds (Math.ceilDiv maxCount 8) maxCount).map
        (fun b => .str (toString b.1 ++ "-" ++ toString b.2)) ∧
    List.Chain' (fun a b => b.1 = a.2 + 1) (legendBounds (Math.ceilDiv maxCount 8) maxCount) ∧
    ((∀ b ∈ legendBounds (Math.ceilDiv maxCount 8) maxCount, b.1 ≤ b.2) ↔
      7 * Math.ceilDiv maxCount 8 < maxCount) ∧
    (50 ≤ maxCount → 7 * Math.ceilDiv maxCount 8 < maxCount) ∧
    (7 * Math.ceilDiv maxCount 8 < maxCount →
      (legendBounds (Math.ceilDiv maxCount 8) maxCount).Pairwise (fun a b => a.2 < b.1) ∧
      ∀ x, (1 ≤ x ∧ x ≤ maxCount) ↔
        ∃ b ∈ legendBounds (Math.ceilDiv maxCount 8) maxCount, b.1 ≤ x ∧ x ≤ b.2) := by
  obtain ⟨-, hsize, hdesc⟩ := legend_of_built_or_redrawn types m h hk
  have hw : 1 ≤ Math.ceilDiv maxCount 8 := by unfold Math.ceilDiv; omega
  have h50 : 50 ≤ maxCount → 7 * Math.ceilDiv maxCount 8 < maxCount := by
    unfold Math.ceilDiv; omega
  refine ⟨hsize, ?_, ?_, ?_, h50, ?_⟩
  · rw [List.map_drop, hdesc]; rfl
  · simp only [legendBounds, List.chain'_cons, List.chain'_singleton, and_true]
    omega
  · generalize Math.ceilDiv maxCount 8 = w at hw
    simp only [legendBounds, List.mem_cons, List.mem_singleton, List.not_mem_nil, or_false,
      forall_eq_or_imp, forall_eq]
    constructor
    · intro hb; omega
    · intro hb; omega
  · generalize Math.ceilDiv maxCount 8 = w at hw
    intro h7
    constructor
    · simp only [legendBounds, List.pairwise_cons, List.mem_cons, List.mem_singleton,
        List.not_mem_nil, or_false, forall_eq_or_imp, forall_eq, List.Pairwise.nil, and_true,
        IsEmpty.forall_iff, implies_true]
      omega
    · intro x
      simp only [legendBounds, List.mem_cons, List.mem_singleton, List.not_mem_nil, or_false,
        exists_eq_or_imp, exists_eq_left]
      omega

/-- A concrete instance of `legend_ranges_partition`: the example data has
maximum hit count 50, and its legend ranges are pairwise disjoint. -/
theorem legend_ranges_partition_witness :
    (legendBounds (Math.ceilDiv (maxThird (allHitClusters exampleData)) 8)
      (maxThird (allHitClusters exampleData))).Pairwise (fun a b => a.2 < b.1) :=
  ((legend_ranges_partition exampleData (construct exampleData chr1) [] "all"
    (construct exampleData chr1) (maxThird (allHitClusters exampleData)) rfl
    (Or.inl ⟨rfl, rfl⟩) (by decide)).2.2.2.2.2 (by decide)).1

/-- Claim C5 as stated fails: for the dataset whose only cluster has count 1 the
maximum is 1, the range size is 1, and legend buckets 1 to 8 are labelled
"1-1", "2-2", .., "7-7", "8-1": bucket 2 is labelled with the range from 2 to 2,
outside 1..1, and the last bucket with lower bound 8 and upper bound 1. -/
theorem legend_ranges_not_partition :
    Karyotype oneHitData = some (construct oneHitData oneHitContig) ∧
    (construct oneHitData oneHitContig).maxHitClusterSize = 1 ∧
    (construct oneHitData oneHitContig).legendRangeSize = some 1 ∧
    ((construct oneHitData oneHitContig).legendColors.drop 1).map LegendColor.desc =
      [.str "1-1", .str "2-2", .str "3-3", .str "4-4", .str "5-5", .str "6-6", .str "7-7",
        .str "8-1"] ∧
    (construct oneHitData oneHitContig).legendColors[2]?.map LegendColor.desc =
      some (.str (rangeLabel 2 2)) ∧
    (construct oneHitData oneHitContig).legendColors[8]?.map LegendColor.desc =
      some (.str (rangeLabel 8 1)) ∧
    ¬ ((8 : ℕ) ≤ 1) :=
  ⟨rfl, by decide, by decide, by decide, by decide, by decide, by decide⟩

/-! ## The statistics of a constructed object -/

theorem calls_maxHitClusterSize (kObj : KObj) (types : List String) :
    (calls kObj types).maxHitClusterSize = kObj.maxHitClusterSize := by
  induction types generalizing kObj with
  | nil => rfl
  | cons t rest ih =>
    exact (ih (switchVisualization kObj t)).trans (switchVisualization_maxHitClusterSize kObj t)

theorem calls_maxNrphHitClusterSize (kObj : KObj) (types : List String) :
    (calls kObj types).maxNrphHitClusterSize = kObj.maxNrphHitClusterSize := by
  induction types generalizing kObj with
  | nil => rfl
  | cons t rest ih =>
    exact (ih (switchVisualization kObj t)).trans
      (switchVisualization_maxNrphHitClusterSize kObj t)

theorem maxThird_flatMap_spec (contigs : List Contig) (f : Contig → List Cluster) :
    (∀ contig ∈ contigs, ∀ cl ∈ f contig, cl.hitCount ≤ maxThird (contigs.flatMap f)) ∧
    ((∃ contig ∈ contigs, ∃ cl ∈ f contig, cl.hitCount = maxThird (contigs.flatMap f)) ∨
      ((∀ contig ∈ contigs, f contig = []) ∧ maxThird (contigs.flatMap f) = 0)) := by
  constructor
  · intro contig hc cl hcl
    exact le_maxThird (List.mem_flatMap.2 ⟨contig, hc, hcl⟩)
  · rcases maxThird_attained (contigs.flatMap f) with ⟨cl, hcl, he⟩ | ⟨hnil, hz⟩
    · obtain ⟨contig, hc, hcl'⟩ := List.mem_flatMap.1 hcl
      exact Or.inl ⟨contig, hc, cl, hcl', he⟩
    · right
      refine ⟨?_, hz⟩
      intro contig hc
      rw [List.flatMap_eq_nil_iff] at hnil
      exact hnil contig hc

/-- Claim C6.  After construction `maxHitClusterSize` is the maximum third
element over all `hit_clusters` of all contigs: no cluster has a larger count,
and the value is the count of some cluster, or it is 0 and there is no cluster
at all; `maxNrphHitClusterSize` is the same maximum over all
`nrph_hit_clusters`.  (Counts are natural numbers, so they are all >= 0.)  No
later call of `switchVisualization` changes the two values. -/
theorem maxHitClusterSize_spec (data : KaryotypeData) (k0 : KObj) (types : List String)
    (h : Karyotype data = some k0) :
    (k0.maxHitClusterSize = maxThird (allHitClusters data) ∧
      (∀ contig ∈ data.singleton_contigs, ∀ cl ∈ contig.hit_clusters,
        cl.hitCount ≤ k0.maxHitClusterSize) ∧
      ((∃ contig ∈ data.singleton_contigs, ∃ cl ∈ contig.hit_clusters,
          cl.hitCount = k0.maxHitClusterSize) ∨
        ((∀ contig ∈ data.singleton_contigs, contig.hit_clusters = []) ∧
          k0.maxHitClusterSize = 0))) ∧
    (k0.maxNrphHitClusterSize = maxThird (allNrphHitClusters data) ∧
      (∀ contig ∈ data.singleton_contigs, ∀ cl ∈ contig.nrph_hit_clusters,
        cl.hitCount ≤ k0.maxNrphHitClusterSize) ∧
      ((∃ contig ∈ data.singleton_contigs, ∃ cl ∈ contig.nrph_hit_clusters,
          cl.hitCount = k0.maxNrphHitClusterSize) ∨
        ((∀ contig ∈ data.singleton_contigs, contig.nrph_hit_clusters = []) ∧
          k0.maxNrphHitClusterSize = 0))) ∧
    (calls k0 types).maxHitClusterSize = k0.maxHitClusterSize ∧
    (calls k0 types).maxNrphHitClusterSize = k0.maxNrphHitClusterSize := by
  obtain ⟨first, -, hb⟩ := built_of_Karyotype h
  refine ⟨⟨hb.maxHit_eq, ?_⟩, ⟨hb.maxNrph_eq, ?_⟩, calls_maxHitClusterSize k0 types,
    calls_maxNrphHitClusterSize k0 types⟩
  · rw [hb.maxHit_eq]; exact maxThird_flatMap_spec _ _
  · rw [hb.maxNrph_eq]; exact maxThird_flatMap_spec _ _

/-- A concrete instance of `maxHitClusterSize_spec`: the example data, whose
largest hit count is 50. -/
theorem maxHitClusterSize_spec_witness :
    (construct exampleData chr1).maxHitClusterSize = maxThird (allHitClusters exampleData) ∧
    maxThird (allHitClusters exampleData) = 50 :=
  ⟨(maxHitClusterSize_spec exampleData (construct exampleData chr1) [] rfl).1.1, by decide⟩

/-! ## The fill of the Giesma bands -/

/-- Claim C7 against the code.  `giesmaColors` holds strings, and the code
reads the property `color` of the entry: for every colour code below 11 the
fill handed to `setAttribute` is `undefined` (the attribute reads
"undefined"), not the palette entry; a code of 11 or more gives "white".  On
the dataset `bandedData` in mode "giesma" the two band rectangles, of codes 0
and 8, get the fill `undefined`, while the palette entries are "#527280" and
"#323232". -/
theorem giesma_band_fill :
    (∀ band : Band, band.colorCode < 11 → bandColor band = .undefined) ∧
    (∀ band : Band, 11 ≤ band.colorCode → bandColor band = .str "white") ∧
    Karyotype bandedData = some (construct bandedData bandedContig) ∧
    (switchVisualization (construct bandedData bandedContig) "giesma").currentVisualType =
      some "giesma" ∧
    (switchVisualization (construct bandedData bandedContig) "giesma").svg.map
        (fun svg => svg.children.map (fun n => (n.tag?, n.attr? "fill"))) =
      some [(some "line", none), (some "line", none), (some "path", none), (some "path", none),
        (some "rect", some (.str "white")),
        (some "rect", some .undefined), (some "rect", some .undefined),
        (some "g", none)] ∧
    drawGiesmaBands (switchVisualization (construct bandedData bandedContig) "giesma") 0
        bandedContig =
      [giBand (switchVisualization (construct bandedData bandedContig) "giesma") 0
          bandedContig ⟨1, 500, 0⟩,
        giBand (switchVisualization (construct bandedData bandedContig) "giesma") 0
          bandedContig ⟨501, 1000, 8⟩] ∧
    (giBand (switchVisualization (construct bandedData bandedContig) "giesma") 0
      bandedContig ⟨1, 500, 0⟩).attr? "fill" = some .undefined ∧
    JsVal.toJsString .undefined = "undefined" ∧
    giesmaColors[0]? = some "#527280" ∧ giesmaColors[8]? = some "#323232" := by
  refine ⟨?_, ?_, rfl, by decide, by decide, by rfl, by decide, by decide, by decide,
    by decide⟩
  · intro band hb
    unfold bandColor
    have hlen : giesmaColors.length = 11 := by decide
    rw [if_pos (by omega)]
    split
    · rfl
    · rfl
  · intro band hb
    unfold bandColor
    have hlen : giesmaColors.length = 11 := by decide
    rw [if_neg (by omega)]

/-! ## What the svg contains -/

theorem mem_drawContigs {kObj : KObj} {n : Node} :
    ∀ (contigs : List Contig) (startX : ℕ), n ∈ drawContigs kObj startX contigs →
      ∃ contig ∈ contigs, ∃ x, n ∈ drawContig kObj x contig := by
  intro contigs
  induction contigs with
  | nil => intro startX hn; simp [drawContigs] at hn
  | cons c rest ih =>
    intro startX hn
    simp only [drawContigs, List.mem_append] at hn
    rcases hn with hn | hn
    · exact ⟨c, List.mem_cons_self _ _, startX, hn⟩
    · obtain ⟨contig, hc, x, hx⟩ := ih _ hn
      exact ⟨contig, List.mem_cons_of_mem _ hc, x, hx⟩

theorem drawContig_subset_drawContigs (kObj : KObj) {contig : Contig} :
    ∀ (contigs : List Contig) (startX : ℕ), contig ∈ contigs →
      ∃ x, ∀ n ∈ drawContig kObj x contig, n ∈ drawContigs kObj startX contigs := by
  intro contigs
  induction contigs with
  | nil => intro startX hc; simp at hc
  | cons c rest ih =>
    intro startX hc
    rcases List.mem_cons.1 hc with rfl | hc
    · exact ⟨startX, fun n hn => by simp only [drawContigs, List.mem_append]; exact Or.inl hn⟩
    · obtain ⟨x, hx⟩ := ih (startX + contigPixelWidth + contigPixelSeparation) hc
      exact ⟨x, fun n hn => by
        simp only [drawContigs, List.mem_append]; exact Or.inr (hx n hn)⟩

theorem isHitRect_hcBlock (kObj : KObj) (x : ℕ) (contig : Contig) (cl : Cluster) :
    isHitRect (hcBlock kObj x contig cl) = true := by
  simp [isHitRect, hcBlock, Node.attr?, Node.attrs, List.find?]

theorem fill_hcBlock (kObj : KObj) (x : ℕ) (contig : Contig) (cl : Cluster) :
    (hcBlock kObj x contig cl).attr? "fill" = some (clusterColor kObj cl) := by
  simp [hcBlock, Node.attr?, Node.attrs, List.find?]

theorem isHitRect_drawColorBoxes {n : Node} (startX : ℕ) :
    ∀ (legendColors : List LegendColor) (startY : ℕ),
      n ∈ drawColorBoxes startX startY legendColors → isHitRect n = false := by
  intro legendColors
  induction legendColors with
  | nil => intro startY hn; simp [drawColorBoxes] at hn
  | cons e rest ih =>
    intro startY hn
    simp only [drawColorBoxes, List.mem_append, List.mem_cons, List.mem_singleton,
      List.not_mem_nil, or_false] at hn
    rcases hn with (rfl | rfl) | hn
    · simp [isHitRect, Node.attr?, Node.attrs, List.find?]
    · simp [isHitRect, Node.attr?, Node.attrs, List.find?]
    · exact ih _ hn

theorem hitRect_of_mem_drawing {kObj : KObj} {n : Node} (hn : n ∈ drawing kObj)
    (hr : isHitRect n = true) :
    ∃ contig ∈ kObj.karyotype_data.singleton_contigs, ∃ cl ∈ activeClusters kObj contig,
      ∃ x, n = hcBlock kObj x contig cl := by
  simp only [drawing, List.mem_append, List.mem_singleton] at hn
  rcases hn with (hn | hn) | rfl
  · obtain ⟨contig, hc, x, hx⟩ := mem_drawContigs _ _ hn
    simp only [drawContig, List.mem_append, List.mem_cons, List.mem_singleton,
      List.not_mem_nil, or_false, drawHitClusters, List.mem_map] at hx
    rcases hx with ((rfl | rfl | rfl | rfl) | ⟨cl, hcl, rfl⟩) | hx
    · simp [isHitRect, sideLine, Node.attr?, Node.attrs, List.find?] at hr
    · simp [isHitRect, sideLine, Node.attr?, Node.attrs, List.find?] at hr
    · simp [isHitRect, topCap, Node.attr?, Node.attrs, List.find?] at hr
    · simp [isHitRect, botCap, Node.attr?, Node.attrs, List.find?] at hr
    · exact ⟨contig, hc, cl, hcl, x, rfl⟩
    · exfalso
      unfold drawGiesmaBands at hx
      split_ifs at hx
      · split at hx
        · obtain ⟨b, -, rfl⟩ := List.mem_map.1 hx
          simp [isHitRect, giBand, Node.attr?, Node.attrs, List.find?] at hr
        · simp at hx
      · simp at hx
  · exfalso
    split_ifs at hn
    · simp only [drawLegend, List.mem_append, List.mem_cons, List.mem_singleton,
        List.not_mem_nil, or_false] at hn
      rcases hn with (rfl | rfl | rfl) | hn
      · simp [isHitRect, Node.attr?, Node.attrs, List.find?] at hr
      · simp [isHitRect, Node.attr?, Node.attrs, List.find?] at hr
      · simp [isHitRect, Node.attr?, Node.attrs, List.find?] at hr
      · rw [isHitRect_drawColorBoxes _ _ _ hn] at hr; cases hr
    · simp at hn
  · simp [isHitRect, tooltipGroup, Node.attr?, Node.attrs, List.find?] at hr

theorem hcBlock_mem_drawing (kObj : KObj) {contig : Contig} {cl : Cluster}
    (hc : contig ∈ kObj.karyotype_data.singleton_contigs)
    (hcl : cl ∈ activeClusters kObj contig) :
    ∃ x, hcBlock kObj x contig cl ∈ drawing kObj ∧ sideLine kObj contig x ∈ drawing kObj := by
  obtain ⟨x, hx⟩ := drawContig_subset_drawContigs kObj
    kObj.karyotype_data.singleton_contigs 0 hc
  refine ⟨x, ?_, ?_⟩
  · simp only [drawing, List.mem_append]
    refine Or.inl (Or.inl (hx _ ?_))
    simp only [drawContig, drawHitClusters, List.mem_append, List.mem_map]
    exact Or.inl (Or.inr ⟨cl, hcl, rfl⟩)
  · simp only [drawing, List.mem_append]
    refine Or.inl (Or.inl (hx _ ?_))
    simp [drawContig]

/-! ## A dataset of maximum magnitude 0 -/

theorem maxThird_eq_zero {l : List Cluster} (h : ∀ cl ∈ l, cl.hitCount = 0) :
    maxThird l = 0 := by
  rcases maxThird_attained l with ⟨cl, hcl, he⟩ | ⟨-, hz⟩
  · rw [← he]; exact h cl hcl
  · exact hz

theorem calls_snoc (kObj : KObj) (types : List String) (m : String) :
    calls kObj (types ++ [m]) = switchVisualization (calls kObj types) m := by
  simp [calls, List.foldl_append]

theorem selectMode_fst_eq_zero {kObj : KObj} (type : String)
    (h₁ : kObj.maxHitClusterSize = 0) (h₂ : kObj.maxNrphHitClusterSize = 0) :
    (selectMode kObj type).1 = 0 := by
  unfold selectMode
  split_ifs <;> simp [h₁, h₂]

theorem legendRangeSize_eq_zero {data : KaryotypeData} {k0 : KObj}
    (h : Karyotype data = some k0)
    (h₁ : maxThird (allHitClusters data) = 0) (h₂ : maxThird (allNrphHitClusters data) = 0)
    (types : List String) : (calls k0 types).legendRangeSize = some 0 := by
  obtain ⟨first, -, hb⟩ := built_of_Karyotype h
  induction types using List.reverseRecOn with
  | nil =>
    have := (legend_of_built_or_redrawn [] "all" h (Or.inl ⟨rfl, rfl⟩)).2.1
    rw [h₁] at this
    exact this
  | append_singleton types m ih =>
    rw [calls_snoc]
    by_cases h_ne : some m = (calls k0 types).currentVisualType
    · rw [switchVisualization_of_eq h_ne]; exact ih
    · have hk := built_calls hb types
      have := (legend_of_built_or_redrawn types m h (Or.inr ⟨rfl, h_ne, rfl⟩)).2.1
      rw [selectMode_fst_eq_zero m (hk.maxHit_eq.trans h₁) (hk.maxNrph_eq.trans h₂)] at this
      exact this

theorem clusterColor_of_zero {kObj : KObj} {cl : Cluster}
    (hw : kObj.legendRangeSize = some 0) (hc : cl.hitCount = 0) :
    colorIdx kObj cl = .nan ∧ clusterColor kObj cl = .str "white" := by
  have hidx : colorIdx kObj cl = .nan := by
    simp [colorIdx, hw, hc, JsNum.ofNat, JsNum.quotient, Math.ceil]
  refine ⟨hidx, ?_⟩
  simp [clusterColor, hidx, JsInt.ltNat]

/-- Claim C8.  For a dataset in which every interval has count 0, the two
maxima are 0, and in every state of the object the legend range size is
`Math.ceil(0 / 8) = 0` (a division, no error).  For every interval of the
active cluster list `colorIdx` is `NaN`, the fill is the fallback "white", and
the rectangle of the interval is among the children of the svg; every hit
cluster rectangle of the svg has the fill "white".  The zero-label bucket,
legend entry 0, has the colour "#fff", and "white" and "#fff" are the same
colour, red, green and blue all 255. -/
theorem zero_magnitude (data : KaryotypeData) (k0 : KObj) (types : List String)
    (h : Karyotype data = some k0)
    (hzero : ∀ contig ∈ data.singleton_contigs,
      (∀ cl ∈ contig.hit_clusters, cl.hitCount = 0) ∧
      (∀ cl ∈ contig.nrph_hit_clusters, cl.hitCount = 0)) :
    k0.maxHitClusterSize = 0 ∧ k0.maxNrphHitClusterSize = 0 ∧
    (calls k0 types).legendRangeSize = some (Math.ceilDiv 0 8) ∧ Math.ceilDiv 0 8 = 0 ∧
    (∃ svg, (calls k0 types).svg = some svg ∧
      (∀ contig ∈ data.singleton_contigs, ∀ cl ∈ activeClusters (calls k0 types) contig,
        colorIdx (calls k0 types) cl = .nan ∧
        clusterColor (calls k0 types) cl = .str "white" ∧
        ∃ x, hcBlock (calls k0 types) x contig cl ∈ svg.children) ∧
      (∀ n ∈ svg.children, isHitRect n = true →
        n.attr? "fill" = some (.str "white") ∧
        (n.attr? "fill").bind fillColor =
          (calls k0 types).legendColors[0]?.bind (fun entry => cssColor entry.color))) ∧
    (calls k0 types).legendColors[0]? = some ⟨"#fff", .str "0"⟩ ∧
    cssColor "#fff" = some (255, 255, 255) ∧ cssColor "white" = some (255, 255, 255) := by
  obtain ⟨first, -, hb⟩ := built_of_Karyotype h
  have h₁ : maxThird (allHitClusters data) = 0 := by
    apply maxThird_eq_zero
    intro cl hcl
    obtain ⟨contig, hc, hcl'⟩ := List.mem_flatMap.1 hcl
    exact (hzero contig hc).1 cl hcl'
  have h₂ : maxThird (allNrphHitClusters data) = 0 := by
    apply maxThird_eq_zero
    intro cl hcl
    obtain ⟨contig, hc, hcl'⟩ := List.mem_flatMap.1 hcl
    exact (hzero contig hc).2 cl hcl'
  have hw := legendRangeSize_eq_zero h h₁ h₂ types
  have hk := built_calls hb types
  generalize calls k0 types = k at hk hw ⊢
  have hactive : ∀ contig ∈ data.singleton_contigs, ∀ cl ∈ activeClusters k contig,
      cl.hitCount = 0 := by
    intro contig hc cl hcl
    unfold activeClusters at hcl
    split_ifs at hcl
    · exact (hzero contig hc).2 cl hcl
    · exact (hzero contig hc).1 cl hcl
  have hentry : k.legendColors[0]? = some ⟨"#fff", .str "0"⟩ := by
    obtain ⟨e0, e1, e2, e3, e4, e5, e6, e7, e8, he⟩ :=
      eq_nine_of_length (length_legendColors_of_colors hk.colors_eq)
    have hc := hk.colors_eq
    have hd := hk.desc_zero
    rw [he] at hc hd ⊢
    simp only [initialLegendColors, List.map_cons, List.cons.injEq] at hc
    simp only [List.head?_cons, Option.map_some', Option.some.injEq] at hd
    obtain ⟨color, desc⟩ := e0
    simp only at hc hd
    simp [hc.1, hd]
  have hfff : cssColor "#fff" = some (255, 255, 255) := by decide
  have hwhite : cssColor "white" = some (255, 255, 255) := by decide
  obtain ⟨svg, hsvg, hchildren, -⟩ := hk.svg_drawn
  refine ⟨hb.maxHit_eq.trans h₁, hb.maxNrph_eq.trans h₂, hw, by decide,
    ⟨svg, hsvg, ?_, ?_⟩, hentry, hfff, hwhite⟩
  · intro contig hc cl hcl
    obtain ⟨hidx, hcol⟩ := clusterColor_of_zero hw (hactive contig hc cl hcl)
    obtain ⟨x, hx, -⟩ := hcBlock_mem_drawing k (by rw [hk.data_eq]; exact hc) hcl
    exact ⟨hidx, hcol, x, by rw [hchildren]; exact hx⟩
  · intro n hn hr
    rw [hchildren] at hn
    obtain ⟨contig, hc, cl, hcl, x, rfl⟩ := hitRect_of_mem_drawing hn hr
    rw [hk.data_eq] at hc
    have hfill : (hcBlock k x contig cl).attr? "fill" = some (.str "white") := by
      rw [fill_hcBlock, (clusterColor_of_zero hw (hactive contig hc cl hcl)).2]
    refine ⟨hfill, ?_⟩
    rw [hfill, hentry]
    show cssColor "white" = cssColor "#fff"
    rw [hfff, hwhite]

/-- A concrete instance of `zero_magnitude`: the dataset `zeroData`, whose three
intervals all have count 0. -/
theorem zero_magnitude_witness :
    (calls (construct zeroData zeroContig) ["nrph"]).legendRangeSize =
      some (Math.ceilDiv 0 8) :=
  (zero_magnitude zeroData (construct zeroData zeroContig) ["nrph"] rfl (by decide)).2.2.1

/-! ## The pixel scale -/

theorem pixelsPerBP_of_pos {data : KaryotypeData} {first : Contig} {kObj : KObj}
    (hk : Built data first kObj) (hpos : 0 < first.size) :
    kObj.pixelsPerBP = roundDouble (280 / first.size) := by
  rw [hk.pixelsPerBP_eq]
  have hne : (first.size : ℚ) ≠ 0 := by exact_mod_cast hpos.ne'
  simp only [JsNum.div, JsNum.ofNat, svgHeight, contigCapPixelSize, hne, if_false]
  norm_num

theorem pixelOffset_eq {kObj : KObj} {p : ℚ} (hp : kObj.pixelsPerBP = .fin p) (pos : ℕ) :
    pixelOffset kObj pos = Math.floor (roundDouble ((pos : ℚ) * p)) := by
  simp [pixelOffset, hp, JsNum.mul, JsNum.ofNat]

theorem contigPixelHeight_eq {kObj : KObj} {p : ℚ} (hp : kObj.pixelsPerBP = .fin p)
    (contig : Contig) :
    contigPixelHeight kObj contig = Math.floor (roundDouble ((contig.size : ℚ) * p)) := by
  simp [contigPixelHeight, hp, JsNum.mul, JsNum.ofNat]

theorem cylinderY1_eq {kObj : KObj} {p : ℚ} (hp : kObj.pixelsPerBP = .fin p)
    (contig : Contig) :
    cylinderY1 kObj contig =
      JsInt.sub (.int 290) (Math.floor (roundDouble ((contig.size : ℚ) * p))) := by
  simp [cylinderY1, contigPixelHeight_eq hp, JsInt.ofNat, svgHeight, contigCapPixelSize]

theorem drawContig_mem_drawing (kObj : KObj) {contig : Contig}
    (hc : contig ∈ kObj.karyotype_data.singleton_contigs) :
    ∃ x, ∀ n ∈ drawContig kObj x contig, n ∈ drawing kObj := by
  obtain ⟨x, hx⟩ := drawContig_subset_drawContigs kObj
    kObj.karyotype_data.singleton_contigs 0 hc
  exact ⟨x, fun n hn => by
    simp only [drawing, List.mem_append]; exact Or.inl (Or.inl (hx n hn))⟩

/-- The scale `280 / L` as a double, for a reference size below `2^43`: it is
finite and within the relative error `2^-53` of the exact quotient. -/
theorem scale_rel {L : ℕ} (hL : 0 < L) (hL2 : L < 2 ^ 43) :
    ∃ p : ℚ, roundDouble (280 / L) = .fin p ∧ |p - 280 / L| ≤ 280 / L / 2 ^ 53 := by
  have hLq : (0 : ℚ) < L := by exact_mod_cast hL
  have hL2q : (L : ℚ) < 2 ^ 43 := by exact_mod_cast hL2
  apply roundDouble_rel
  · rw [le_div_iff₀ hLq]
    calc (2 : ℚ) ^ (-1022 : ℤ) * L ≤ 2 ^ (-1022 : ℤ) * 2 ^ 43 := by
          apply mul_le_mul_of_nonneg_left hL2q.le (by positivity)
      _ ≤ 280 := by norm_num
  · rw [div_le_iff₀ hLq]
    have h1 : (1 : ℚ) ≤ L := by exact_mod_cast hL
    calc (280 : ℚ) ≤ 2 ^ (1023 : ℤ) * 1 := by norm_num
      _ ≤ 2 ^ (1023 : ℤ) * L := by
          apply mul_le_mul_of_nonneg_left h1 (by positivity)

/-- The floor of `pos * pixelsPerBP` in double arithmetic against the exact
integer quotient `pos * 280 / L`, for a position up to the reference size `L`
below `2^43`: the two agree unless `L` divides `pos * 280`, and then the
double result is the quotient or one less. -/
theorem floor_scale {L pos : ℕ} {p : ℚ} (hL : 0 < L) (hL2 : L < 2 ^ 43) (hpos : pos ≤ L)
    (hp : |p - 280 / L| ≤ 280 / L / 2 ^ 53) :
    ∃ h : ℤ, Math.floor (roundDouble ((pos : ℚ) * p)) = .int h ∧ 0 ≤ h ∧
      (h = ((pos * 280 / L : ℕ) : ℤ) ∨
        (L ∣ pos * 280 ∧ h + 1 = ((pos * 280 / L : ℕ) : ℤ))) := by
  rcases Nat.eq_zero_or_pos pos with rfl | hpos0
  · exact ⟨0, by simp [roundDouble_zero, Math.floor], le_refl _, Or.inl (by simp)⟩
  have hLq : (0 : ℚ) < L := by exact_mod_cast hL
  have hL2q : (L : ℚ) < 2 ^ 43 := by exact_mod_cast hL2
  have hposq : (1 : ℚ) ≤ pos := by exact_mod_cast hpos0
  have hposL : (pos : ℚ) ≤ L := by exact_mod_cast hpos
  -- the reciprocal of the reference size
  obtain ⟨t, ht⟩ : ∃ t : ℚ, t = 1 / L := ⟨_, rfl⟩
  have htL : (L : ℚ) * t = 1 := by rw [ht]; field_simp
  have ht0 : 0 < t := by rw [ht]; positivity
  have htlo : 1 / 2 ^ 43 < t := by
    rw [ht]; exact one_div_lt_one_div_of_lt hLq hL2q
  have hq : (280 : ℚ) / L = 280 * t := by rw [ht]; ring
  rw [hq] at hp
  obtain ⟨hp1, hp2⟩ := abs_le.1 hp
  -- the exact product
  obtain ⟨x, hx⟩ : ∃ x : ℚ, x = pos * (280 * t) := ⟨_, rfl⟩
  have hxhi : x ≤ 280 := by
    have : (pos : ℚ) * t ≤ L * t := mul_le_mul_of_nonneg_right hposL ht0.le
    rw [hx]; nlinarith
  have hxlo : 280 / 2 ^ 43 < x := by
    have : 1 * t ≤ (pos : ℚ) * t := mul_le_mul_of_nonneg_right hposq ht0.le
    rw [hx]; linarith
  have hpp1 : x - x / 2 ^ 53 ≤ pos * p := by
    have := mul_le_mul_of_nonneg_left hp1 (le_trans zero_le_one hposq)
    rw [hx]; linarith
  have hpp2 : (pos : ℚ) * p ≤ x + x / 2 ^ 53 := by
    have := mul_le_mul_of_nonneg_left hp2 (le_trans zero_le_one hposq)
    rw [hx]; linarith
  have hlo : (2 : ℚ) ^ (-1022 : ℤ) ≤ pos * p := by
    have h1 : (2 : ℚ) ^ (-1022 : ℤ) ≤ 280 / 2 ^ 43 / 2 := by norm_num
    exact le_trans h1 (by linarith)
  have hhi : (pos : ℚ) * p ≤ 2 ^ (1023 : ℤ) := by
    have h1 : (560 : ℚ) ≤ 2 ^ (1023 : ℤ) := by norm_num
    exact le_trans (by linarith) h1
  obtain ⟨r, hr, hrel⟩ := roundDouble_rel hlo hhi
  obtain ⟨hr1, hr2⟩ := abs_le.1 hrel
  have hrx1 : x - 1 / 2 ^ 43 < r := by linarith
  have hrx2 : r < x + 1 / 2 ^ 43 := by linarith
  have hr0 : 0 < r := by linarith
  -- the integer quotient and remainder
  have hdm : L * (pos * 280 / L) + pos * 280 % L = pos * 280 := Nat.div_add_mod _ _
  have hm : pos * 280 % L < L := Nat.mod_lt _ hL
  obtain ⟨n, hn⟩ : ∃ n : ℕ, n = pos * 280 / L := ⟨_, rfl⟩
  obtain ⟨m, hmdef⟩ : ∃ m : ℕ, m = pos * 280 % L := ⟨_, rfl⟩
  rw [← hn, ← hmdef] at hdm
  rw [← hmdef] at hm
  have hxnm : x = n + m * t := by
    have h1 : ((L * n + m : ℕ) : ℚ) = ((pos * 280 : ℕ) : ℚ) := by rw [hdm]
    push_cast at h1
    have h2 : (L : ℚ) * n * t = n := by rw [mul_right_comm, htL, one_mul]
    rw [hx]
    have h3 : (pos : ℚ) * (280 * t) = ((L : ℚ) * n + m) * t := by rw [h1]; ring
    rw [h3, add_mul, h2]
  refine ⟨⌊r⌋, by rw [hr]; rfl, Int.floor_nonneg.2 hr0.le, ?_⟩
  rw [← hn]
  rcases Nat.eq_zero_or_pos m with hm0 | hm0
  · have hdvd : L ∣ pos * 280 := by
      rw [← hdm, hm0, Nat.add_zero]; exact Dvd.intro _ rfl
    rw [hm0] at hxnm
    simp only [Nat.cast_zero, zero_mul, add_zero] at hxnm
    have hfl : ⌊r⌋ = (n : ℤ) ∨ ⌊r⌋ = (n : ℤ) - 1 := by
      rcases le_or_lt (n : ℚ) r with hle | hlt
      · left
        rw [Int.floor_eq_iff]
        constructor
        · exact_mod_cast hle
        · push_cast; linarith
      · right
        rw [Int.floor_eq_iff]
        constructor
        · push_cast; linarith
        · push_cast; linarith
    rcases hfl with h | h
    · exact Or.inl h
    · exact Or.inr ⟨hdvd, by omega⟩
  · left
    have hmq : (1 : ℚ) ≤ m := by exact_mod_cast hm0
    have hmL : (m : ℚ) + 1 ≤ L := by exact_mod_cast hm
    have h1 : 1 * t ≤ (m : ℚ) * t := mul_le_mul_of_nonneg_right hmq ht0.le
    have h2 : ((m : ℚ) + 1) * t ≤ L * t := mul_le_mul_of_nonneg_right hmL ht0.le
    rw [Int.floor_eq_iff]
    constructor
    · push_cast; linarith
    · push_cast; linarith

/-! ## Evaluation of the pixel scale on the examples -/

theorem floor_roundDouble (q : ℚ) (e n h : ℤ) (hq : 0 < q) (h1 : (2 : ℚ) ^ e ≤ q)
    (h2 : q < (2 : ℚ) ^ (e + 1)) (hmin : -1022 ≤ e) (hmax : e ≤ 1022)
    (hn1 : (n : ℚ) - 1 / 2 < q * 2 ^ (52 - e)) (hn2 : q * 2 ^ (52 - e) < (n : ℚ) + 1 / 2)
    (hf1 : (h : ℚ) ≤ (n : ℚ) * 2 ^ (e - 52)) (hf2 : (n : ℚ) * 2 ^ (e - 52) < h + 1) :
    Math.floor (roundDouble q) = .int h := by
  rw [roundDouble_eq_of_pos q e n hq h1 h2 hmin hmax hn1 hn2]
  show JsInt.int ⌊_⌋ = .int h
  rw [Int.floor_eq_iff.2 ⟨hf1, hf2⟩]

theorem contigPixelHeight_eq_pixelOffset (kObj : KObj) (contig : Contig) :
    contigPixelHeight kObj contig = pixelOffset kObj contig.size :=
  rfl

/-- The double nearest to `280 / 1000`. -/
theorem scale_1000 : roundDouble (280 / ((1000 : ℕ) : ℚ)) = .fin (5044031582654956 / 2 ^ 54) := by
  have := roundDouble_eq_of_pos (280 / 1000) (-2) 5044031582654956
    (by norm_num) (by norm_num) (by norm_num) (by norm_num) (by norm_num) (by norm_num)
    (by norm_num)
  rw [show ((280 : ℚ) / ((1000 : ℕ) : ℚ)) = 280 / 1000 by norm_num, this]
  congr 1
  norm_num

/-- The double nearest to `280 / 275`. -/
theorem scale_275 : roundDouble (280 / ((275 : ℕ) : ℚ)) = .fin (4585483256959050 / 2 ^ 52) := by
  have := roundDouble_eq_of_pos (280 / 275) 0 4585483256959050
    (by norm_num) (by norm_num) (by norm_num) (by norm_num) (by norm_num) (by norm_num)
    (by norm_num)
  rw [show ((280 : ℚ) / ((275 : ℕ) : ℚ)) = 280 / 275 by norm_num, this]
  congr 1
  norm_num

/-- The pixel offsets of the example positions when the reference contig has
size 1000. -/
theorem pixelOffset_1000 {data : KaryotypeData} {first : Contig} {kObj : KObj}
    (hk : Built data first kObj) (hsize : first.size = 1000) :
    pixelOffset kObj 1000 = .int 280 ∧ pixelOffset kObj 100 = .int 28 ∧
    pixelOffset kObj 200 = .int 56 ∧ pixelOffset kObj 1 = .int 0 ∧
    pixelOffset kObj 500 = .int 140 ∧ pixelOffset kObj 501 = .int 140 := by
  have hp : kObj.pixelsPerBP = .fin (5044031582654956 / 2 ^ 54) := by
    rw [pixelsPerBP_of_pos hk (by omega), hsize, scale_1000]
  refine ⟨?_, ?_, ?_, ?_, ?_, ?_⟩
  · rw [pixelOffset_eq hp]
    exact floor_roundDouble _ 8 4925812092436480 280 (by norm_num) (by norm_num) (by norm_num)
      (by norm_num) (by norm_num) (by norm_num) (by norm_num) (by norm_num) (by norm_num)
  · rw [pixelOffset_eq hp]
    exact floor_roundDouble _ 4 7881299347898369 28 (by norm_num) (by norm_num) (by norm_num)
      (by norm_num) (by norm_num) (by norm_num) (by norm_num) (by norm_num) (by norm_num)
  · rw [pixelOffset_eq hp]
    exact floor_roundDouble _ 5 7881299347898369 56 (by norm_num) (by norm_num) (by norm_num)
      (by norm_num) (by norm_num) (by norm_num) (by norm_num) (by norm_num) (by norm_num)
  · rw [pixelOffset_eq hp]
    exact floor_roundDouble _ (-2) 5044031582654956 0 (by norm_num) (by norm_num) (by norm_num)
      (by norm_num) (by norm_num) (by norm_num) (by norm_num) (by norm_num) (by norm_num)
  · rw [pixelOffset_eq hp]
    exact floor_roundDouble _ 7 4925812092436480 140 (by norm_num) (by norm_num) (by norm_num)
      (by norm_num) (by norm_num) (by norm_num) (by norm_num) (by norm_num) (by norm_num)
  · rw [pixelOffset_eq hp]
    exact floor_roundDouble _ 7 4935663716621353 140 (by norm_num) (by norm_num) (by norm_num)
      (by norm_num) (by norm_num) (by norm_num) (by norm_num) (by norm_num) (by norm_num)

/-- The pixel offsets of the positions 275, 55 and 220 when the reference
contig has size 275. -/
theorem pixelOffset_275 {data : KaryotypeData} {first : Contig} {kObj : KObj}
    (hk : Built data first kObj) (hsize : first.size = 275) :
    pixelOffset kObj 275 = .int 279 ∧ pixelOffset kObj 55 = .int 55 ∧
    pixelOffset kObj 220 = .int 223 := by
  have hp : kObj.pixelsPerBP = .fin (4585483256959050 / 2 ^ 52) := by
    rw [pixelsPerBP_of_pos hk (by omega), hsize, scale_275]
  refine ⟨?_, ?_, ?_⟩
  · rw [pixelOffset_eq hp]
    exact floor_roundDouble _ 8 4925812092436479 279 (by norm_num) (by norm_num) (by norm_num)
      (by norm_num) (by norm_num) (by norm_num) (by norm_num) (by norm_num) (by norm_num)
  · rw [pixelOffset_eq hp]
    exact floor_roundDouble _ 5 7881299347898367 55 (by norm_num) (by norm_num) (by norm_num)
      (by norm_num) (by norm_num) (by norm_num) (by norm_num) (by norm_num) (by norm_num)
  · rw [pixelOffset_eq hp]
    exact floor_roundDouble _ 7 7881299347898367 223 (by norm_num) (by norm_num) (by norm_num)
      (by norm_num) (by norm_num) (by norm_num) (by norm_num) (by norm_num) (by norm_num)

/-! ## The geometry of the glyphs -/

/-- Claim C9, as the code computes it.  Let the first contig have a positive
size below `2^43`.  In every state of the object `pixelsPerBP` is the double
nearest to `(300 - 2*10) / contigs[0].size`, a finite number `p` within the
relative error `2^-53` of the exact quotient.  For every contig the svg
contains the two side lines of its glyph, from
`y1 = 290 - floor(size * p)` to `y2 = 290`, and for every interval of the
active cluster list a rectangle with `y = y1 + floor(start * p)` and
`height = floor(end * p) - floor(start * p)`, where each product is rounded to
a double before the floor is taken.  For a position `pos` up to the size of the
first contig this floor is the integer quotient `pos * 280 / contigs[0].size`,
except that it may be one less when `contigs[0].size` divides `pos * 280`; so
the glyph of the first contig is 279 or 280 pixels tall.  For the contig of
size 1000 with cluster [100,200,5] the glyph height is 280, the offsets of the
rectangle are 28 and 56 and its height is 28. -/
theorem glyph_geometry (data : KaryotypeData) (k0 : KObj) (types : List String)
    (first : Contig) (h : Karyotype data = some k0)
    (hfirst : data.singleton_contigs.head? = some first) (hpos : 0 < first.size)
    (hsize : first.size < 2 ^ 43) :
    ∃ p : ℚ, roundDouble (280 / first.size) = .fin p ∧
      |p - 280 / first.size| ≤ 280 / first.size / 2 ^ 53 ∧
      (calls k0 types).pixelsPerBP = .fin p ∧
      (∃ svg, (calls k0 types).svg = some svg ∧ svg.height = 300 ∧
        ∀ contig ∈ data.singleton_contigs, ∃ x,
          (sideLine (calls k0 types) contig x ∈ svg.children ∧
            sideLine (calls k0 types) contig (x + 18) ∈ svg.children ∧
            (sideLine (calls k0 types) contig x).attr? "y1" = some (.num
              (JsInt.sub (.int 290) (Math.floor (roundDouble ((contig.size : ℚ) * p))))) ∧
            (sideLine (calls k0 types) contig x).attr? "y2" = some (.num (.int 290))) ∧
          ∀ cl ∈ activeClusters (calls k0 types) contig,
            hcBlock (calls k0 types) x contig cl ∈ svg.children ∧
            (hcBlock (calls k0 types) x contig cl).attr? "y" = some (.num
              (JsInt.add
                (JsInt.sub (.int 290) (Math.floor (roundDouble ((contig.size : ℚ) * p))))
                (Math.floor (roundDouble ((cl.startPos : ℚ) * p))))) ∧
            (hcBlock (calls k0 types) x contig cl).attr? "height" = some (.num
              (JsInt.sub (Math.floor (roundDouble ((cl.endPos : ℚ) * p)))
                (Math.floor (roundDouble ((cl.startPos : ℚ) * p)))))) ∧
      (∀ pos : ℕ, pos ≤ first.size →
        ∃ px : ℤ, Math.floor (roundDouble ((pos : ℚ) * p)) = .int px ∧ 0 ≤ px ∧
          (px = ((pos * 280 / first.size : ℕ) : ℤ) ∨
            (first.size ∣ pos * 280 ∧ px + 1 = ((pos * 280 / first.size : ℕ) : ℤ)))) ∧
      (contigPixelHeight (calls k0 types) first = .int 279 ∨
        contigPixelHeight (calls k0 types) first = .int 280) ∧
      (contigPixelHeight (construct exampleData chr1) chr1 = .int 280 ∧
        pixelOffset (construct exampleData chr1) 100 = .int 28 ∧
        pixelOffset (construct exampleData chr1) 200 = .int 56 ∧
        (hcBlock (construct exampleData chr1) 0 chr1 ⟨100, 200, 5⟩).attr? "height" =
          some (.num (.int 28))) := by
  obtain ⟨first', hfirst', hb⟩ := built_of_Karyotype h
  rw [hfirst] at hfirst'
  cases hfirst'
  have hk := built_calls hb types
  generalize calls k0 types = k at hk ⊢
  obtain ⟨p, hpfin, hprel⟩ := scale_rel hpos hsize
  have hp : k.pixelsPerBP = .fin p := by rw [pixelsPerBP_of_pos hk hpos, hpfin]
  obtain ⟨svg, hsvg, hchildren, -, hheight, -, -⟩ := hk.svg_drawn
  have hfloor := fun (pos : ℕ) (hle : pos ≤ first.size) => floor_scale hpos hsize hle hprel
  refine ⟨p, hpfin, hprel, hp, ⟨svg, hsvg, hheight, ?_⟩, hfloor, ?_, ?_⟩
  · intro contig hc
    obtain ⟨x, hx⟩ := drawContig_mem_drawing k (by rw [hk.data_eq]; exact hc)
    refine ⟨x, ⟨?_, ?_, ?_, ?_⟩, ?_⟩
    · rw [hchildren]; exact hx _ (by simp [drawContig])
    · rw [hchildren]; exact hx _ (by simp [drawContig, contigPixelWidth])
    · simp [sideLine, Node.attr?, Node.attrs, List.find?, cylinderY1_eq hp]
    · simp [sideLine, Node.attr?, Node.attrs, List.find?, cylinderY2, svgHeight,
        contigCapPixelSize, JsVal.ofNat]
    · intro cl hcl
      refine ⟨?_, ?_, ?_⟩
      · rw [hchildren]
        apply hx
        simp only [drawContig, drawHitClusters, List.mem_append, List.mem_map]
        exact Or.inl (Or.inr ⟨cl, hcl, rfl⟩)
      · simp [hcBlock, Node.attr?, Node.attrs, List.find?, cylinderY1_eq hp,
          pixelOffset_eq hp]
      · simp [hcBlock, Node.attr?, Node.attrs, List.find?, pixelOffset_eq hp]
  · obtain ⟨px, hpx, -, hcase⟩ := hfloor first.size le_rfl
    rw [contigPixelHeight_eq hp, hpx]
    have hq : first.size * 280 / first.size = 280 := by
      rw [Nat.mul_comm, Nat.mul_div_cancel _ hpos]
    rw [hq] at hcase
    rcases hcase with h1 | ⟨-, h1⟩
    · right; rw [h1]; rfl
    · left
      have : px = 279 := by push_cast at h1; omega
      rw [this]
  · have hv := pixelOffset_1000 (built_construct exampleData chr1) rfl
    refine ⟨?_, hv.2.1, hv.2.2.1, ?_⟩
    · rw [contigPixelHeight_eq_pixelOffset]; exact hv.1
    · simp only [hcBlock, Node.attr?, Node.attrs, List.find?, hv.2.1, hv.2.2.1]
      rfl

/-- A concrete instance of `glyph_geometry`: the example data, whose first
contig has size 1000. -/
theorem glyph_geometry_witness :
    contigPixelHeight (calls (construct exampleData chr1) ["nrph"]) chr1 = .int 279 ∨
      contigPixelHeight (calls (construct exampleData chr1) ["nrph"]) chr1 = .int 280 :=
  (glyph_geometry exampleData (construct exampleData chr1) ["nrph"] chr1 rfl rfl
    (by decide) (by decide)).elim fun _ hp => hp.2.2.2.2.2.1

/-- Claim C9 against the code.  For the dataset with the single contig of size
275, `275 * (280 / 275)` is 280 in exact rationals, but the code computes both
the quotient and the product in doubles and gets a number just below 280: the
glyph of the reference contig is 279 pixels tall, its side lines run from
`y1 = 11` to `y2 = 290`.  Likewise the offset of position 55 is 55 where the
exact value is `floor(55 * 280 / 275) = 56`, and the rectangle of the interval
[55, 220, 5] is placed 55 pixels below the top of the glyph. -/
theorem glyph_height_below_280 :
    Karyotype smallData = some (construct smallData smallContig) ∧
    smallData.singleton_contigs.head? = some smallContig ∧
    0 < smallContig.size ∧
    ⌊(smallContig.size : ℚ) * (((300 : ℚ) - 2 * 10) / smallContig.size)⌋ = 280 ∧
    contigPixelHeight (construct smallData smallContig) smallContig = .int 279 ∧
    ⌊((55 : ℕ) : ℚ) * (((300 : ℚ) - 2 * 10) / smallContig.size)⌋ = 56 ∧
    pixelOffset (construct smallData smallContig) 55 = .int 55 ∧
    (∃ svg x, (construct smallData smallContig).svg = some svg ∧
      sideLine (construct smallData smallContig) smallContig x ∈ svg.children ∧
      (sideLine (construct smallData smallContig) smallContig x).attr? "y1" =
        some (.num (.int 11)) ∧
      (sideLine (construct smallData smallContig) smallContig x).attr? "y2" =
        some (.num (.int 290)) ∧
      hcBlock (construct smallData smallContig) x smallContig ⟨55, 220, 5⟩ ∈ svg.children ∧
      (hcBlock (construct smallData smallContig) x smallContig ⟨55, 220, 5⟩).attr? "y" =
        some (.num (.int 66))) := by
  have hb : Built smallData smallContig (construct smallData smallContig) :=
    built_construct _ _
  have hcur : (construct smallData smallContig).currentVisualType = some "all" := by decide
  refine ⟨rfl, rfl, by decide, ?_⟩
  generalize construct smallData smallContig = k at hb hcur ⊢
  have hv := pixelOffset_275 hb rfl
  have hh : contigPixelHeight k smallContig = .int 279 := by
    rw [contigPixelHeight_eq_pixelOffset]; exact hv.1
  obtain ⟨svg, hsvg, hchildren, -⟩ := hb.svg_drawn
  obtain ⟨x, hx⟩ := drawContig_mem_drawing k
    (show smallContig ∈ k.karyotype_data.singleton_contigs by
      rw [hb.data_eq]; exact List.mem_singleton.2 rfl)
  refine ⟨?_, hh, ?_, hv.2.1, svg, x, hsvg, ?_, ?_, ?_, ?_, ?_⟩
  · rw [Int.floor_eq_iff]; norm_num [smallContig]
  · rw [Int.floor_eq_iff]; norm_num [smallContig]
  · rw [hchildren]; exact hx _ (by simp [drawContig])
  · simp only [sideLine, Node.attr?, Node.attrs, List.find?, cylinderY1, hh]
    rfl
  · simp [sideLine, Node.attr?, Node.attrs, List.find?, cylinderY2, svgHeight,
      contigCapPixelSize, JsVal.ofNat]
  · rw [hchildren]
    apply hx
    simp only [drawContig, drawHitClusters, List.mem_append, List.mem_map]
    refine Or.inl (Or.inr ⟨⟨55, 220, 5⟩, ?_, rfl⟩)
    simp [activeClusters, hcur, smallContig]
  · simp only [hcBlock, Node.attr?, Node.attrs, List.find?, cylinderY1, hh, hv.2.1]
    rfl

/-! ## The tooltip glyph path -/

theorem not_isAlpha_digitChar (n : ℕ) (h : n < 10) : (Nat.digitChar n).isAlpha = false := by
  interval_cases n <;> decide

theorem not_isAlpha_toDigitsCore (fuel : ℕ) :
    ∀ (n : ℕ) (ds : List Char), (∀ c ∈ ds, c.isAlpha = false) →
      ∀ c ∈ Nat.toDigitsCore 10 fuel n ds, c.isAlpha = false := by
  induction fuel with
  | zero => intro n ds hds c hc; simpa [Nat.toDigitsCore] using hds c (by simpa [Nat.toDigitsCore] using hc)
  | succ fuel ih =>
    intro n ds hds c hc
    have hcons : ∀ c ∈ Nat.digitChar (n % 10) :: ds, c.isAlpha = false := by
      intro c hc
      rcases List.mem_cons.1 hc with rfl | hc
      · exact not_isAlpha_digitChar _ (Nat.mod_lt _ (by decide))
      · exact hds c hc
    simp only [Nat.toDigitsCore] at hc
    split_ifs at hc
    · exact hcons c hc
    · exact ih _ _ hcons c hc

theorem filter_isAlpha_natRepr (n : ℕ) : (Nat.repr n).toList.filter Char.isAlpha = [] := by
  rw [List.filter_eq_nil_iff]
  intro c hc
  have : c.isAlpha = false :=
    not_isAlpha_toDigitsCore (n + 1) n [] (by simp) c (by simpa [Nat.repr, Nat.toDigits] using hc)
  simp [this]

theorem pathCommands_toString (i : ℤ) : pathCommands (toString i) = [] := by
  unfold pathCommands
  cases i with
  | ofNat n => exact filter_isAlpha_natRepr n
  | negSucc n =>
    show (("-" ++ Nat.repr (n + 1)).toList.filter Char.isAlpha) = []
    rw [String.toList, String.data_append, List.filter_append]
    have := filter_isAlpha_natRepr (n + 1)
    rw [String.toList] at this
    rw [this]
    decide

theorem pathCommands_append (a b : String) :
    pathCommands (a ++ b) = pathCommands a ++ pathCommands b := by
  simp [pathCommands, String.toList, String.data_append]

theorem JsNum.add_natCast (a b : ℕ) (h : a + b < 2 ^ 53) :
    JsNum.add (.fin a) (.fin b) = .fin ((a + b : ℕ) : ℚ) := by
  show roundDouble ((a : ℚ) + b) = _
  rw [← Nat.cast_add, roundDouble_natCast _ h]

theorem JsNum.sub_natCast (a b : ℕ) (hb : b ≤ a) (h : a < 2 ^ 53) :
    JsNum.sub (.fin a) (.fin b) = .fin ((a - b : ℕ) : ℚ) := by
  show roundDouble ((a : ℚ) - b) = _
  rw [← Nat.cast_sub hb, roundDouble_natCast _ (by omega)]

/-- Claim C10.  For all numbers FH, H, W, R, C, S, off and for every conversion
of numbers to strings, the string returned by `getTooltipGlyphPath` is the
text of the thirteen path commands M V L Q V Q H Q V Q H L z, in this order,
with the arguments listed below: the first command moves to the point
`(R+off, FH)`, the last but one is the line to the same point `(R+off, FH)`,
and the last is the closing `z`.  The string begins with the text of the move,
ends with the text of that line and ` z`, and the ten commands V L Q V Q H Q V
Q H stand in between.  When none of the printed numbers contains a letter,
the letters of the string are exactly the thirteen command letters.  For
FH=30, H=25, W=40, R=5, C=5, S=5, off=5, with the integers up to 40 printed as
decimal numerals, the path starts at 10,30 and closes back to 10,30. -/
theorem getTooltipGlyphPath_shape (numberToString : JsNum → String)
    (FH H W R C S off : JsNum) :
    ∃ cmds middle : List PathCmd,
      cmds = [.moveTo (R.add off) FH, .vertical H, .lineTo R H,
        .quadratic (R.sub C) (H.sub (R.sub C)) (.fin 0) (H.sub R), .vertical R,
        .quadratic (R.sub C) (R.sub C) R (.fin 0), .horizontal (W.sub R),
        .quadratic (W.sub (R.sub C)) (.fin 0) W R, .vertical (H.sub R),
        .quadratic (W.sub (R.sub C)) (H.sub (R.sub C)) (W.sub R) H,
        .horizontal ((R.add off).add S), .lineTo (R.add off) FH, .close] ∧
      getTooltipGlyphPath numberToString FH H W R C S off = renderPath numberToString cmds ∧
      cmds.map PathCmd.letter =
        ['M', 'V', 'L', 'Q', 'V', 'Q', 'H', 'Q', 'V', 'Q', 'H', 'L', 'z'] ∧
      cmds = [.moveTo (R.add off) FH] ++ middle ++ [.lineTo (R.add off) FH, .close] ∧
      middle.map PathCmd.letter = ['V', 'L', 'Q', 'V', 'Q', 'H', 'Q', 'V', 'Q', 'H'] ∧
      getTooltipGlyphPath numberToString FH H W R C S off =
        "M " ++ numberToString (R.add off) ++ "," ++ numberToString FH ++ " " ++
          renderPath numberToString middle ++ " " ++
          "L " ++ numberToString (R.add off) ++ "," ++ numberToString FH ++ " z" ∧
      ((∀ v ∈ [FH, H, W, R, R.add off, R.sub C, H.sub (R.sub C), .fin 0, H.sub R, W.sub R,
          W.sub (R.sub C), (R.add off).add S], pathCommands (numberToString v) = []) →
        pathCommands (getTooltipGlyphPath numberToString FH H W R C S off) =
          ['M', 'V', 'L', 'Q', 'V', 'Q', 'H', 'Q', 'V', 'Q', 'H', 'L', 'z']) ∧
      ((∀ n : ℕ, n ≤ 40 → numberToString (.fin n) = toString n) →
        getTooltipGlyphPath numberToString (.fin 30) (.fin 25) (.fin 40) (.fin 5) (.fin 5)
            (.fin 5) (.fin 5) =
          "M 10,30 V 25 L 5,25 Q 0,25,0,20 V 5 Q 0,0,5,0 H 35 Q 40,0,40,5 V 20 Q 40,25,35,25 H 15 L 10,30 z") := by
  refine ⟨_, [.vertical H, .lineTo R H,
        .quadratic (R.sub C) (H.sub (R.sub C)) (.fin 0) (H.sub R), .vertical R,
        .quadratic (R.sub C) (R.sub C) R (.fin 0), .horizontal (W.sub R),
        .quadratic (W.sub (R.sub C)) (.fin 0) W R, .vertical (H.sub R),
        .quadratic (W.sub (R.sub C)) (H.sub (R.sub C)) (W.sub R) H,
        .horizontal ((R.add off).add S)], rfl, ?_, rfl, rfl, rfl, ?_, ?_, ?_⟩
  · have hz : (" " : String) ++ "z" = " z" := by decide
    simp only [getTooltipGlyphPath, renderPath, PathCmd.render, String.append_assoc, hz]
  · simp only [getTooltipGlyphPath, renderPath, PathCmd.render, String.append_assoc]
  · intro hno
    have hM : pathCommands "M " = ['M'] := by decide
    have hV : pathCommands "V " = ['V'] := by decide
    have hL : pathCommands "L " = ['L'] := by decide
    have hQ : pathCommands "Q " = ['Q'] := by decide
    have hH : pathCommands "H " = ['H'] := by decide
    have hc : pathCommands "," = [] := by decide
    have hs : pathCommands " " = [] := by decide
    have hz : pathCommands " z" = ['z'] := by decide
    have h1 := hno FH (by simp)
    have h2 := hno H (by simp)
    have h3 := hno W (by simp)
    have h4 := hno R (by simp)
    have h5 := hno (R.add off) (by simp)
    have h6 := hno (R.sub C) (by simp)
    have h7 := hno (H.sub (R.sub C)) (by simp)
    have h8 := hno (.fin 0) (by simp)
    have h9 := hno (H.sub R) (by simp)
    have h10 := hno (W.sub R) (by simp)
    have h11 := hno (W.sub (R.sub C)) (by simp)
    have h12 := hno ((R.add off).add S) (by simp)
    simp only [getTooltipGlyphPath, pathCommands_append, hM, hV, hL, hQ, hH, hc, hs, hz,
      h1, h2, h3, h4, h5, h6, h7, h8, h9, h10, h11, h12,
      List.append_nil, List.nil_append, List.cons_append]
  · intro hnum
    have a10 : JsNum.add (.fin 5) (.fin 5) = .fin 10 := by
      have := JsNum.add_natCast 5 5 (by norm_num)
      norm_num at this
      exact this
    have a15 : JsNum.add (.fin 10) (.fin 5) = .fin 15 := by
      have := JsNum.add_natCast 10 5 (by norm_num)
      norm_num at this
      exact this
    have s0 : JsNum.sub (.fin 5) (.fin 5) = .fin 0 := by
      have := JsNum.sub_natCast 5 5 (by norm_num) (by norm_num)
      norm_num at this
      exact this
    have s25 : JsNum.sub (.fin 25) (.fin 0) = .fin 25 := by
      have := JsNum.sub_natCast 25 0 (by norm_num) (by norm_num)
      norm_num at this
      exact this
    have s20 : JsNum.sub (.fin 25) (.fin 5) = .fin 20 := by
      have := JsNum.sub_natCast 25 5 (by norm_num) (by norm_num)
      norm_num at this
      exact this
    have s35 : JsNum.sub (.fin 40) (.fin 5) = .fin 35 := by
      have := JsNum.sub_natCast 40 5 (by norm_num) (by norm_num)
      norm_num at this
      exact this
    have s40 : JsNum.sub (.fin 40) (.fin 0) = .fin 40 := by
      have := JsNum.sub_natCast 40 0 (by norm_num) (by norm_num)
      norm_num at this
      exact this
    have n0 : numberToString (.fin 0) = "0" := by
      have := hnum 0 (by norm_num)
      rw [Nat.cast_zero] at this
      rw [this]; rfl
    have n5 : numberToString (.fin 5) = "5" := by
      have := hnum 5 (by norm_num)
      rw [Nat.cast_ofNat] at this
      rw [this]; rfl
    have n10 : numberToString (.fin 10) = "10" := by
      have := hnum 10 (by norm_num)
      rw [Nat.cast_ofNat] at this
      rw [this]; rfl
    have n15 : numberToString (.fin 15) = "15" := by
      have := hnum 15 (by norm_num)
      rw [Nat.cast_ofNat] at this
      rw [this]; rfl
    have n20 : numberToString (.fin 20) = "20" := by
      have := hnum 20 (by norm_num)
      rw [Nat.cast_ofNat] at this
      rw [this]; rfl
    have n25 : numberToString (.fin 25) = "25" := by
      have := hnum 25 (by norm_num)
      rw [Nat.cast_ofNat] at this
      rw [this]; rfl
    have n30 : numberToString (.fin 30) = "30" := by
      have := hnum 30 (by norm_num)
      rw [Nat.cast_ofNat] at this
      rw [this]; rfl
    have n35 : numberToString (.fin 35) = "35" := by
      have := hnum 35 (by norm_num)
      rw [Nat.cast_ofNat] at this
      rw [this]; rfl
    have n40 : numberToString (.fin 40) = "40" := by
      have := hnum 40 (by norm_num)
      rw [Nat.cast_ofNat] at this
      rw [this]; rfl
    simp only [getTooltipGlyphPath, a10, a15, s0, s25, s20, s35, s40, n0, n5, n10, n15, n20,
      n25, n30, n35, n40]
    decide

/-- A concrete instance of `getTooltipGlyphPath_shape`: the example of the
specification, with every number printed as the decimal numeral of its integer
part. -/
theorem getTooltipGlyphPath_shape_witness :
    getTooltipGlyphPath (fun v => (Math.floor v).toJsString) (.fin 30) (.fin 25) (.fin 40)
        (.fin 5) (.fin 5) (.fin 5) (.fin 5) =
      "M 10,30 V 25 L 5,25 Q 0,25,0,20 V 5 Q 0,0,5,0 H 35 Q 40,0,40,5 V 20 Q 40,25,35,25 H 15 L 10,30 z" :=
  (getTooltipGlyphPath_shape (fun v => (Math.floor v).toJsString) (.fin 30) (.fin 25)
    (.fin 40) (.fin 5) (.fin 5) (.fin 5) (.fin 5)).elim fun _ hm =>
      hm.elim fun _ hp => hp.2.2.2.2.2.2.2 fun n _ => by
        simp only [Math.floor, Int.floor_natCast]; rfl

/-! ## The colour index of an interval -/

theorem Math.ceilDiv_bounds (c w : ℕ) (hw : 1 ≤ w) (hc : 1 ≤ c) :
    1 ≤ Math.ceilDiv c w ∧ (Math.ceilDiv c w - 1) * w < c ∧ c ≤ Math.ceilDiv c w * w := by
  have hdm := Nat.div_add_mod (c + w - 1) w
  have hr := Nat.mod_lt (c + w - 1) hw
  unfold Math.ceilDiv
  generalize (c + w - 1) / w = i at *
  generalize (c + w - 1) % w = r at *
  have h1 : 1 ≤ i := by
    rcases Nat.eq_zero_or_pos i with h0 | h0
    · subst h0; simp at hdm; omega
    · exact h0
  refine ⟨h1, ?_, ?_⟩
  · have hsub : (i - 1) * w = w * i - w := by
      rw [Nat.sub_mul, Nat.one_mul, Nat.mul_comm]
    rw [hsub]
    have hge : w ≤ w * i := Nat.le_mul_of_pos_right w h1
    generalize w * i = p at *
    omega
  · rw [Nat.mul_comm]
    generalize w * i = p at *
    omega

theorem Math.ceilDiv_le_eight (c maxCount : ℕ) (hc : c ≤ maxCount) (hmax : 1 ≤ maxCount) :
    Math.ceilDiv c (Math.ceilDiv maxCount 8) ≤ 8 := by
  have hw : 1 ≤ Math.ceilDiv maxCount 8 := by unfold Math.ceilDiv; omega
  have h8 : maxCount ≤ 8 * Math.ceilDiv maxCount 8 := by unfold Math.ceilDiv; omega
  generalize Math.ceilDiv maxCount 8 = w at *
  unfold Math.ceilDiv
  have : (c + w - 1) / w < 9 := by
    rw [Nat.div_lt_iff_lt_mul hw]; omega
  omega

theorem colorIdx_of_pos {kObj : KObj} {w : ℕ} (hsize : kObj.legendRangeSize = some w)
    (hw : 1 ≤ w) (cl : Cluster) :
    colorIdx kObj cl = .int ⌈(cl.hitCount : ℚ) / (w : ℚ)⌉ ∧
      colorIdx kObj cl = .int ((Math.ceilDiv cl.hitCount w : ℕ) : ℤ) := by
  have hne : (w : ℚ) ≠ 0 := by exact_mod_cast (by omega : w ≠ 0)
  have h1 : colorIdx kObj cl = .int ⌈(cl.hitCount : ℚ) / (w : ℚ)⌉ := by
    simp [colorIdx, hsize, JsNum.ofNat, JsNum.quotient, Math.ceil, hne]
  exact ⟨h1, by rw [h1, Math.ceilDiv_eq_ceil _ _ hw]⟩

theorem clusterColor_of_index {kObj : KObj} {cl : Cluster} {i : ℕ} {entry : LegendColor}
    (hmode : kObj.currentVisualType ≠ some "giesma")
    (hidx : colorIdx kObj cl = .int (i : ℤ)) (hentry : kObj.legendColors[i]? = some entry) :
    clusterColor kObj cl = .str entry.color := by
  have hlt : i < kObj.legendColors.length := by
    rcases Nat.lt_or_ge i kObj.legendColors.length with h | h
    · exact h
    · rw [List.getElem?_eq_none h] at hentry; cases hentry
  unfold clusterColor
  rw [if_pos ⟨hmode, by rw [hidx]; simp [JsInt.ltNat, hlt]⟩, hidx]
  simp [legendColorAt, hentry]

theorem selectMode_documented (kObj : KObj) {m : String}
    (hm : m = "all" ∨ m = "nrph" ∨ m = "giesma") :
    ((selectMode kObj m).2 = some "all" → (selectMode kObj m).1 = kObj.maxHitClusterSize) ∧
    ((selectMode kObj m).2 = some "nrph" → (selectMode kObj m).1 = kObj.maxNrphHitClusterSize) := by
  unfold selectMode
  rcases hm with rfl | rfl | rfl
  · simp
  · simp
  · by_cases hh : kObj.hasGiesmaDetails = 0 <;> simp [hh]

/-- After calls with the three documented modes only, the legend is the one of
the recorded mode. -/
theorem legend_in_sync {data : KaryotypeData} {k0 : KObj} (h : Karyotype data = some k0)
    (types : List String) (hdoc : ∀ t ∈ types, t = "all" ∨ t = "nrph" ∨ t = "giesma") :
    ∀ maxCount,
      (((calls k0 types).currentVisualType = some "all" ∧
          maxCount = maxThird (allHitClusters data)) ∨
        ((calls k0 types).currentVisualType = some "nrph" ∧
          maxCount = maxThird (allNrphHitClusters data))) →
      (calls k0 types).legendRangeSize = some (Math.ceilDiv maxCount 8) ∧
      (calls k0 types).legendColors.map LegendColor.desc =
        .str "0" :: (legendBounds (Math.ceilDiv maxCount 8) maxCount).map
          (fun b => .str (rangeLabel b.1 b.2)) := by
  obtain ⟨first, -, hb⟩ := built_of_Karyotype h
  induction types using List.reverseRecOn with
  | nil =>
    intro maxCount hmode
    have hcur : (calls k0 []).currentVisualType = some "all" := by
      unfold Karyotype at h
      split at h
      · cases h
      · cases h; rfl
    rcases hmode with ⟨-, rfl⟩ | ⟨hn, -⟩
    · exact (legend_of_built_or_redrawn [] "all" h (Or.inl ⟨rfl, rfl⟩)).2
    · rw [hcur] at hn; exact absurd hn (by decide)
  | append_singleton types m ih =>
    intro maxCount hmode
    have hdoc' : ∀ t ∈ types, t = "all" ∨ t = "nrph" ∨ t = "giesma" :=
      fun t ht => hdoc t (List.mem_append_left _ ht)
    have hm : m = "all" ∨ m = "nrph" ∨ m = "giesma" := hdoc m (by simp)
    rw [calls_snoc] at hmode ⊢
    by_cases h_ne : some m = (calls k0 types).currentVisualType
    · rw [switchVisualization_of_eq h_ne] at hmode ⊢
      exact ih hdoc' maxCount hmode
    · have hk := built_calls hb types
      have hcur := switchVisualization_currentVisualType h_ne
      have hsel := selectMode_documented (calls k0 types) hm
      have hmax : maxCount = (selectMode (calls k0 types) m).1 := by
        rcases hmode with ⟨hc, rfl⟩ | ⟨hc, rfl⟩
        · rw [hsel.1 (hcur ▸ hc), hk.maxHit_eq]
        · rw [hsel.2 (hcur ▸ hc), hk.maxNrph_eq]
      exact (legend_of_built_or_redrawn types m h (Or.inr ⟨rfl, h_ne, hmax⟩)).2

theorem legend_entry {legendColors : List LegendColor} {descs : List JsVal}
    (hcol : legendColors.map LegendColor.color = initialLegendColors.map LegendColor.color)
    (hdesc : legendColors.map LegendColor.desc = descs) (i : ℕ) (hi : i < 9) :
    ∃ entry, legendColors[i]? = some entry ∧
      initialLegendColors[i]?.map LegendColor.color = some entry.color ∧
      descs[i]? = some entry.desc := by
  have hlen := length_legendColors_of_colors hcol
  have hget : legendColors[i]? = some (legendColors[i]) :=
    List.getElem?_eq_getElem (by omega)
  refine ⟨legendColors[i], hget, ?_, ?_⟩
  · rw [← List.getElem?_map, ← hcol, List.getElem?_map, hget]; rfl
  · rw [← hdesc, List.getElem?_map, hget]; rfl

theorem mem_active_le_max {data : KaryotypeData} {kObj : KObj} {m : String} {maxCount : ℕ}
    (hm : m = "all" ∨ m = "nrph") (hcur : kObj.currentVisualType = some m)
    (hmax : maxCount = if m = "all" then maxThird (allHitClusters data)
      else maxThird (allNrphHitClusters data))
    {contig : Contig} (hc : contig ∈ data.singleton_contigs) {cl : Cluster}
    (hcl : cl ∈ activeClusters kObj contig) : cl.hitCount ≤ maxCount := by
  unfold activeClusters at hcl
  rcases hm with rfl | rfl
  · rw [hcur, if_neg (by decide)] at hcl
    rw [hmax, if_pos rfl]
    exact le_maxThird (List.mem_flatMap.2 ⟨contig, hc, hcl⟩)
  · rw [hcur, if_pos rfl] at hcl
    rw [hmax, if_neg (by decide)]
    exact le_maxThird (List.mem_flatMap.2 ⟨contig, hc, hcl⟩)

/-- Claim C11, amended.  Let `m` be "all" or "nrph", let `maxCount` be the
maximum hit count of the cluster lists `m` draws, and let `kObj` be the object
after `switchVisualization(m)`, where either this call redraws or every call
before it was for "all", "nrph" or "giesma".  Then `m` is the current type and
`legendRangeSize` is `w = Math.ceil(maxCount / 8)`.  Every interval of the
active cluster list with count `c >= 1` has the colour index
`i = Math.ceil(c / w)` with `1 <= i <= 8` and `(i-1)*w < c <= i*w`; its
rectangle is in the svg and is filled with the colour of legend entry `i`,
which is not the fallback "white", and the range written on entry `i`
contains `c`. -/
theorem interval_colour (data : KaryotypeData) (k0 : KObj) (types : List String) (m : String)
    (kObj : KObj) (maxCount : ℕ) (h : Karyotype data = some k0)
    (hm : m = "all" ∨ m = "nrph")
    (hk : kObj = switchVisualization (calls k0 types) m)
    (hmax : maxCount = if m = "all" then maxThird (allHitClusters data)
      else maxThird (allNrphHitClusters data))
    (hsync : some m ≠ (calls k0 types).currentVisualType ∨
      ∀ t ∈ types, t = "all" ∨ t = "nrph" ∨ t = "giesma") :
    kObj.currentVisualType = some m ∧
    kObj.legendRangeSize = some (Math.ceilDiv maxCount 8) ∧
    ∀ contig ∈ data.singleton_contigs, ∀ cl ∈ activeClusters kObj contig, 1 ≤ cl.hitCount →
      1 ≤ maxCount ∧
      ∃ i : ℕ, colorIdx kObj cl = .int (i : ℤ) ∧
        (i : ℤ) = ⌈(cl.hitCount : ℚ) / ((Math.ceilDiv maxCount 8 : ℕ) : ℚ)⌉ ∧
        1 ≤ i ∧ i ≤ 8 ∧
        (i - 1) * Math.ceilDiv maxCount 8 < cl.hitCount ∧
        cl.hitCount ≤ i * Math.ceilDiv maxCount 8 ∧
        ∃ color lo hi,
          kObj.legendColors[i]? = some ⟨color, .str (toString lo ++ "-" ++ toString hi)⟩ ∧
          initialLegendColors[i]?.map LegendColor.color = some color ∧
          (legendBounds (Math.ceilDiv maxCount 8) maxCount)[i - 1]? = some (lo, hi) ∧
          lo ≤ cl.hitCount ∧ cl.hitCount ≤ hi ∧
          clusterColor kObj cl = .str color ∧ color ≠ "white" ∧
          ∃ svg x, kObj.svg = some svg ∧ hcBlock kObj x contig cl ∈ svg.children ∧
            (hcBlock kObj x contig cl).attr? "fill" = some (.str color) := by
  obtain ⟨first, -, hb⟩ := built_of_Karyotype h
  have hk' := built_calls hb types
  have hbk : Built data first kObj := by rw [hk]; exact built_switchVisualization hk' m
  -- the recorded mode
  have hcur : kObj.currentVisualType = some m := by
    rw [hk]
    by_cases h_ne : some m = (calls k0 types).currentVisualType
    · rw [switchVisualization_of_eq h_ne]; exact h_ne.symm
    · rw [switchVisualization_currentVisualType h_ne]
      exact selectMode_of_recorded (by
        rcases hm with hm | hm
        · exact Or.inl hm
        · exact Or.inr (Or.inl hm))
  -- the legend
  have hleg : kObj.legendRangeSize = some (Math.ceilDiv maxCount 8) ∧
      kObj.legendColors.map LegendColor.desc =
        .str "0" :: (legendBounds (Math.ceilDiv maxCount 8) maxCount).map
          (fun b => .str (rangeLabel b.1 b.2)) := by
    by_cases h_ne : some m = (calls k0 types).currentVisualType
    · have hdoc : ∀ t ∈ types, t = "all" ∨ t = "nrph" ∨ t = "giesma" := by
        rcases hsync with hs | hs
        · exact absurd h_ne hs
        · exact hs
      rw [hk, switchVisualization_of_eq h_ne]
      apply legend_in_sync h types hdoc maxCount
      rcases hm with rfl | rfl
      · exact Or.inl ⟨h_ne.symm, by rw [hmax, if_pos rfl]⟩
      · exact Or.inr ⟨h_ne.symm, by rw [hmax, if_neg (by decide)]⟩
    · have hsel : maxCount = (selectMode (calls k0 types) m).1 := by
        rcases hm with rfl | rfl
        · rw [hmax, if_pos rfl]; simp [selectMode, hk'.maxHit_eq]
        · rw [hmax, if_neg (by decide)]; simp [selectMode, hk'.maxNrph_eq]
      exact (legend_of_built_or_redrawn types m h (Or.inr ⟨hk, h_ne, hsel⟩)).2
  refine ⟨hcur, hleg.1, ?_⟩
  intro contig hc cl hcl hc1
  have hle : cl.hitCount ≤ maxCount := mem_active_le_max hm hcur hmax hc hcl
  have hmax1 : 1 ≤ maxCount := le_trans hc1 hle
  have hw : 1 ≤ Math.ceilDiv maxCount 8 := by unfold Math.ceilDiv; omega
  have h8w : maxCount ≤ 8 * Math.ceilDiv maxCount 8 := by unfold Math.ceilDiv; omega
  obtain ⟨hi1, hlo, hhi⟩ := Math.ceilDiv_bounds cl.hitCount _ hw hc1
  have hi8 := Math.ceilDiv_le_eight cl.hitCount maxCount hle hmax1
  obtain ⟨hceil, hidx⟩ := colorIdx_of_pos hleg.1 hw cl
  have hmode : kObj.currentVisualType ≠ some "giesma" := by
    rw [hcur]; rcases hm with rfl | rfl <;> decide
  obtain ⟨entry, hentry, hcolor, hdesc⟩ :=
    legend_entry hbk.colors_eq hleg.2 (Math.ceilDiv cl.hitCount (Math.ceilDiv maxCount 8))
      (by omega)
  have hfill := clusterColor_of_index hmode hidx hentry
  obtain ⟨svg, hsvg, hchildren, -⟩ := hbk.svg_drawn
  obtain ⟨x, hx, -⟩ := hcBlock_mem_drawing kObj (by rw [hbk.data_eq]; exact hc) hcl
  refine ⟨hmax1, Math.ceilDiv cl.hitCount (Math.ceilDiv maxCount 8), hidx,
    Math.ceilDiv_eq_ceil _ _ hw, hi1, hi8, hlo, hhi, ?_⟩
  generalize Math.ceilDiv maxCount 8 = w at *
  generalize Math.ceilDiv cl.hitCount w = i at *
  obtain ⟨color, desc⟩ := entry
  simp only at hcolor hdesc hfill
  have hcases : i = 1 ∨ i = 2 ∨ i = 3 ∨ i = 4 ∨ i = 5 ∨ i = 6 ∨ i = 7 ∨ i = 8 := by omega
  have hrest : clusterColor kObj cl = .str color ∧
      ∃ svg x, kObj.svg = some svg ∧ hcBlock kObj x contig cl ∈ svg.children ∧
        (hcBlock kObj x contig cl).attr? "fill" = some (.str color) :=
    ⟨hfill, svg, x, hsvg, by rw [hchildren]; exact hx, by rw [fill_hcBlock, hfill]⟩
  rcases hcases with rfl | rfl | rfl | rfl | rfl | rfl | rfl | rfl
  all_goals
    simp only [legendBounds, rangeLabel, initialLegendColors, List.getElem?_cons_succ,
      List.getElem?_cons_zero, List.map_cons, Option.map_some', Option.some.injEq,
      Nat.reduceSub, Nat.reduceAdd] at hcolor hdesc hlo hhi
    subst hcolor
    subst hdesc
    refine ⟨_, _, _, hentry, rfl, rfl, ?_, ?_, hrest.1, by decide, hrest.2⟩ <;> omega

/-- A concrete instance of `interval_colour`: the mode "all" on the object
constructed from the example data. -/
theorem interval_colour_witness :
    (switchVisualization (calls (construct exampleData chr1) []) "all").legendRangeSize =
      some (Math.ceilDiv (maxThird (allHitClusters exampleData)) 8) :=
  (interval_colour exampleData (construct exampleData chr1) [] "all"
    (switchVisualization (calls (construct exampleData chr1) []) "all")
    (maxThird (allHitClusters exampleData)) rfl (Or.inl rfl) rfl (if_pos rfl).symm
    (Or.inr (fun t ht => absurd ht (List.not_mem_nil t)))).2.1

/-- Claim C11 as stated fails: on the example data, whose maximum hit count is
50, the call `switchVisualization("foo")` sets the legend range size to 0 and
leaves the current type "all", so the following `switchVisualization("all")`
is skipped.  After it the interval [100, 200, 5] of the active cluster list
has the colour index `Infinity` and its rectangle in the svg is filled with
the fallback "white". -/
theorem interval_colour_lost_after_unknown :
    Karyotype exampleData = some (construct exampleData chr1) ∧
    maxThird (allHitClusters exampleData) = 50 ∧
    (switchVisualization (switchVisualization (construct exampleData chr1) "foo")
      "all").currentVisualType = some "all" ∧
    (switchVisualization (switchVisualization (construct exampleData chr1) "foo")
      "all").legendRangeSize = some 0 ∧
    (⟨100, 200, 5⟩ : Cluster) ∈
      activeClusters (switchVisualization (switchVisualization (construct exampleData chr1)
        "foo") "all") chr1 ∧
    colorIdx (switchVisualization (switchVisualization (construct exampleData chr1) "foo")
      "all") ⟨100, 200, 5⟩ = .posInf ∧
    clusterColor (switchVisualization (switchVisualization (construct exampleData chr1) "foo")
      "all") ⟨100, 200, 5⟩ = .str "white" ∧
    ∃ svg x,
      (switchVisualization (switchVisualization (construct exampleData chr1) "foo")
        "all").svg = some svg ∧
      hcBlock (switchVisualization (switchVisualization (construct exampleData chr1) "foo")
        "all") x chr1 ⟨100, 200, 5⟩ ∈ svg.children ∧
      (hcBlock (switchVisualization (switchVisualization (construct exampleData chr1) "foo")
        "all") x chr1 ⟨100, 200, 5⟩).attr? "fill" = some (.str "white") := by
  have hb : Built exampleData chr1
      (switchVisualization (switchVisualization (construct exampleData chr1) "foo") "all") :=
    built_switchVisualization (built_switchVisualization (built_construct _ _) _) _
  generalize hkdef :
    switchVisualization (switchVisualization (construct exampleData chr1) "foo") "all" = k
    at hb ⊢
  have hcur : k.currentVisualType = some "all" := by rw [← hkdef]; decide
  have hsize : k.legendRangeSize = some 0 := by rw [← hkdef]; decide
  have hmem : (⟨100, 200, 5⟩ : Cluster) ∈ activeClusters k chr1 := by
    rw [← hkdef]; decide
  have hidx : colorIdx k ⟨100, 200, 5⟩ = .posInf := by
    simp [colorIdx, hsize, JsNum.ofNat, JsNum.quotient, Math.ceil]
  have hfill : clusterColor k ⟨100, 200, 5⟩ = .str "white" := by
    simp [clusterColor, hidx, JsInt.ltNat]
  obtain ⟨svg, hsvg, hchildren, -⟩ := hb.svg_drawn
  obtain ⟨x, hx, -⟩ := hcBlock_mem_drawing k
    (by rw [hb.data_eq]; exact List.mem_singleton.2 rfl) hmem
  exact ⟨rfl, by decide, hcur, hsize, hmem, hidx, hfill, svg, x, hsvg,
    by rw [hchildren]; exact hx, by rw [fill_hcBlock, hfill]⟩

/-! ## The Giesma band rectangles -/

theorem giBand_mem_drawing (kObj : KObj) (contig : Contig) (bands : List Band) (band : Band)
    (hmode : kObj.currentVisualType = some "giesma")
    (hc : contig ∈ kObj.karyotype_data.singleton_contigs)
    (hbands : contig.giesma_bands = some bands) (hband : band ∈ bands) :
    ∃ x, giBand kObj x contig band ∈ drawing kObj ∧ sideLine kObj contig x ∈ drawing kObj := by
  obtain ⟨x, hx⟩ := drawContig_mem_drawing kObj hc
  refine ⟨x, hx _ ?_, hx _ (by simp [drawContig])⟩
  simp only [drawContig, drawGiesmaBands, hmode, hbands, if_true, List.mem_append, List.mem_map]
  exact Or.inr ⟨band, hband, rfl⟩

theorem giBand_attrs {kObj : KObj} {p : ℚ} (hp : kObj.pixelsPerBP = .fin p) (x : ℕ)
    (contig : Contig) (band : Band) :
    (giBand kObj x contig band).attr? "y" = some (.num
      (JsInt.add (JsInt.sub (.int 300) (Math.floor (roundDouble ((contig.size : ℚ) * p))))
        (Math.floor (roundDouble ((band.startPos : ℚ) * p))))) ∧
    (giBand kObj x contig band).attr? "height" = some (.num
      (JsInt.sub (Math.floor (roundDouble ((band.endPos : ℚ) * p)))
        (Math.floor (roundDouble ((band.startPos : ℚ) * p))))) := by
  constructor
  · simp [giBand, Node.attr?, Node.attrs, List.find?, contigPixelHeight_eq hp,
      pixelOffset_eq hp, JsInt.ofNat, svgHeight]
  · simp [giBand, Node.attr?, Node.attrs, List.find?, pixelOffset_eq hp]

/-- The position of a Giesma band rectangle in general, for a contig and a
band within the size of the first contig (which is below `2^43`): with
`hc = floor(size * pixelsPerBP)`, `hs = floor(start * pixelsPerBP)` and
`he = floor(end * pixelsPerBP)` as the code computes them, the rectangle starts
`contigCapPixelSize = 10` pixels plus `hs` below `cylinderY1`, never above it,
and it ends at or above `cylinderY2 = 290` only if `he + 10 <= hc`; a band that
ends at the end of its contig ends at 300. -/
theorem giBand_geometry (data : KaryotypeData) (k0 : KObj) (types : List String)
    (first : Contig) (h : Karyotype data = some k0)
    (hfirst : data.singleton_contigs.head? = some first) (hpos : 0 < first.size)
    (hsize : first.size < 2 ^ 43)
    (x : ℕ) (contig : Contig) (band : Band) (hcontig : contig.size ≤ first.size)
    (hstart : band.startPos ≤ first.size) (hend : band.endPos ≤ first.size) :
    ∃ y height top hc hs he : ℤ,
      (giBand (calls k0 types) x contig band).attr? "y" = some (.num (.int y)) ∧
      (giBand (calls k0 types) x contig band).attr? "height" = some (.num (.int height)) ∧
      cylinderY1 (calls k0 types) contig = .int top ∧
      contigPixelHeight (calls k0 types) contig = .int hc ∧
      pixelOffset (calls k0 types) band.startPos = .int hs ∧
      pixelOffset (calls k0 types) band.endPos = .int he ∧
      top = 290 - hc ∧
      y = top + 10 + hs ∧
      top ≤ y ∧
      y + height = 300 - hc + he ∧
      (y + height ≤ 290 ↔ he + 10 ≤ hc) ∧
      (band.endPos = contig.size → y + height = 300) := by
  obtain ⟨first', hfirst', hb⟩ := built_of_Karyotype h
  rw [hfirst] at hfirst'
  cases hfirst'
  have hk := built_calls hb types
  generalize calls k0 types = k at hk ⊢
  obtain ⟨p, hpfin, hprel⟩ := scale_rel hpos hsize
  have hp : k.pixelsPerBP = .fin p := by rw [pixelsPerBP_of_pos hk hpos, hpfin]
  obtain ⟨hc, hhc, -, -⟩ := floor_scale hpos hsize hcontig hprel
  obtain ⟨hs, hhs, hs0, -⟩ := floor_scale hpos hsize hstart hprel
  obtain ⟨he, hhe, -, -⟩ := floor_scale hpos hsize hend hprel
  obtain ⟨hy, hh⟩ := giBand_attrs hp x contig band
  rw [hhc, hhs] at hy
  rw [hhe, hhs] at hh
  have htop := cylinderY1_eq hp contig
  rw [hhc] at htop
  refine ⟨300 - hc + hs, he - hs, 290 - hc, hc, hs, he, hy, hh, htop, ?_, ?_, ?_, rfl, ?_, ?_,
    ?_, ?_, ?_⟩
  · rw [contigPixelHeight_eq hp, hhc]
  · rw [pixelOffset_eq hp, hhs]
  · rw [pixelOffset_eq hp, hhe]
  · omega
  · omega
  · omega
  · constructor <;> intro hle <;> omega
  · intro heq
    rw [heq, hhc] at hhe
    cases hhe
    omega

/-- Claim C12 against the code.  On the dataset `bandedData` in mode "giesma"
the contig has size 1000, the size of the first contig, and its cylinder runs
from `cylinderY1 = 10` to `cylinderY2 = 290`.  The band [501, 1000, 8], with
`1 <= 501 <= 1000 <= 1000`, is drawn as a rectangle of the svg with `y = 160`
and `height = 140`: it ends at 300, below `cylinderY2`.  The band [1, 500, 0]
starts at `y = 20`, and the hit rectangle of the interval [100, 200, 5] at
`y = 38 = cylinderY1 + 28`: hit rectangles are placed from `cylinderY1`, band
rectangles from `svgHeight - contigPixelHeight`, which is
`contigCapPixelSize = 10` pixels lower. -/
theorem giesma_band_exceeds_cylinder :
    Karyotype bandedData = some (construct bandedData bandedContig) ∧
    (switchVisualization (construct bandedData bandedContig) "giesma").currentVisualType =
      some "giesma" ∧
    bandedData.singleton_contigs.head? = some bandedContig ∧
    bandedContig.giesma_bands = some [⟨1, 500, 0⟩, ⟨501, 1000, 8⟩] ∧
    ((1 : ℕ) ≤ 501 ∧ (501 : ℕ) ≤ 1000 ∧ 1000 ≤ bandedContig.size) ∧
    cylinderY1 (switchVisualization (construct bandedData bandedContig) "giesma")
      bandedContig = .int 10 ∧
    cylinderY2 = 290 ∧
    (∃ svg x,
      (switchVisualization (construct bandedData bandedContig) "giesma").svg = some svg ∧
      giBand (switchVisualization (construct bandedData bandedContig) "giesma") x
        bandedContig ⟨501, 1000, 8⟩ ∈ svg.children ∧
      (giBand (switchVisualization (construct bandedData bandedContig) "giesma") x
        bandedContig ⟨501, 1000, 8⟩).attr? "y" = some (.num (.int 160)) ∧
      (giBand (switchVisualization (construct bandedData bandedContig) "giesma") x
        bandedContig ⟨501, 1000, 8⟩).attr? "height" = some (.num (.int 140)) ∧
      (giBand (switchVisualization (construct bandedData bandedContig) "giesma") x
        bandedContig ⟨1, 500, 0⟩).attr? "y" = some (.num (.int 20)) ∧
      (hcBlock (switchVisualization (construct bandedData bandedContig) "giesma") x
        bandedContig ⟨100, 200, 5⟩).attr? "y" = some (.num (.int 38))) ∧
    ¬ ((160 : ℤ) + 140 ≤ 290) := by
  have hb : Built bandedData bandedContig
      (switchVisualization (construct bandedData bandedContig) "giesma") :=
    built_switchVisualization (built_construct _ _) _
  have hcur : (switchVisualization (construct bandedData bandedContig)
      "giesma").currentVisualType = some "giesma" := by decide
  generalize switchVisualization (construct bandedData bandedContig) "giesma" = k
    at hb hcur ⊢
  have hv := pixelOffset_1000 hb rfl
  have hh : contigPixelHeight k bandedContig = .int 280 := by
    rw [contigPixelHeight_eq_pixelOffset]; exact hv.1
  have htop : cylinderY1 k bandedContig = .int 10 := by
    simp only [cylinderY1, hh]; rfl
  obtain ⟨svg, hsvg, hchildren, -⟩ := hb.svg_drawn
  obtain ⟨x, hx, -⟩ := giBand_mem_drawing k bandedContig [⟨1, 500, 0⟩, ⟨501, 1000, 8⟩]
    ⟨501, 1000, 8⟩ hcur (by rw [hb.data_eq]; exact List.mem_singleton.2 rfl) rfl (by decide)
  have h2y : (giBand k x bandedContig ⟨501, 1000, 8⟩).attr? "y" = some (.num (.int 160)) := by
    simp only [giBand, Node.attr?, Node.attrs, List.find?, hh, hv.2.2.2.2.2]
    rfl
  have h2h : (giBand k x bandedContig ⟨501, 1000, 8⟩).attr? "height" =
      some (.num (.int 140)) := by
    simp only [giBand, Node.attr?, Node.attrs, List.find?, hv.1, hv.2.2.2.2.2]
    rfl
  have h1y : (giBand k x bandedContig ⟨1, 500, 0⟩).attr? "y" = some (.num (.int 20)) := by
    simp only [giBand, Node.attr?, Node.attrs, List.find?, hh, hv.2.2.2.1]
    rfl
  have hhit : (hcBlock k x bandedContig ⟨100, 200, 5⟩).attr? "y" =
      some (.num (.int 38)) := by
    simp only [hcBlock, Node.attr?, Node.attrs, List.find?, htop, hv.2.1]
    rfl
  exact ⟨rfl, hcur, rfl, rfl, by decide, htop, rfl,
    ⟨svg, x, hsvg, by rw [hchildren]; exact hx, h2y, h2h, h1y, hhit⟩, by decide⟩
end KaryotypeJs
